import Mathlib

/-!
Verification of the world-streaming and procedural-placement engine of
`donsmoore/games-v1` (src/js/terrain.js, third segment of the file, lines
737-1538, which is the authoritative version; plus the boss-tree damage
logic from src/unnamed/part_001 and the baobab loader from src/js/assets.js).

Modelling conventions:
- JavaScript numbers are modelled as elements of an arbitrary linear ordered
  field `R` with a floor function.  The transcendental functions used by the
  source (`Math.sin`, `Math.cos`, `Math.sqrt` via `Math.hypot`, `Math.atan2`,
  `Math.PI`) are supplied as a parameter record `RealOps R`; theorems about
  the concrete program instantiate `R := ℝ` with the genuine functions.
- Each `Math.random()` draw is modelled as a value taken from an environment
  of independent streams (`ChunkRand`), one stream per syntactic call site,
  indexed by the enclosing loop counters.  This is faithful because the
  source draws are independent and unconstrained beyond lying in [0,1).
- JavaScript object identity (reference equality, used by `filter(t => t !==
  tree)` and `indexOf`) is modelled by a unique numeric `id` assigned to each
  created entity from a monotone counter; removal operations filter on `id`.
- `THREE`-level mesh construction (vertex colors, cone displacement noise,
  materials, the scene graph) has no effect on any placement decision,
  registry content or queried field, and is omitted; geometry data the code
  does read (a building prefab's bounding box) is carried as explicit fields.
- Fields that the source initialises with `Infinity` sentinels
  (`currentChunk`) or `-Infinity` fold seeds (runway height sampling) are
  modelled with `Option` and a nonempty-fold respectively.
-/

namespace Games

/-- The transcendental operations the terrain code uses, abstracted so that
the model stays executable over any ordered field. -/
structure RealOps (R : Type) where
  sin : R → R
  cos : R → R
  sqrt : R → R
  atan2 : R → R → R
  pi : R

/-- An observer position; `update` reads only `x` and `z`. -/
structure Pos3 (R : Type) where
  x : R
  y : R
  z : R
  deriving DecidableEq

section Model

variable {R : Type} [LinearOrderedField R] [FloorRing R]

/-- Spacing constant from terrain.js line 741: runway footprint + buffer. -/
def RUNWAY_SAFE_RADIUS : R := 120

/-- Spacing constant from terrain.js line 742: conservative mountain base
radius estimate used before the mountain is built. -/
def MOUNTAIN_RADIUS_ESTIMATE : R := 150

/-- Spacing constant from terrain.js line 743: extra gap between runways and
mountains. -/
def RUNWAY_MOUNTAIN_BUFFER : R := 80

/-- terrain.js lines 745-750: the height field. -/
def getHeight (ops : RealOps R) (x z : R) : R :=
  ops.sin (x * 0.05) * ops.cos (z * 0.05) * 5 + ops.sin (x * 0.01) * 5 + 4

/-- `Math.hypot(a, b)` as used for all XZ distances in terrain.js. -/
def hypot (ops : RealOps R) (a b : R) : R :=
  ops.sqrt (a * a + b * b)

/-- A regular tree (`tree` clones in the scatter loops).  `chunkRef` models
`tree.userData.chunk`; it is `none` when the code never assigned it, which is
the case for the secondary ring of trees placed around a mountain
(terrain.js lines 1250-1272).  `variant` records which entry of the available
tree-model list was cloned. -/
structure Tree (R : Type) where
  id : ℕ
  variant : ℕ
  x : R
  y : R
  z : R
  scaleMul : R
  chunkRef : Option ℕ
  deriving DecidableEq

/-- A baobab (boss) tree from the dedicated scatter loop
(terrain.js lines 1044-1072); its `userData.chunk` is always set. -/
structure Baobab (R : Type) where
  id : ℕ
  x : R
  y : R
  z : R
  chunkRef : Option ℕ
  deriving DecidableEq

/-- A runway; `safeRadius` models `userData.safeRadius` (always 120 when
built, terrain.js line 1367). -/
structure Runway (R : Type) where
  id : ℕ
  x : R
  y : R
  z : R
  rotY : R
  safeRadius : R
  deriving DecidableEq

/-- A mountain; `baseRadius`/`maxHeight` model `userData.baseRadius` and
`userData.maxHeight` (terrain.js lines 1220-1221). -/
structure Mountain (R : Type) where
  id : ℕ
  x : R
  y : R
  z : R
  baseRadius : R
  maxHeight : R
  deriving DecidableEq

/-- A placed building; `hx`/`hz` model `userData.halfExtents` in XZ and
`chunkRef` models `userData.chunk` (terrain.js lines 1433-1437). -/
structure Building (R : Type) where
  id : ℕ
  x : R
  y : R
  z : R
  hx : R
  hz : R
  chunkRef : Option ℕ
  deriving DecidableEq

/-- A building prefab supplied by the asset loader: the bounding-box data the
placement code reads from it (`Box3.setFromObject` size and minimum `y` of
the unscaled prefab; scaling by `s` scales both uniformly). -/
structure Prefab (R : Type) where
  sx : R
  sy : R
  sz : R
  minY : R
  deriving DecidableEq

/-- Which optional model handles the `TerrainManager` constructor received
(each is an opaque clonable handle in the source; only presence matters),
plus the building prefab list. -/
structure Models (R : Type) where
  treeModel : Bool
  roundTreeModel : Bool
  palmTreeModel : Bool
  mushroomTreeModel : Bool
  baobabTreeModel : Bool
  runwayTexture : Bool
  buildingModels : List (Prefab R)
  deriving DecidableEq

/-- One chunk's random draws, one stream per call site of `Math.random()`
inside the `Chunk` constructor, indexed by the loop counters that enclose
the call.  Streams for the omitted pure-mesh noise are not represented. -/
structure ChunkRand (R : Type) where
  treeX : ℕ → R
  treeZ : ℕ → R
  treeType : ℕ → R
  treeScale : ℕ → R
  baobabX : ℕ → R
  baobabZ : ℕ → R
  mAngle : ℕ → R
  mDist : ℕ → R
  numPeaks : R
  peakHeight : ℕ → R
  peakRadius : ℕ → R
  peakOffDist : ℕ → R
  peakOffAngle : ℕ → R
  ringCount : R
  ringAngle : ℕ → R
  ringDist : ℕ → R
  ringScale : ℕ → R
  rwDist : ℕ → R
  rwAngle : ℕ → R
  rwRot : R
  cityRadius : ℕ → R
  cityAngle : ℕ → R
  cityCount : ℕ → R
  bOffX : ℕ → ℕ → R
  bOffZ : ℕ → ℕ → R
  bPrefab : ℕ → ℕ → R
  bScale : ℕ → ℕ → R
  fbX : R
  fbZ : R
  fbPrefab : R
  fbScale : R

/-- The per-chunk owned state (`this.trees`, `this.baobabTrees`,
`this.runways`, `this.buildings`, `this.mountain`). -/
structure Chunk (R : Type) where
  id : ℕ
  cx : ℤ
  cz : ℤ
  trees : List (Tree R)
  baobabTrees : List (Baobab R)
  runways : List (Runway R)
  buildings : List (Building R)
  mountain : Option (Mountain R)
  deriving DecidableEq

/-- The `TerrainManager` state.  `currentChunk = none` models the
`{x: Infinity, z: Infinity}` sentinel (a finite position never maps to it);
`chunks` is the string-keyed object as an insertion-ordered association
list; `nextId` is the model's identity counter. -/
structure TM (R : Type) where
  models : Models R
  chunkSize : R
  currentChunk : Option (ℤ × ℤ)
  chunks : List ((ℤ × ℤ) × Chunk R)
  activeTrees : List (Tree R)
  activeBaobabTrees : List (Baobab R)
  activeBuildings : List (Building R)
  globalRunways : List (Runway R)
  globalMountains : List (Mountain R)
  nextId : ℕ
  deriving DecidableEq

/-- terrain.js lines 775-776: the chunk coordinate of one world axis value. -/
def chunkCoord (size c : R) : ℤ := ⌊(c + size / 2) / size⌋

/-- The chunk coordinate pair of an observer position. -/
def coordOf (size : R) (p : Pos3 R) : ℤ × ℤ :=
  (chunkCoord size p.x, chunkCoord size p.z)

/-- terrain.js lines 788-791: the 3x3 keep-set around a center coordinate,
in the source's iteration order (x outer, z inner). -/
def windowKeys (c : ℤ × ℤ) : List (ℤ × ℤ) :=
  [c.1 - 1, c.1, c.1 + 1].flatMap fun x =>
    [c.2 - 1, c.2, c.2 + 1].map fun z => (x, z)

end Model

section Generation

variable {R : Type} [LinearOrderedField R] [FloorRing R]

/-- terrain.js lines 1012-1018: the list of available tree model variants,
in the order the source pushes them. -/
def treeTypes (m : Models R) : List ℕ :=
  (if m.treeModel then [0] else []) ++ (if m.roundTreeModel then [1] else []) ++
  (if m.palmTreeModel then [2] else []) ++ (if m.mushroomTreeModel then [3] else [])

/-- terrain.js lines 990-1042: the regular-tree scatter loop (20 candidates).
State is (placed trees, next fresh id).  Candidates inside the origin
chunk's runway exclusion zone or below the water line are skipped. -/
def scatterTrees (ops : RealOps R) (rand : ChunkRand R) (m : Models R)
    (cx cz : ℤ) (size : R) (cid : ℕ) (nid0 : ℕ) : List (Tree R) × ℕ :=
  List.foldl
    (fun acc i =>
      let tLocalX := (rand.treeX i - 0.5) * size
      let tLocalZ := (rand.treeZ i - 0.5) * size
      let tx := (cx : R) * size + tLocalX
      let tz := (cz : R) * size + tLocalZ
      if cx = 0 ∧ cz = 0 ∧ |tx| < 50 ∧ |tz| < 200 then acc
      else
        let ty := getHeight ops tx tz
        if ty > -1 then
          let types := treeTypes m
          if types.length > 0 then
            let variant := types.getD (⌊rand.treeType i * (types.length : R)⌋).toNat 0
            let s := 0.5 + rand.treeScale i * 0.5
            (acc.1 ++ [⟨acc.2, variant, tx, ty, tz, s, some cid⟩], acc.2 + 1)
          else acc
        else acc)
    ([], nid0) (List.range 20)

/-- terrain.js lines 1044-1072: the baobab (boss tree) scatter loop
(10 candidates, larger exclusion zone, no scale variation). -/
def scatterBaobabs (ops : RealOps R) (rand : ChunkRand R)
    (cx cz : ℤ) (size : R) (cid : ℕ) (nid0 : ℕ) : List (Baobab R) × ℕ :=
  List.foldl
    (fun acc i =>
      let tLocalX := (rand.baobabX i - 0.5) * size
      let tLocalZ := (rand.baobabZ i - 0.5) * size
      let tx := (cx : R) * size + tLocalX
      let tz := (cz : R) * size + tLocalZ
      if cx = 0 ∧ cz = 0 ∧ |tx| < 100 ∧ |tz| < 250 then acc
      else
        let ty := getHeight ops tx tz
        if ty > -1 then (acc.1 ++ [⟨acc.2, tx, ty, tz, some cid⟩], acc.2 + 1)
        else acc)
    ([], nid0) (List.range 10)

/-- terrain.js line 1093: `(r.userData && r.userData.safeRadius) ||
RUNWAY_SAFE_RADIUS` (a zero stored radius also falls back). -/
def runwayRadiusOf (r : Runway R) : R :=
  if r.safeRadius = 0 then RUNWAY_SAFE_RADIUS else r.safeRadius

/-- terrain.js line 1320: `(m.userData && m.userData.baseRadius) ||
MOUNTAIN_RADIUS_ESTIMATE`. -/
def mountainRadiusOf (m : Mountain R) : R :=
  if m.baseRadius = 0 then MOUNTAIN_RADIUS_ESTIMATE else m.baseRadius

/-- terrain.js lines 1091-1099: is a mountain candidate too close to some
already-registered runway? -/
def mountainTooClose (ops : RealOps R) (runways : List (Runway R)) (x z : R) : Bool :=
  runways.any fun r =>
    decide (hypot ops (x - r.x) (z - r.z) <
      MOUNTAIN_RADIUS_ESTIMATE + runwayRadiusOf r + RUNWAY_MOUNTAIN_BUFFER)

/-- terrain.js lines 1085-1107: the bounded mountain placement retries.
`k` is the attempt index, the second argument the remaining attempts;
returns the first accepted candidate position, if any. -/
def findMountainPos (ops : RealOps R) (rand : ChunkRand R)
    (runways : List (Runway R)) (ccx ccz size : R) (k : ℕ) : ℕ → Option (R × R)
  | 0 => none
  | fuel + 1 =>
    let mOffsetAngle := rand.mAngle k * ops.pi * 2
    let mOffsetDist := size * 0.3 + rand.mDist k * size * 0.15
    let candidateX := ccx + ops.cos mOffsetAngle * mOffsetDist
    let candidateZ := ccz + ops.sin mOffsetAngle * mOffsetDist
    if mountainTooClose ops runways candidateX candidateZ then
      findMountainPos ops rand runways ccx ccz size (k + 1) fuel
    else some (candidateX, candidateZ)

/-- terrain.js lines 1109-1124: the mountain fallback — place diametrically
opposite the nearest registered runway at 45% of the chunk size.  The
running minimum starts from the first runway with the distance measured
from (mX0, mZ0) (still the chunk center at this point in the source). -/
def mountainFallback (ops : RealOps R) (runways : List (Runway R))
    (ccx ccz size mX0 mZ0 : R) : R × R :=
  match runways with
  | [] => (mX0, mZ0)
  | r0 :: _ =>
    let best := List.foldl
      (fun (best : Runway R × R) r =>
        let d := hypot ops (ccx - r.x) (ccz - r.z)
        if d < best.2 then (r, d) else best)
      (r0, hypot ops (mX0 - r0.x) (mZ0 - r0.z)) runways
    let nr := best.1
    let ang := ops.atan2 (nr.z - ccz) (nr.x - ccx) + ops.pi
    let fallbackDist := size * 0.45
    (ccx + ops.cos ang * fallbackDist, ccz + ops.sin ang * fallbackDist)

/-- terrain.js lines 1136-1142: `maxRadius`, the running maximum of the
per-peak radii `40 + random() * 30` (starting from 0). -/
def mountainMaxRadius (rand : ChunkRand R) (numPeaks : ℕ) : R :=
  List.foldl (fun mr p => max mr (40 + rand.peakRadius p * 30)) 0 (List.range numPeaks)

/-- terrain.js lines 1241-1273: the secondary ring of pine trees placed just
outside the mountain base.  Note the source does NOT set `userData.chunk`
on these trees, so `chunkRef` is `none`. -/
def ringTrees (ops : RealOps R) (rand : ChunkRand R) (hasTree : Bool)
    (mX mZ treeRadius : R) (nid0 : ℕ) : List (Tree R) × ℕ :=
  if hasTree then
    let numTrees := (10 + ⌊rand.ringCount * 6⌋).toNat
    List.foldl
      (fun acc i =>
        let treeAngle := rand.ringAngle i * ops.pi * 2
        let treeDist := treeRadius * (1 + rand.ringDist i * 0.3)
        let tX := mX + ops.cos treeAngle * treeDist
        let tZ := mZ + ops.sin treeAngle * treeDist
        let tY := getHeight ops tX tZ
        if tY < -1 then acc
        else
          let s := 0.5 + rand.ringScale i * 0.5
          (acc.1 ++ [⟨acc.2, 0, tX, tY, tZ, s, none⟩], acc.2 + 1))
      ([], nid0) (List.range numTrees)
  else ([], nid0)

/-- terrain.js lines 1318-1326: is a runway candidate too close to some
already-registered mountain? -/
def runwayTooClose (ops : RealOps R) (mountains : List (Mountain R)) (x z : R) : Bool :=
  mountains.any fun m =>
    decide (hypot ops (x - m.x) (z - m.z) <
      RUNWAY_SAFE_RADIUS + mountainRadiusOf m + RUNWAY_MOUNTAIN_BUFFER)

/-- terrain.js lines 1309-1332: the bounded runway placement retries.
`last` carries the most recent candidate (the source leaves `rX`,`rZ` at the
last attempted values when every retry is rejected); `.inl` is an accepted
position, `.inr` the final rejected state. -/
def findRunwayPos (ops : RealOps R) (rand : ChunkRand R)
    (mountains : List (Mountain R)) (ccx ccz size : R) (k : ℕ)
    (last : R × R) : ℕ → (R × R) ⊕ (R × R)
  | 0 => Sum.inr last
  | fuel + 1 =>
    let minOffset := size * 0.10
    let maxOffset := size * 0.30
    let offsetDist := minOffset + rand.rwDist k * (maxOffset - minOffset)
    let offsetAngle := rand.rwAngle k * ops.pi * 2
    let rX := ccx + ops.cos offsetAngle * offsetDist
    let rZ := ccz + ops.sin offsetAngle * offsetDist
    if runwayTooClose ops mountains rX rZ then
      findRunwayPos ops rand mountains ccx ccz size (k + 1) (rX, rZ) fuel
    else Sum.inl (rX, rZ)

/-- terrain.js lines 1334-1349: the runway fallback — opposite the nearest
registered mountain at `maxOffset`; the running minimum starts from the
first mountain with the distance measured from the last attempted
candidate. -/
def runwayFallback (ops : RealOps R) (mountains : List (Mountain R))
    (ccx ccz size lX lZ : R) : R × R :=
  match mountains with
  | [] => (lX, lZ)
  | m0 :: _ =>
    let best := List.foldl
      (fun (best : Mountain R × R) m =>
        let d := hypot ops (ccx - m.x) (ccz - m.z)
        if d < best.2 then (m, d) else best)
      (m0, hypot ops (lX - m0.x) (lZ - m0.z)) mountains
    let nm := best.1
    let ang := ops.atan2 (nm.z - ccz) (nm.x - ccx) + ops.pi
    let fallbackDist := size * 0.30
    (ccx + ops.cos ang * fallbackDist, ccz + ops.sin ang * fallbackDist)

/-- The complete runway placement outcome: final center and whether the
retry loop succeeded (`placed` in the source). -/
def runwayPlacement (ops : RealOps R) (rand : ChunkRand R)
    (mountains : List (Mountain R)) (ccx ccz size : R) : R × R × Bool :=
  match findRunwayPos ops rand mountains ccx ccz size 0 (ccx, ccz) 10 with
  | Sum.inl (rX, rZ) => (rX, rZ, true)
  | Sum.inr (lX, lZ) =>
    match mountains with
    | [] => (lX, lZ, false)
    | _ :: _ =>
      let p := runwayFallback ops mountains ccx ccz size lX lZ
      (p.1, p.2, false)

/-- terrain.js lines 1353-1360: the 7x7 height samples under the runway
footprint, dx outer from -60 to 60 step 20, dz inner. -/
def runwayGridHeights (ops : RealOps R) (rX rZ : R) : List R :=
  (List.range 7).flatMap fun i =>
    (List.range 7).map fun j =>
      getHeight ops (rX + (-60 + 20 * (i : R))) (rZ + (-60 + 20 * (j : R)))

/-- The running maximum of the footprint samples (the source seeds the fold
with `-Infinity`, so this is the maximum of the nonempty sample list). -/
def runwayMaxH (ops : RealOps R) (rX rZ : R) : R :=
  match runwayGridHeights ops rX rZ with
  | [] => 0
  | h :: t => List.foldl max h t

/-- terrain.js lines 1394-1443: `placeBuilding(bx, bz, scale)`.  `pv` and
`sv` are the two `Math.random()` draws of the call (prefab pick and scale
jitter); the state is (placed buildings so far, next fresh id).  A candidate
overlapping an already placed building (AABB in XZ with buffer 2) is
skipped. -/
def placeBuilding (ops : RealOps R) (prefabs : List (Prefab R)) (pv sv : R)
    (bx bz scale : R) (cid : ℕ) (st : List (Building R) × ℕ) :
    List (Building R) × ℕ :=
  if prefabs.length = 0 then st
  else
    let prefab := prefabs.getD (⌊pv * (prefabs.length : R)⌋).toNat ⟨0, 0, 0, 0⟩
    let s := scale * (0.9 + sv * 0.2)
    let halfX := prefab.sx * s * 0.5
    let halfZ := prefab.sz * s * 0.5
    let groundY := getHeight ops bx bz
    let by0 := groundY - prefab.minY * s
    let overlap := st.1.any fun ex =>
      decide (|bx - ex.x| < halfX + ex.hx + 2 ∧ |bz - ex.z| < halfZ + ex.hz + 2)
    if overlap then st
    else (st.1 ++ [⟨st.2, bx, by0, bz, halfX, halfZ, some cid⟩], st.2 + 1)

/-- terrain.js lines 1445-1473: the settlement cluster attempts (2 cities,
4-8 candidates each; candidates near a runway or the chunk's mountain or
under water are skipped). -/
def cityPhase (ops : RealOps R) (rand : ChunkRand R) (prefabs : List (Prefab R))
    (cx cz : ℤ) (size : R) (mountain : Mountain R) (runways : List (Runway R))
    (cid : ℕ) (nid0 : ℕ) : List (Building R) × ℕ :=
  List.foldl
    (fun st c =>
      let cityRadius := size * (0.15 + rand.cityRadius c * 0.15)
      let cityAngle := rand.cityAngle c * ops.pi * 2
      let cityX := (cx : R) * size + ops.cos cityAngle * cityRadius
      let cityZ := (cz : R) * size + ops.sin cityAngle * cityRadius
      let buildingsInCity := (4 + ⌊rand.cityCount c * 5⌋).toNat
      List.foldl
        (fun st b =>
          let bx := cityX + (rand.bOffX c b - 0.5) * 80
          let bz := cityZ + (rand.bOffZ c b - 0.5) * 80
          let skipR := runways.any fun r => decide (hypot ops (bx - r.x) (bz - r.z) < 100)
          let skipM := decide (hypot ops (bx - mountain.x) (bz - mountain.z) <
            mountainRadiusOf mountain + 40)
          if skipR || skipM then st
          else if getHeight ops bx bz < -2 then st
          else placeBuilding ops prefabs (rand.bPrefab c b) (rand.bScale c b) bx bz 1 cid st)
        st (List.range buildingsInCity))
    ([], nid0) (List.range 2)

/-- terrain.js lines 1389-1483: the whole building step — the settlement
clusters followed by the force-placed fallback, which runs only when the
clusters placed nothing and the fallback position is above the water
threshold. -/
def buildingsStep (ops : RealOps R) (rand : ChunkRand R) (prefabs : List (Prefab R))
    (cx cz : ℤ) (size : R) (mountain : Mountain R) (runways : List (Runway R))
    (cid : ℕ) (nid0 : ℕ) : List (Building R) × ℕ :=
  let st1 := cityPhase ops rand prefabs cx cz size mountain runways cid nid0
  if st1.1.length = 0 then
    let bx := (cx : R) * size + (rand.fbX - 0.5) * 200
    let bz := (cz : R) * size + (rand.fbZ - 0.5) * 200
    if getHeight ops bx bz > -2 then
      placeBuilding ops prefabs rand.fbPrefab rand.fbScale bx bz 1 cid st1
    else st1
  else st1

/-- The mountain center actually used by the chunk (accepted retry, or the
fallback opposite the nearest runway, or the chunk center when there are no
runways at all). -/
def mountainCenter (ops : RealOps R) (rand : ChunkRand R)
    (runways : List (Runway R)) (ccx ccz size : R) : R × R :=
  match findMountainPos ops rand runways ccx ccz size 0 12 with
  | some p => p
  | none =>
    match runways with
    | [] => (ccx, ccz)
    | _ :: _ => mountainFallback ops runways ccx ccz size ccx ccz

/-- Chunk generation, stage 2 (terrain.js lines 990-1042): the regular tree
scatter, guarded by the presence of a tree model; the id counter starts one
past the chunk's own id. -/
def genTrees (ops : RealOps R) (rand : ChunkRand R) (cx cz : ℤ) (tm : TM R) :
    List (Tree R) × ℕ :=
  if tm.models.treeModel then
    scatterTrees ops rand tm.models cx cz tm.chunkSize tm.nextId (tm.nextId + 1)
  else ([], tm.nextId + 1)

/-- Chunk generation, stage 3 (terrain.js lines 1044-1072): the baobab
scatter, guarded by the presence of the baobab model. -/
def genBaobabs (ops : RealOps R) (rand : ChunkRand R) (cx cz : ℤ) (tm : TM R) :
    List (Baobab R) × ℕ :=
  if tm.models.baobabTreeModel then
    scatterBaobabs ops rand cx cz tm.chunkSize tm.nextId (genTrees ops rand cx cz tm).2
  else ([], (genTrees ops rand cx cz tm).2)

/-- Chunk generation, stage 4a: the mountain center chosen against the
currently registered runways (terrain.js lines 1074-1124). -/
def genMC (ops : RealOps R) (rand : ChunkRand R) (cx cz : ℤ) (tm : TM R) : R × R :=
  mountainCenter ops rand tm.globalRunways ((cx : R) * tm.chunkSize)
    ((cz : R) * tm.chunkSize) tm.chunkSize

/-- Chunk generation, stage 4b: the maximum peak radius over the 3-5 peaks
(terrain.js lines 1129-1142). -/
def genMaxR (rand : ChunkRand R) : R :=
  mountainMaxRadius rand (3 + ⌊rand.numPeaks * 3⌋).toNat

/-- Chunk generation, stage 4c: the finished mountain record, with
`baseRadius = maxRadius * 1.4` and `maxHeight = 160` (terrain.js lines
1214-1221). -/
def genMtn (ops : RealOps R) (rand : ChunkRand R) (cx cz : ℤ) (tm : TM R) :
    Mountain R :=
  ⟨(genBaobabs ops rand cx cz tm).2, (genMC ops rand cx cz tm).1,
    getHeight ops (genMC ops rand cx cz tm).1 (genMC ops rand cx cz tm).2,
    (genMC ops rand cx cz tm).2, genMaxR rand * 1.4, 160⟩

/-- Chunk generation, stage 4e (terrain.js lines 1241-1273): the ring of
pine trees around the mountain base, using `baseRadius || maxRadius * 1.4`. -/
def genRing (ops : RealOps R) (rand : ChunkRand R) (cx cz : ℤ) (tm : TM R) :
    List (Tree R) × ℕ :=
  ringTrees ops rand tm.models.treeModel (genMC ops rand cx cz tm).1
    (genMC ops rand cx cz tm).2
    (if (genMtn ops rand cx cz tm).baseRadius = 0 then genMaxR rand * 1.4
     else (genMtn ops rand cx cz tm).baseRadius)
    ((genBaobabs ops rand cx cz tm).2 + 1)

/-- Chunk generation, stage 5 (terrain.js lines 1275-1373): the runway,
guarded by the presence of the runway texture; the separation check runs
against the global mountain registry, which at this point already contains
this chunk's own mountain. -/
def genRunway (ops : RealOps R) (rand : ChunkRand R) (cx cz : ℤ) (tm : TM R) :
    Option (Runway R) :=
  if tm.models.runwayTexture then
    let mountainsForCheck := tm.globalMountains ++ [genMtn ops rand cx cz tm]
    let rp := runwayPlacement ops rand mountainsForCheck ((cx : R) * tm.chunkSize)
      ((cz : R) * tm.chunkSize) tm.chunkSize
    let rY := runwayMaxH ops rp.1 rp.2.1 + 0.2
    some ⟨(genRing ops rand cx cz tm).2, rp.1, rY - 15, rp.2.1,
      rand.rwRot * ops.pi * 2, RUNWAY_SAFE_RADIUS⟩
  else none

/-- The id counter after the runway stage. -/
def genNid4 (ops : RealOps R) (rand : ChunkRand R) (cx cz : ℤ) (tm : TM R) : ℕ :=
  if tm.models.runwayTexture then (genRing ops rand cx cz tm).2 + 1
  else (genRing ops rand cx cz tm).2

/-- The chunk's runway list (`this.runways`). -/
def genRwys (ops : RealOps R) (rand : ChunkRand R) (cx cz : ℤ) (tm : TM R) :
    List (Runway R) :=
  match genRunway ops rand cx cz tm with
  | some rw => [rw]
  | none => []

/-- Chunk generation, stage 6 (terrain.js lines 1389-1483): the settlement
clusters and the fallback building. -/
def genBlds (ops : RealOps R) (rand : ChunkRand R) (cx cz : ℤ) (tm : TM R) :
    List (Building R) × ℕ :=
  buildingsStep ops rand tm.models.buildingModels cx cz tm.chunkSize
    (genMtn ops rand cx cz tm) (genRwys ops rand cx cz tm) tm.nextId
    (genNid4 ops rand cx cz tm)

/-- The chunk's final tree list: the scatter trees minus those cleared
under the mountain (terrain.js lines 1229-1239), plus the ring trees, minus
those cleared under the runway (terrain.js lines 1375-1386). -/
def genTreesFinal (ops : RealOps R) (rand : ChunkRand R) (cx cz : ℤ) (tm : TM R) :
    List (Tree R) :=
  let trees1 := (genTrees ops rand cx cz tm).1.filter fun t =>
    !(decide (hypot ops (t.x - (genMC ops rand cx cz tm).1)
      (t.z - (genMC ops rand cx cz tm).2) < genMaxR rand + 40))
  let trees2 := trees1 ++ (genRing ops rand cx cz tm).1
  match genRunway ops rand cx cz tm with
  | some rw => trees2.filter fun t =>
      !(decide (hypot ops (t.x - rw.x) (t.z - rw.z) < 80))
  | none => trees2

/-- The `Chunk` constructor, terrain.js lines 902-1484: scatter regular and
boss trees, build and register the mountain, clear trees under it, add the
ring trees, place and register the runway, clear trees under it, then the
building step.  Returns the chunk together with the manager state (the
constructor pushes into `manager.globalMountains`, `manager.globalRunways`
and `manager.activeBuildings` via the register calls as it runs).  Entity
identities are drawn from `tm.nextId`. -/
def mkChunk (ops : RealOps R) (rand : ChunkRand R) (cx cz : ℤ) (tm : TM R) :
    Chunk R × TM R :=
  (⟨tm.nextId, cx, cz, genTreesFinal ops rand cx cz tm,
      (genBaobabs ops rand cx cz tm).1, genRwys ops rand cx cz tm,
      (genBlds ops rand cx cz tm).1, some (genMtn ops rand cx cz tm)⟩,
    { tm with
      globalMountains := tm.globalMountains ++ [genMtn ops rand cx cz tm]
      globalRunways := tm.globalRunways ++ genRwys ops rand cx cz tm
      activeBuildings := tm.activeBuildings ++ (genBlds ops rand cx cz tm).1
      nextId := (genBlds ops rand cx cz tm).2 })

end Generation

section Manager

variable {R : Type} [LinearOrderedField R] [FloorRing R]

/-- `this.chunks[key]` lookup in the string-keyed chunk object (the key
string `x,z` is injective on integer pairs). -/
def lookupChunk (chunks : List ((ℤ × ℤ) × Chunk R)) (k : ℤ × ℤ) : Option (Chunk R) :=
  (chunks.find? fun kc => decide (kc.1 = k)).map Prod.snd

/-- The list of loaded chunk coordinates (the keys of the chunk map). -/
def loadedKeys (tm : TM R) : List (ℤ × ℤ) := tm.chunks.map Prod.fst

/-- terrain.js lines 788-809: walk the keep-set in order and construct every
missing chunk (`new Chunk(...)` mutates the manager's registries while this
runs); a fresh key is appended to the chunk object in insertion order.
`env` supplies each new chunk's random draws, indexed by its id. -/
def loadChunksGo (ops : RealOps R) (env : ℕ → ChunkRand R) :
    List (ℤ × ℤ) → TM R → TM R
  | [], tm => tm
  | k :: ks, tm =>
    match lookupChunk tm.chunks k with
    | some _ => loadChunksGo ops env ks tm
    | none =>
      let res := mkChunk ops (env tm.nextId) k.1 k.2 tm
      loadChunksGo ops env ks { res.2 with chunks := res.2.chunks ++ [(k, res.1)] }

/-- The chunk-creation walk over the whole keep-set. -/
def loadChunks (ops : RealOps R) (env : ℕ → ChunkRand R) (center : ℤ × ℤ)
    (tm : TM R) : TM R :=
  loadChunksGo ops env (windowKeys center) tm

/-- The elements a JavaScript `for (const b of arr)` loop actually visits
when its body splices the current element out of `arr`: after removing the
element at the iterator's index the next element shifts into that slot and
is skipped, so the loop visits the elements at even positions of the
original array.  `Chunk.dispose` does exactly this to `this.buildings`
because `unregisterBuilding` splices the entity out of its owning chunk's
list (terrain.js lines 1527-1535 with 876-883). -/
def evens {α : Type} : List α → List α
  | [] => []
  | [a] => [a]
  | a :: _ :: t => a :: evens t

/-- `Chunk.dispose`, terrain.js lines 1486-1537, restricted to its effect on
the manager state: every runway is unregistered from `globalRunways`, the
mountain from `globalMountains`, and the visited buildings (see `evens`)
from `activeBuildings`.  Tree and baobab removal touches only the scene.
The chunk's own lists are cleared, but the disposed chunk is deleted from
the map right after, so that part of the mutation is unobservable. -/
def disposeChunk (tm : TM R) (c : Chunk R) : TM R :=
  let tm1 := List.foldl
    (fun tm (r : Runway R) =>
      { tm with globalRunways := tm.globalRunways.filter fun x => decide (x.id ≠ r.id) })
    tm c.runways
  let tm2 :=
    match c.mountain with
    | some mtn =>
      { tm1 with globalMountains := tm1.globalMountains.filter fun x => decide (x.id ≠ mtn.id) }
    | none => tm1
  List.foldl
    (fun tm (b : Building R) =>
      { tm with activeBuildings := tm.activeBuildings.filter fun x => decide (x.id ≠ b.id) })
    tm2 (evens c.buildings)

/-- terrain.js lines 811-817: dispose every loaded chunk whose key is not in
the keep-set and delete it from the map. -/
def unloadChunks (keep : List (ℤ × ℤ)) (tm : TM R) : TM R :=
  let tm1 := List.foldl (fun tm kc => disposeChunk tm kc.2) tm
    (tm.chunks.filter fun kc => decide (kc.1 ∉ keep))
  { tm1 with chunks := tm1.chunks.filter fun kc => decide (kc.1 ∈ keep) }

/-- terrain.js lines 819-827: rebuild the aggregate collision lists from the
surviving chunks. -/
def rebuildActive (tm : TM R) : TM R :=
  { tm with
    activeTrees := tm.chunks.flatMap fun kc => kc.2.trees
    activeBaobabTrees := tm.chunks.flatMap fun kc => kc.2.baobabTrees
    activeBuildings := tm.chunks.flatMap fun kc => kc.2.buildings }

/-- `TerrainManager.updateChunks`, terrain.js lines 784-828. -/
def updateChunks (ops : RealOps R) (env : ℕ → ChunkRand R) (center : ℤ × ℤ)
    (tm : TM R) : TM R :=
  rebuildActive (unloadChunks (windowKeys center) (loadChunks ops env center tm))

/-- `TerrainManager.update`, terrain.js lines 772-782. -/
def update (ops : RealOps R) (env : ℕ → ChunkRand R) (p : Pos3 R) (tm : TM R) : TM R :=
  let c := coordOf tm.chunkSize p
  if tm.currentChunk = some c then tm
  else updateChunks ops env c { tm with currentChunk := some c }

/-- `getTrees()`, terrain.js lines 830-832 (regular trees, boss trees). -/
def getTrees (tm : TM R) : List (Tree R) × List (Baobab R) :=
  (tm.activeTrees, tm.activeBaobabTrees)

/-- `getRunways()`, terrain.js lines 834-840. -/
def getRunways (tm : TM R) : List (Runway R) :=
  tm.chunks.flatMap fun kc => kc.2.runways

/-- `getMountains()`, terrain.js lines 842-848. -/
def getMountains (tm : TM R) : List (Mountain R) :=
  tm.chunks.filterMap fun kc => kc.2.mountain

/-- `getBuildings()`, terrain.js lines 850-852. -/
def getBuildings (tm : TM R) : List (Building R) := tm.activeBuildings

/-- `arr.splice(arr.indexOf(e), 1)` guarded by `indexOf >= 0`: remove the
first element with the given identity, no-op when absent. -/
def removeFirstId {α : Type} (idOf : α → ℕ) (i : ℕ) (l : List α) : List α :=
  l.eraseP fun x => decide (idOf x = i)

/-- `unregisterTree`, terrain.js lines 854-861: filter the aggregate list,
then splice the tree out of `tree.userData.chunk.trees` when that
back-reference was set (resolved through the chunk map by identity). -/
def unregisterTree (tm : TM R) (t : Tree R) : TM R :=
  let tm1 := { tm with activeTrees := tm.activeTrees.filter fun x => decide (x.id ≠ t.id) }
  match t.chunkRef with
  | none => tm1
  | some cid =>
    { tm1 with chunks := tm1.chunks.map fun kc =>
        if kc.2.id = cid then
          (kc.1, { kc.2 with trees := removeFirstId Tree.id t.id kc.2.trees })
        else kc }

/-- `unregisterBaobabTree`, terrain.js lines 863-870. -/
def unregisterBaobabTree (tm : TM R) (t : Baobab R) : TM R :=
  let tm1 :=
    { tm with activeBaobabTrees := tm.activeBaobabTrees.filter fun x => decide (x.id ≠ t.id) }
  match t.chunkRef with
  | none => tm1
  | some cid =>
    { tm1 with chunks := tm1.chunks.map fun kc =>
        if kc.2.id = cid then
          (kc.1, { kc.2 with baobabTrees := removeFirstId Baobab.id t.id kc.2.baobabTrees })
        else kc }

/-- `unregisterBuilding`, terrain.js lines 876-883. -/
def unregisterBuilding (tm : TM R) (b : Building R) : TM R :=
  let tm1 :=
    { tm with activeBuildings := tm.activeBuildings.filter fun x => decide (x.id ≠ b.id) }
  match b.chunkRef with
  | none => tm1
  | some cid =>
    { tm1 with chunks := tm1.chunks.map fun kc =>
        if kc.2.id = cid then
          (kc.1, { kc.2 with buildings := removeFirstId Building.id b.id kc.2.buildings })
        else kc }

/-- `unregisterRunway`, terrain.js lines 889-891. -/
def unregisterRunway (tm : TM R) (r : Runway R) : TM R :=
  { tm with globalRunways := tm.globalRunways.filter fun x => decide (x.id ≠ r.id) }

/-- `unregisterMountain`, terrain.js lines 897-899. -/
def unregisterMountain (tm : TM R) (m : Mountain R) : TM R :=
  { tm with globalMountains := tm.globalMountains.filter fun x => decide (x.id ≠ m.id) }

/-- The public mutating operations of the manager; an `upd` carries the
random environment of the chunks it may create. -/
inductive Op (R : Type) where
  | upd (p : Pos3 R) (env : ℕ → ChunkRand R)
  | unregTree (t : Tree R)
  | unregBaobab (t : Baobab R)
  | unregBuilding (b : Building R)
  | unregRunway (r : Runway R)
  | unregMountain (m : Mountain R)

/-- Apply one public operation. -/
def applyOp (ops : RealOps R) : Op R → TM R → TM R
  | Op.upd p env, tm => update ops env p tm
  | Op.unregTree t, tm => unregisterTree tm t
  | Op.unregBaobab t, tm => unregisterBaobabTree tm t
  | Op.unregBuilding b, tm => unregisterBuilding tm b
  | Op.unregRunway r, tm => unregisterRunway tm r
  | Op.unregMountain m, tm => unregisterMountain tm m

/-- Run a sequence of public operations. -/
def runOps (ops : RealOps R) (tm : TM R) (l : List (Op R)) : TM R :=
  List.foldl (fun tm o => applyOp ops o tm) tm l

/-- Run a sequence of `update` calls, each with its own random environment. -/
def runUpdates (ops : RealOps R) (tm : TM R) (l : List (Pos3 R × (ℕ → ChunkRand R))) : TM R :=
  List.foldl (fun tm pe => update ops pe.2 pe.1 tm) tm l

/-- The `TerrainManager` constructor, terrain.js lines 752-770: empty chunk
map, `chunkSize = 1000`, unset current chunk, empty registries. -/
def initTM (m : Models R) : TM R :=
  ⟨m, 1000, none, [], [], [], [], [], [], 0⟩

end Manager

/-! ## Boss-tree damage (src/unnamed/part_001 lines 1272-1297, and the
userData written by `loadBaobabTree` in src/js/assets.js lines 307-334). -/

/-- The `userData` fields of a tree that `damageTree` reads and writes.
`Option` models JavaScript `undefined`; `healthBar` models the presence of
`userData.healthBarSprite`. -/
structure TreeUD where
  isBossTree : Bool
  maxHP : Option ℤ
  currentHP : Option ℤ
  healthBar : Bool
  deriving DecidableEq

/-- The `userData` of the baobab tree template as `loadBaobabTree` tags it:
`maxHP = 10`, `currentHP = 10`, `isBossTree = true` (assets.js 325-332).
`Object3D.clone` copies these values into every placed boss tree. -/
def baobabUserData : TreeUD :=
  { isBossTree := true, maxHP := some 10, currentHP := some 10, healthBar := false }

/-- `damageTree(tree, damage)` from src/unnamed/part_001 lines 1272-1297.
Returns the `destroyed` flag and the updated userData.  The `maxHP || 10`
fallback is falsy-aware (`0` also falls back). -/
def damageTree (t : TreeUD) (damage : ℤ) : Bool × TreeUD :=
  if t.isBossTree = false then (false, t)
  else
    let cur0 : ℤ :=
      match t.currentHP with
      | none => match t.maxHP with
        | none => 10
        | some m => if m = 0 then 10 else m
      | some c => c
    let t1 : TreeUD := { t with currentHP := some (cur0 - damage), healthBar := true }
    if cur0 - damage ≤ 0 then (true, t1) else (false, t1)

/-! ## Concrete instances used by witnesses and demonstrations -/

section Fixtures

variable {R : Type} [LinearOrderedField R] [FloorRing R]

/-- The five aggregate registry collections of the manager, bundled. -/
def registryState (tm : TM R) :
    List (Tree R) × List (Baobab R) × List (Building R) × List (Runway R) ×
      List (Mountain R) :=
  (tm.activeTrees, tm.activeBaobabTrees, tm.activeBuildings, tm.globalRunways,
    tm.globalMountains)

/-- A random environment whose every draw is the constant `c`. -/
def constRand (c : R) : ChunkRand R :=
  ⟨fun _ => c, fun _ => c, fun _ => c, fun _ => c, fun _ => c, fun _ => c,
    fun _ => c, fun _ => c, c, fun _ => c, fun _ => c, fun _ => c, fun _ => c,
    c, fun _ => c, fun _ => c, fun _ => c, fun _ => c, fun _ => c, c,
    fun _ => c, fun _ => c, fun _ => c, fun _ _ => c, fun _ _ => c,
    fun _ _ => c, fun _ _ => c, c, c, c, c⟩

/-- Degenerate transcendental operations over ℚ used to exercise the
control flow of the model at decidable inputs: `sin = 0`, `cos = 1`,
`sqrt = id`, `atan2 = 0`, `pi = 0`. -/
def qOps : RealOps ℚ :=
  ⟨fun _ => 0, fun _ => 1, fun x => x, fun _ _ => 0, 0⟩

/-- Handles for the C4 witness: only a runway texture, no tree or building
assets. -/
def c4wModels : Models ℚ :=
  ⟨false, false, false, false, false, true, []⟩

/-- The mountain the C4 witness chunk builds. -/
def c4wMtn : Mountain ℚ := ⟨1, 300, 4, 0, 56, 160⟩

/-- The runway the C4 witness chunk builds. -/
def c4wRw : Runway ℚ := ⟨2, 100, -54/5, 0, 0, 120⟩

/-- Empty handle set over ℚ for small registry witnesses. -/
def c9wModels : Models ℚ :=
  ⟨false, false, false, false, false, false, []⟩

/-- The constant-zero random environment over ℚ used by the C2 witness. -/
def c2wEnv : ℕ → ChunkRand ℚ := fun _ => constRand 0

/-- The chunk the C2 witness watches: key (-1,-1), no optional models, so it
owns nothing but its mountain. -/
def c2wChunk : Chunk ℚ :=
  ⟨0, -1, -1, [], [], [], [], some ⟨1, -700, 4, -1000, 56, 160⟩⟩

/-- Genuine real-valued transcendental operations.  `atan2` is kept abstract:
the scenarios below never reach a fallback that uses it. -/
noncomputable def realOpsAt (at2 : ℝ → ℝ → ℝ) : RealOps ℝ :=
  ⟨Real.sin, Real.cos, Real.sqrt, at2, Real.pi⟩

/-- The mountain fixture of the C7 amended-claim witness: parked right on the
settlement cluster position so every candidate is skipped. -/
def c7wMtn : Mountain ℚ := ⟨0, 110, 4, -40, 1000, 160⟩

/-- Models for the C7 counterexample chunk: building templates only. -/
def mC7 : Models ℝ :=
  ⟨false, false, false, false, false, false, [⟨10, 10, 10, 0⟩]⟩

/-- Random draws of the C7 counterexample chunk (all in [0,1)): the cities
land on the mountain and are skipped, and the fallback position lands in a
deep trough of the height field. -/
noncomputable def randC7 : ChunkRand ℝ :=
  { constRand 0 with
    mAngle := fun _ => 1/2
    cityRadius := fun _ => 99/100
    cityAngle := fun _ => 1/2
    bOffX := fun _ _ => 1/2
    bOffZ := fun _ _ => 1/2
    fbX := (2100 - 650 * Real.pi) / 200
    fbZ := 1/2 }

/-- Models for the C3 scenario: only the pine-tree handle, so chunks grow
scatter trees (all rejected under water here) and mountain ring trees. -/
def c3Models : Models ℝ := ⟨true, false, false, false, false, false, []⟩

/-- Ring-tree placement multiple for the C3 scenario: the ring trees of a
chunk at `cx` sit at `x = 100 * b3 cx * pi`, where both sine terms of the
height field vanish. -/
def b3 (cx : ℤ) : ℤ :=
  if cx = 0 then -1 else if cx = 1 then 2 else if cx = -1 then -4 else 0

/-- The C3 `treeX` draw: places every scatter candidate of chunk column `cx`
at world `x = pi * (400 * cx - 50)`, where both sine terms equal -1 and the
candidate is under water.  All four used columns give a draw in [0,1). -/
noncomputable def t3 (cx : ℤ) : ℝ :=
  if cx = 0 ∨ cx = 1 ∨ cx = -1 ∨ cx = 2 then
    1/2 + (Real.pi * (400 * cx - 50) - 1000 * cx) / 1000
  else 1/2

/-- The C3 `mDist` draw, chosen so the mountain center lands at
`x = 100 * b3 cx * pi - 56` (56 = the mountain base radius). -/
noncomputable def d3 (cx : ℤ) : ℝ :=
  if cx = 0 ∨ cx = 1 ∨ cx = -1 then
    (1000 * cx - 244 - 100 * (b3 cx : ℝ) * Real.pi) / 150
  else 1/2

/-- The C3 random draws for a chunk in column `cx` (mountain pushed due -x by
`mAngle = 1/2`, ring angle 0, all other draws 0). -/
noncomputable def randC3 (cx : ℤ) : ChunkRand ℝ :=
  { constRand 0 with
    treeX := fun _ => t3 cx
    treeZ := fun _ => 1/2
    mAngle := fun _ => 1/2
    mDist := fun _ => d3 cx }

/-- Which chunk column consumes a given identity in the C3 run: each chunk
consumes exactly 12 identities, and the window walks columns -1, 0, 1 (then 2
after the observer moves). -/
def cxOfId (n : ℕ) : ℤ :=
  if n < 36 then -1 else if n < 72 then 0 else if n < 108 then 1 else 2

/-- The per-chunk random environment of the C3 run. -/
noncomputable def envC3 : ℕ → ChunkRand ℝ := fun n => randC3 (cxOfId n)

/-- The C3 mountain center x of column `cx`. -/
noncomputable def mX3 (cx : ℤ) : ℝ := 100 * (b3 cx : ℝ) * Real.pi - 56

/-- The height-field value at the C3 mountain center. -/
noncomputable def mY3 (cx cz : ℤ) : ℝ :=
  Real.sin (mX3 cx * 0.05) * Real.cos ((1000 * (cz : ℝ)) * 0.05) * 5 +
    Real.sin (mX3 cx * 0.01) * 5 + 4

/-- The C3 mountain of chunk (cx, cz) with identity `i`. -/
noncomputable def mtn3 (cx cz : ℤ) (i : ℕ) : Mountain ℝ :=
  ⟨i, mX3 cx, mY3 cx cz, 1000 * cz, 56, 160⟩

/-- A C3 ring tree of chunk (cx, cz): placed at ground level 4, with no
owning-chunk back-reference (the source bug). -/
noncomputable def ringTree3 (cx cz : ℤ) (i : ℕ) : Tree ℝ :=
  ⟨i, 0, 100 * (b3 cx : ℝ) * Real.pi, 4, 1000 * cz, 1/2, none⟩

/-- The chunk grown at (cx, cz) from counter `n` in the C3 run: ten ring
trees (identities n+2..n+11) and the mountain (identity n+1). -/
noncomputable def c3Chunk (cx cz : ℤ) (n : ℕ) : Chunk ℝ :=
  ⟨n, cx, cz, (List.range 10).map fun j => ringTree3 cx cz (n + 2 + j),
    [], [], [], some (mtn3 cx cz (n + 1))⟩

/-- The ring tree the C3 scenario unregisters: the first ring tree of chunk
(0,0), which is the fifth chunk created (identities 48..59). -/
noncomputable def tC3 : Tree ℝ := ringTree3 0 0 50

/-- The window invariant: whenever a current chunk is set, the loaded keys
are exactly its 3x3 window. -/
def windowInv (tm : TM R) : Prop :=
  ∀ cc, tm.currentChunk = some cc →
    ∀ k, k ∈ tm.chunks.map Prod.fst ↔ k ∈ windowKeys cc

/-- All entity identities a chunk owns (its own id, trees, boss trees,
runways, buildings, and the mountain). -/
def chunkIds (c : Chunk R) : List ℕ :=
  c.id :: (c.trees.map Tree.id ++ c.baobabTrees.map Baobab.id ++
    c.runways.map Runway.id ++ c.buildings.map Building.id ++
    (c.mountain.map Mountain.id).toList)

/-- A generation state `r` whose entity identities all lie in `[lo, r.2)`,
with the counter at least `lo`. -/
def IdBound {α : Type} (idOf : α → ℕ) (lo : ℕ) (r : List α × ℕ) : Prop :=
  lo ≤ r.2 ∧ ∀ x ∈ r.1, lo ≤ idOf x ∧ idOf x < r.2

/-- The reachability invariant of the manager besides the window shape: key
uniqueness, separation and boundedness of entity identities across loaded
chunks, and the presence of a mountain in every loaded chunk. -/
structure CoreInv (tm : TM R) : Prop where
  keyNd : (tm.chunks.map Prod.fst).Nodup
  idSep : ∀ e1 ∈ tm.chunks, ∀ e2 ∈ tm.chunks, e1.1 ≠ e2.1 →
    ∀ i ∈ chunkIds e1.2, i ∉ chunkIds e2.2
  idLt : ∀ e ∈ tm.chunks, ∀ i ∈ chunkIds e.2, i < tm.nextId
  mtn : ∀ e ∈ tm.chunks, (Chunk.mountain e.2).isSome = true

/-- The mountain-registry coherence invariant: the global mountain list is
exactly the mountains of the loaded chunks in map order. -/
def MtnInv (tm : TM R) : Prop :=
  tm.globalMountains = tm.chunks.filterMap fun kc => kc.2.mountain

end Fixtures

/-! ## Helper lemmas -/

section Helpers

variable {R : Type} [LinearOrderedField R] [FloorRing R]

theorem foldl_const {α β : Type} (f : α → β → α) (a : α)
    (h : ∀ x b, f x b = x) : ∀ l : List β, List.foldl f a l = a := by
  intro l
  induction l generalizing a with
  | nil => rfl
  | cons x t ih => simp [List.foldl, h, ih]

theorem foldl_max_const {α : Type} [LinearOrder α] (c : α) :
    ∀ l : List α, (∀ x ∈ l, x = c) → List.foldl max c l = c := by
  intro l
  induction l with
  | nil => intro _; rfl
  | cons x t ih =>
    intro h
    have hx := h x (by simp)
    subst hx
    simp only [List.foldl, max_self]
    exact ih fun y hy => h y (by simp [hy])

/-- A height field all of whose values are `c` makes the runway footprint
maximum `c`. -/
theorem runwayMaxH_const (ops : RealOps R) (c : R)
    (h : ∀ a b, getHeight ops a b = c) (x z : R) : runwayMaxH ops x z = c := by
  have hg : runwayGridHeights ops x z = List.replicate 49 c := by
    have h7 : List.range 7 = [0, 1, 2, 3, 4, 5, 6] := by decide
    simp [runwayGridHeights, h7, h, List.replicate]
  rw [runwayMaxH, hg]
  simp [List.replicate, List.foldl]

/-- `placeBuilding` with no prefab templates is the identity. -/
theorem placeBuilding_nil (ops : RealOps R) (pv sv bx bz sc : R) (cid : ℕ)
    (st : List (Building R) × ℕ) :
    placeBuilding ops ([] : List (Prefab R)) pv sv bx bz sc cid st = st := by
  simp [placeBuilding]

/-- The whole building step with no prefab templates places nothing. -/
theorem buildingsStep_nil (ops : RealOps R) (rand : ChunkRand R) (cx cz : ℤ)
    (size : R) (mtn : Mountain R) (rws : List (Runway R)) (cid nid : ℕ) :
    buildingsStep ops rand ([] : List (Prefab R)) cx cz size mtn rws cid nid
      = ([], nid) := by
  have hcity : cityPhase ops rand ([] : List (Prefab R)) cx cz size mtn rws cid nid
      = ([], nid) := by
    rw [cityPhase]
    refine foldl_const _ _ (fun st c => ?_) _
    refine foldl_const _ _ (fun st b => ?_) _
    simp [placeBuilding_nil]
  rw [buildingsStep, hcity]
  simp [placeBuilding_nil]

/-- A candidate accepted by the runway retry loop passed the mountain
separation check. -/
theorem findRunwayPos_inl (ops : RealOps R) (rand : ChunkRand R)
    (ms : List (Mountain R)) (ccx ccz size : R) :
    ∀ (fuel k : ℕ) (last : R × R) (x z : R),
      findRunwayPos ops rand ms ccx ccz size k last fuel = Sum.inl (x, z) →
      runwayTooClose ops ms x z = false := by
  intro fuel
  induction fuel with
  | zero => intro k last x z h; simp [findRunwayPos] at h
  | succ n ih =>
    intro k last x z h
    rw [findRunwayPos] at h
    split at h
    · exact ih _ _ _ _ h
    · rename_i hc
      obtain ⟨rfl, rfl⟩ : _ ∧ _ := by
        have := Sum.inl.inj h
        exact ⟨congrArg Prod.fst this, congrArg Prod.snd this⟩
      exact Bool.not_eq_true _ ▸ eq_false_of_ne_true hc

/-- When the runway placement reports success, the chosen center passed the
separation check against every registered mountain. -/
theorem runwayPlacement_placed (ops : RealOps R) (rand : ChunkRand R)
    (ms : List (Mountain R)) (ccx ccz size : R)
    (h : (runwayPlacement ops rand ms ccx ccz size).2.2 = true) :
    runwayTooClose ops ms (runwayPlacement ops rand ms ccx ccz size).1
      (runwayPlacement ops rand ms ccx ccz size).2.1 = false := by
  rw [runwayPlacement] at h ⊢
  rcases hf : findRunwayPos ops rand ms ccx ccz size 0 (ccx, ccz) 10 with p | p
  · obtain ⟨a, b⟩ := p
    simpa using findRunwayPos_inl ops rand ms ccx ccz size 10 0 (ccx, ccz) a b hf
  · obtain ⟨a, b⟩ := p
    rw [hf] at h
    cases ms with
    | nil => simp at h
    | cons m t => simp at h

/-- A `runwayTooClose = false` verdict means every registered mountain is at
least the required distance away. -/
theorem runwayTooClose_false_ge (ops : RealOps R) (ms : List (Mountain R))
    (x z : R) (h : runwayTooClose ops ms x z = false) :
    ∀ m ∈ ms, RUNWAY_SAFE_RADIUS + mountainRadiusOf m + RUNWAY_MOUNTAIN_BUFFER ≤
      hypot ops (x - m.x) (z - m.z) := by
  intro m hm
  rw [runwayTooClose, List.any_eq_false] at h
  have hh := h m hm
  simp only [decide_eq_true_eq] at hh
  exact not_lt.mp hh

/-- Core separation fact: whatever the runway placement outcome for a
mountain list containing `mtn`, either the retry loop failed (fallback
taken) or the chosen center is far enough from `mtn`. -/
theorem runwaySep_core (ops : RealOps R) (rand : ChunkRand R)
    (ms : List (Mountain R)) (ccx ccz size : R) (mtn : Mountain R)
    (hmem : mtn ∈ ms) (hbr : mtn.baseRadius ≠ 0) :
    (runwayPlacement ops rand ms ccx ccz size).2.2 = false ∨
    hypot ops ((runwayPlacement ops rand ms ccx ccz size).1 - mtn.x)
        ((runwayPlacement ops rand ms ccx ccz size).2.1 - mtn.z) ≥
      mtn.baseRadius + RUNWAY_SAFE_RADIUS + RUNWAY_MOUNTAIN_BUFFER := by
  by_cases hpl : (runwayPlacement ops rand ms ccx ccz size).2.2 = true
  · right
    have hfar := runwayTooClose_false_ge ops ms _ _
      (runwayPlacement_placed ops rand ms ccx ccz size hpl) mtn hmem
    rw [mountainRadiusOf, if_neg hbr] at hfar
    simp only [ge_iff_le]
    linarith
  · left
    exact Bool.not_eq_true _ ▸ eq_false_of_ne_true hpl

@[simp] theorem qOps_sin (x : ℚ) : qOps.sin x = 0 := rfl

@[simp] theorem qOps_cos (x : ℚ) : qOps.cos x = 1 := rfl

@[simp] theorem qOps_sqrt (x : ℚ) : qOps.sqrt x = x := rfl

@[simp] theorem qOps_pi : qOps.pi = 0 := rfl

@[simp] theorem constRand_treeX {R : Type} [LinearOrderedField R] [FloorRing R] (c : R) (i : ℕ) : (constRand c).treeX i = c := rfl

@[simp] theorem constRand_treeZ {R : Type} [LinearOrderedField R] [FloorRing R] (c : R) (i : ℕ) : (constRand c).treeZ i = c := rfl

@[simp] theorem constRand_treeType {R : Type} [LinearOrderedField R] [FloorRing R] (c : R) (i : ℕ) : (constRand c).treeType i = c := rfl

@[simp] theorem constRand_treeScale {R : Type} [LinearOrderedField R] [FloorRing R] (c : R) (i : ℕ) : (constRand c).treeScale i = c := rfl

@[simp] theorem constRand_baobabX {R : Type} [LinearOrderedField R] [FloorRing R] (c : R) (i : ℕ) : (constRand c).baobabX i = c := rfl

@[simp] theorem constRand_baobabZ {R : Type} [LinearOrderedField R] [FloorRing R] (c : R) (i : ℕ) : (constRand c).baobabZ i = c := rfl

@[simp] theorem constRand_mAngle {R : Type} [LinearOrderedField R] [FloorRing R] (c : R) (i : ℕ) : (constRand c).mAngle i = c := rfl

@[simp] theorem constRand_mDist {R : Type} [LinearOrderedField R] [FloorRing R] (c : R) (i : ℕ) : (constRand c).mDist i = c := rfl

@[simp] theorem constRand_numPeaks {R : Type} [LinearOrderedField R] [FloorRing R] (c : R) : (constRand c).numPeaks = c := rfl

@[simp] theorem constRand_peakRadius {R : Type} [LinearOrderedField R] [FloorRing R] (c : R) (i : ℕ) : (constRand c).peakRadius i = c := rfl

@[simp] theorem constRand_ringCount {R : Type} [LinearOrderedField R] [FloorRing R] (c : R) : (constRand c).ringCount = c := rfl

@[simp] theorem constRand_ringAngle {R : Type} [LinearOrderedField R] [FloorRing R] (c : R) (i : ℕ) : (constRand c).ringAngle i = c := rfl

@[simp] theorem constRand_ringDist {R : Type} [LinearOrderedField R] [FloorRing R] (c : R) (i : ℕ) : (constRand c).ringDist i = c := rfl

@[simp] theorem constRand_ringScale {R : Type} [LinearOrderedField R] [FloorRing R] (c : R) (i : ℕ) : (constRand c).ringScale i = c := rfl

@[simp] theorem constRand_rwDist {R : Type} [LinearOrderedField R] [FloorRing R] (c : R) (i : ℕ) : (constRand c).rwDist i = c := rfl

@[simp] theorem constRand_rwAngle {R : Type} [LinearOrderedField R] [FloorRing R] (c : R) (i : ℕ) : (constRand c).rwAngle i = c := rfl

@[simp] theorem constRand_rwRot {R : Type} [LinearOrderedField R] [FloorRing R] (c : R) : (constRand c).rwRot = c := rfl

@[simp] theorem constRand_cityRadius {R : Type} [LinearOrderedField R] [FloorRing R] (c : R) (i : ℕ) : (constRand c).cityRadius i = c := rfl

@[simp] theorem constRand_cityAngle {R : Type} [LinearOrderedField R] [FloorRing R] (c : R) (i : ℕ) : (constRand c).cityAngle i = c := rfl

@[simp] theorem constRand_cityCount {R : Type} [LinearOrderedField R] [FloorRing R] (c : R) (i : ℕ) : (constRand c).cityCount i = c := rfl

@[simp] theorem constRand_bOffX {R : Type} [LinearOrderedField R] [FloorRing R] (c : R) (i j : ℕ) : (constRand c).bOffX i j = c := rfl

@[simp] theorem constRand_bOffZ {R : Type} [LinearOrderedField R] [FloorRing R] (c : R) (i j : ℕ) : (constRand c).bOffZ i j = c := rfl

@[simp] theorem constRand_fbX {R : Type} [LinearOrderedField R] [FloorRing R] (c : R) : (constRand c).fbX = c := rfl

@[simp] theorem constRand_fbZ {R : Type} [LinearOrderedField R] [FloorRing R] (c : R) : (constRand c).fbZ = c := rfl

/-- Under `qOps` every height sample is the constant 4. -/
@[simp] theorem realOpsAt_sin (at2 : ℝ → ℝ → ℝ) (x : ℝ) : (realOpsAt at2).sin x = Real.sin x := rfl

@[simp] theorem realOpsAt_cos (at2 : ℝ → ℝ → ℝ) (x : ℝ) : (realOpsAt at2).cos x = Real.cos x := rfl

@[simp] theorem realOpsAt_sqrt (at2 : ℝ → ℝ → ℝ) (x : ℝ) : (realOpsAt at2).sqrt x = Real.sqrt x := rfl

@[simp] theorem realOpsAt_pi (at2 : ℝ → ℝ → ℝ) : (realOpsAt at2).pi = Real.pi := rfl

theorem getHeight_qOps (a b : ℚ) : getHeight qOps a b = 4 := by
  norm_num [getHeight]

/-- Under `qOps` every runway footprint maximum is 4. -/
theorem runwayMaxH_qOps (x z : ℚ) : runwayMaxH qOps x z = 4 :=
  runwayMaxH_const qOps 4 getHeight_qOps x z

/-- Evaluation of the C4 witness chunk. -/
theorem c4w_chunk_eval :
    (mkChunk qOps (constRand 0) 0 0 (initTM c4wModels)).1 =
      ⟨0, 0, 0, [], [], [c4wRw], [], some c4wMtn⟩ := by
  have h3 : List.range 3 = [0, 1, 2] := by decide
  have hmc : mountainCenter qOps (constRand 0) [] 0 0 1000 = (300, 0) := by
    norm_num [mountainCenter, findMountainPos, mountainTooClose]
  have hmr : mountainMaxRadius (constRand (0 : ℚ)) (Int.toNat 3) = 40 := by
    norm_num [mountainMaxRadius, h3, List.foldl, max_def]
  have hrp : runwayPlacement qOps (constRand 0) [(⟨1, 300, 4, 0, 56, 160⟩ : Mountain ℚ)]
      0 0 1000 = (100, 0, true) := by
    norm_num [runwayPlacement, findRunwayPos, runwayTooClose,
      hypot, mountainRadiusOf, RUNWAY_SAFE_RADIUS, MOUNTAIN_RADIUS_ESTIMATE,
      RUNWAY_MOUNTAIN_BUFFER]
  norm_num [mkChunk, genTreesFinal, genTrees, genBaobabs, genMC, genMaxR, genMtn,
    genRing, genRunway, genNid4, genRwys, genBlds, initTM, c4wModels, hmc, hmr, hrp,
    buildingsStep_nil, getHeight_qOps, runwayMaxH_qOps, ringTrees, c4wRw, c4wMtn,
    RUNWAY_SAFE_RADIUS]

/-- The C4 witness chunk's runway list. -/
theorem c4w_runways_eval :
    (mkChunk qOps (constRand 0) 0 0 (initTM c4wModels)).1.runways = [c4wRw] := by
  rw [c4w_chunk_eval]

/-- The C4 witness chunk's mountain. -/
theorem c4w_mountain_eval :
    (mkChunk qOps (constRand 0) 0 0 (initTM c4wModels)).1.mountain = some c4wMtn := by
  rw [c4w_chunk_eval]

theorem foldl_pres {α β γ : Type} (f : α → β → α) (g : α → γ)
    (h : ∀ a b, g (f a b) = g a) :
    ∀ (l : List β) (a : α), g (List.foldl f a l) = g a := by
  intro l
  induction l with
  | nil => intro a; rfl
  | cons x t ih => intro a; rw [List.foldl_cons, ih, h]

theorem mkChunk_snd_models (ops : RealOps R) (rand : ChunkRand R) (cx cz : ℤ)
    (tm : TM R) : (mkChunk ops rand cx cz tm).2.models = tm.models := rfl

theorem mkChunk_snd_chunkSize (ops : RealOps R) (rand : ChunkRand R) (cx cz : ℤ)
    (tm : TM R) : (mkChunk ops rand cx cz tm).2.chunkSize = tm.chunkSize := rfl

theorem mkChunk_snd_currentChunk (ops : RealOps R) (rand : ChunkRand R) (cx cz : ℤ)
    (tm : TM R) : (mkChunk ops rand cx cz tm).2.currentChunk = tm.currentChunk := rfl

theorem mkChunk_snd_chunks (ops : RealOps R) (rand : ChunkRand R) (cx cz : ℤ)
    (tm : TM R) : (mkChunk ops rand cx cz tm).2.chunks = tm.chunks := rfl

theorem mkChunk_snd_activeTrees (ops : RealOps R) (rand : ChunkRand R) (cx cz : ℤ)
    (tm : TM R) : (mkChunk ops rand cx cz tm).2.activeTrees = tm.activeTrees := rfl

theorem mkChunk_snd_activeBaobabTrees (ops : RealOps R) (rand : ChunkRand R)
    (cx cz : ℤ) (tm : TM R) :
    (mkChunk ops rand cx cz tm).2.activeBaobabTrees = tm.activeBaobabTrees := rfl

theorem mkChunk_snd_globalRunways (ops : RealOps R) (rand : ChunkRand R) (cx cz : ℤ)
    (tm : TM R) : (mkChunk ops rand cx cz tm).2.globalRunways =
      tm.globalRunways ++ (mkChunk ops rand cx cz tm).1.runways := rfl

theorem mkChunk_snd_activeBuildings (ops : RealOps R) (rand : ChunkRand R) (cx cz : ℤ)
    (tm : TM R) : (mkChunk ops rand cx cz tm).2.activeBuildings =
      tm.activeBuildings ++ (mkChunk ops rand cx cz tm).1.buildings := rfl

theorem mkChunk_snd_globalMountains (ops : RealOps R) (rand : ChunkRand R) (cx cz : ℤ)
    (tm : TM R) : (mkChunk ops rand cx cz tm).2.globalMountains =
      tm.globalMountains ++ (mkChunk ops rand cx cz tm).1.mountain.toList := rfl

theorem mkChunk_fst_mountain_isSome (ops : RealOps R) (rand : ChunkRand R) (cx cz : ℤ)
    (tm : TM R) : ((mkChunk ops rand cx cz tm).1.mountain).isSome = true := rfl

/-- A step-indexed preservation principle for the chunk-creation walk. -/
theorem loadChunksGo_pres {γ : Type} (ops : RealOps R) (env : ℕ → ChunkRand R)
    (g : TM R → γ)
    (hstep : ∀ (rand : ChunkRand R) (cx cz : ℤ) (tm : TM R) (k : ℤ × ℤ),
      g { (mkChunk ops rand cx cz tm).2 with
            chunks := (mkChunk ops rand cx cz tm).2.chunks ++
              [(k, (mkChunk ops rand cx cz tm).1)] } = g tm) :
    ∀ (ks : List (ℤ × ℤ)) (tm : TM R), g (loadChunksGo ops env ks tm) = g tm := by
  intro ks
  induction ks with
  | nil => intro tm; rfl
  | cons k t ih =>
    intro tm
    rw [loadChunksGo]
    cases h : lookupChunk tm.chunks k with
    | some c => exact ih tm
    | none => rw [ih, hstep]

theorem loadChunksGo_currentChunk (ops : RealOps R) (env : ℕ → ChunkRand R)
    (ks : List (ℤ × ℤ)) (tm : TM R) :
    (loadChunksGo ops env ks tm).currentChunk = tm.currentChunk :=
  loadChunksGo_pres ops env TM.currentChunk (fun _ _ _ _ _ => rfl) ks tm

theorem loadChunksGo_chunkSize (ops : RealOps R) (env : ℕ → ChunkRand R)
    (ks : List (ℤ × ℤ)) (tm : TM R) :
    (loadChunksGo ops env ks tm).chunkSize = tm.chunkSize :=
  loadChunksGo_pres ops env TM.chunkSize (fun _ _ _ _ _ => rfl) ks tm

theorem loadChunksGo_models (ops : RealOps R) (env : ℕ → ChunkRand R)
    (ks : List (ℤ × ℤ)) (tm : TM R) :
    (loadChunksGo ops env ks tm).models = tm.models :=
  loadChunksGo_pres ops env TM.models (fun _ _ _ _ _ => rfl) ks tm

/-- A preservation principle for `disposeChunk`: any view of the state that
ignores the three registry lists it filters is unchanged. -/
theorem disposeChunk_pres {γ : Type} (g : TM R → γ)
    (h1 : ∀ (tm : TM R) l, g { tm with globalRunways := l } = g tm)
    (h2 : ∀ (tm : TM R) l, g { tm with globalMountains := l } = g tm)
    (h3 : ∀ (tm : TM R) l, g { tm with activeBuildings := l } = g tm)
    (tm : TM R) (c : Chunk R) : g (disposeChunk tm c) = g tm := by
  rw [disposeChunk]
  rw [foldl_pres _ g (fun a b => h3 _ _)]
  cases c.mountain with
  | none => exact foldl_pres _ g (fun a b => h1 _ _) _ _
  | some mtn =>
    rw [h2]
    exact foldl_pres _ g (fun a b => h1 _ _) _ _

theorem disposeChunk_chunks (tm : TM R) (c : Chunk R) :
    (disposeChunk tm c).chunks = tm.chunks :=
  disposeChunk_pres TM.chunks (fun _ _ => rfl) (fun _ _ => rfl) (fun _ _ => rfl) tm c

theorem disposeChunk_currentChunk (tm : TM R) (c : Chunk R) :
    (disposeChunk tm c).currentChunk = tm.currentChunk :=
  disposeChunk_pres TM.currentChunk (fun _ _ => rfl) (fun _ _ => rfl) (fun _ _ => rfl) tm c

theorem disposeChunk_chunkSize (tm : TM R) (c : Chunk R) :
    (disposeChunk tm c).chunkSize = tm.chunkSize :=
  disposeChunk_pres TM.chunkSize (fun _ _ => rfl) (fun _ _ => rfl) (fun _ _ => rfl) tm c

theorem disposeChunk_models (tm : TM R) (c : Chunk R) :
    (disposeChunk tm c).models = tm.models :=
  disposeChunk_pres TM.models (fun _ _ => rfl) (fun _ _ => rfl) (fun _ _ => rfl) tm c

theorem disposeChunk_activeTrees (tm : TM R) (c : Chunk R) :
    (disposeChunk tm c).activeTrees = tm.activeTrees :=
  disposeChunk_pres TM.activeTrees (fun _ _ => rfl) (fun _ _ => rfl) (fun _ _ => rfl) tm c

theorem disposeChunk_activeBaobabTrees (tm : TM R) (c : Chunk R) :
    (disposeChunk tm c).activeBaobabTrees = tm.activeBaobabTrees :=
  disposeChunk_pres TM.activeBaobabTrees (fun _ _ => rfl) (fun _ _ => rfl)
    (fun _ _ => rfl) tm c

theorem unloadChunks_chunks (keep : List (ℤ × ℤ)) (tm : TM R) :
    (unloadChunks keep tm).chunks =
      tm.chunks.filter fun kc => decide (kc.1 ∈ keep) := by
  rw [unloadChunks]
  have h := foldl_pres (fun (tm : TM R) (kc : (ℤ × ℤ) × Chunk R) => disposeChunk tm kc.2)
    TM.chunks (fun (a : TM R) (b : (ℤ × ℤ) × Chunk R) => disposeChunk_chunks a b.2)
    (tm.chunks.filter fun kc => decide (kc.1 ∉ keep)) tm
  simp only [h]

theorem unloadChunks_pres {γ : Type} (g : TM R → γ)
    (h1 : ∀ (tm : TM R) l, g { tm with globalRunways := l } = g tm)
    (h2 : ∀ (tm : TM R) l, g { tm with globalMountains := l } = g tm)
    (h3 : ∀ (tm : TM R) l, g { tm with activeBuildings := l } = g tm)
    (h4 : ∀ (tm : TM R) l, g { tm with chunks := l } = g tm)
    (keep : List (ℤ × ℤ)) (tm : TM R) : g (unloadChunks keep tm) = g tm := by
  rw [unloadChunks]
  rw [h4]
  exact foldl_pres _ g (fun (a : TM R) (b : (ℤ × ℤ) × Chunk R) =>
    disposeChunk_pres g h1 h2 h3 a b.2) _ _

theorem updateChunks_currentChunk (ops : RealOps R) (env : ℕ → ChunkRand R)
    (ctr : ℤ × ℤ) (tm : TM R) :
    (updateChunks ops env ctr tm).currentChunk = tm.currentChunk := by
  rw [updateChunks]
  have h1 : (rebuildActive (unloadChunks (windowKeys ctr)
      (loadChunks ops env ctr tm))).currentChunk =
      (unloadChunks (windowKeys ctr) (loadChunks ops env ctr tm)).currentChunk := rfl
  rw [h1, unloadChunks_pres TM.currentChunk (fun _ _ => rfl) (fun _ _ => rfl)
    (fun _ _ => rfl) (fun _ _ => rfl), loadChunks, loadChunksGo_currentChunk]

theorem updateChunks_chunkSize (ops : RealOps R) (env : ℕ → ChunkRand R)
    (ctr : ℤ × ℤ) (tm : TM R) :
    (updateChunks ops env ctr tm).chunkSize = tm.chunkSize := by
  rw [updateChunks]
  have h1 : (rebuildActive (unloadChunks (windowKeys ctr)
      (loadChunks ops env ctr tm))).chunkSize =
      (unloadChunks (windowKeys ctr) (loadChunks ops env ctr tm)).chunkSize := rfl
  rw [h1, unloadChunks_pres TM.chunkSize (fun _ _ => rfl) (fun _ _ => rfl)
    (fun _ _ => rfl) (fun _ _ => rfl), loadChunks, loadChunksGo_chunkSize]

theorem updateChunks_models (ops : RealOps R) (env : ℕ → ChunkRand R)
    (ctr : ℤ × ℤ) (tm : TM R) :
    (updateChunks ops env ctr tm).models = tm.models := by
  rw [updateChunks]
  have h1 : (rebuildActive (unloadChunks (windowKeys ctr)
      (loadChunks ops env ctr tm))).models =
      (unloadChunks (windowKeys ctr) (loadChunks ops env ctr tm)).models := rfl
  rw [h1, unloadChunks_pres TM.models (fun _ _ => rfl) (fun _ _ => rfl)
    (fun _ _ => rfl) (fun _ _ => rfl), loadChunks, loadChunksGo_models]

theorem updateChunks_chunks (ops : RealOps R) (env : ℕ → ChunkRand R)
    (ctr : ℤ × ℤ) (tm : TM R) :
    (updateChunks ops env ctr tm).chunks =
      (loadChunks ops env ctr tm).chunks.filter
        fun kc => decide (kc.1 ∈ windowKeys ctr) := by
  rw [updateChunks]
  have h1 : (rebuildActive (unloadChunks (windowKeys ctr)
      (loadChunks ops env ctr tm))).chunks =
      (unloadChunks (windowKeys ctr) (loadChunks ops env ctr tm)).chunks := rfl
  rw [h1, unloadChunks_chunks]

theorem update_currentChunk (ops : RealOps R) (env : ℕ → ChunkRand R)
    (p : Pos3 R) (tm : TM R) :
    (update ops env p tm).currentChunk = some (coordOf tm.chunkSize p) := by
  rw [update]
  by_cases h : tm.currentChunk = some (coordOf tm.chunkSize p)
  · rw [if_pos h, h]
  · rw [if_neg h, updateChunks_currentChunk]

theorem update_chunkSize (ops : RealOps R) (env : ℕ → ChunkRand R)
    (p : Pos3 R) (tm : TM R) : (update ops env p tm).chunkSize = tm.chunkSize := by
  rw [update]
  by_cases h : tm.currentChunk = some (coordOf tm.chunkSize p)
  · rw [if_pos h]
  · rw [if_neg h, updateChunks_chunkSize]

theorem update_models (ops : RealOps R) (env : ℕ → ChunkRand R)
    (p : Pos3 R) (tm : TM R) : (update ops env p tm).models = tm.models := by
  rw [update]
  by_cases h : tm.currentChunk = some (coordOf tm.chunkSize p)
  · rw [if_pos h]
  · rw [if_neg h, updateChunks_models]

theorem lookupChunk_none_iff (chs : List ((ℤ × ℤ) × Chunk R)) (k : ℤ × ℤ) :
    lookupChunk chs k = none ↔ k ∉ chs.map Prod.fst := by
  rw [lookupChunk]
  rw [Option.map_eq_none', List.find?_eq_none]
  simp only [decide_eq_true_eq, List.mem_map]
  constructor
  · rintro h ⟨kc, hkc, hk⟩
    exact h kc hkc hk
  · intro h kc hkc hk
    exact h ⟨kc, hkc, hk⟩

theorem loadChunksGo_mem_entry (ops : RealOps R) (env : ℕ → ChunkRand R) :
    ∀ (ks : List (ℤ × ℤ)) (tm : TM R) (e : (ℤ × ℤ) × Chunk R),
      e ∈ tm.chunks → e ∈ (loadChunksGo ops env ks tm).chunks := by
  intro ks
  induction ks with
  | nil => intro tm e he; exact he
  | cons k t ih =>
    intro tm e he
    rw [loadChunksGo]
    cases h : lookupChunk tm.chunks k with
    | some c => exact ih tm e he
    | none =>
      refine ih _ e ?_
      simp only [mkChunk_snd_chunks]
      exact List.mem_append_left _ he

theorem loadChunksGo_keys_iff (ops : RealOps R) (env : ℕ → ChunkRand R) :
    ∀ (ks : List (ℤ × ℤ)) (tm : TM R) (k : ℤ × ℤ),
      k ∈ (loadChunksGo ops env ks tm).chunks.map Prod.fst ↔
        k ∈ tm.chunks.map Prod.fst ∨ k ∈ ks := by
  intro ks
  induction ks with
  | nil => intro tm k; rw [loadChunksGo]; simp
  | cons k0 t ih =>
    intro tm k
    rw [loadChunksGo]
    cases h : lookupChunk tm.chunks k0 with
    | some c =>
      rw [ih, List.mem_cons]
      have hk0 : k0 ∈ tm.chunks.map Prod.fst := by
        by_contra hk
        rw [← lookupChunk_none_iff] at hk
        rw [h] at hk
        exact Option.noConfusion hk
      constructor
      · rintro (hl | hr)
        · exact Or.inl hl
        · exact Or.inr (Or.inr hr)
      · rintro (hl | hl | hr)
        · exact Or.inl hl
        · subst hl; exact Or.inl hk0
        · exact Or.inr hr
    | none =>
      rw [ih, List.mem_cons]
      simp only [mkChunk_snd_chunks, List.map_append, List.mem_append, List.map_cons,
        List.map_nil, List.mem_singleton]
      tauto

theorem loadChunksGo_keys_nodup (ops : RealOps R) (env : ℕ → ChunkRand R) :
    ∀ (ks : List (ℤ × ℤ)) (tm : TM R),
      (tm.chunks.map Prod.fst).Nodup →
      ((loadChunksGo ops env ks tm).chunks.map Prod.fst).Nodup := by
  intro ks
  induction ks with
  | nil => intro tm h; exact h
  | cons k0 t ih =>
    intro tm h
    rw [loadChunksGo]
    cases hl : lookupChunk tm.chunks k0 with
    | some c => exact ih tm h
    | none =>
      refine ih _ ?_
      simp only [mkChunk_snd_chunks, List.map_append, List.map_cons, List.map_nil]
      rw [List.nodup_append]
      refine ⟨h, List.nodup_singleton _, ?_⟩
      intro a ha hb
      rw [List.mem_singleton] at hb
      exact (lookupChunk_none_iff tm.chunks k0).mp hl (hb ▸ ha)

/-- The keys loaded after `updateChunks` are exactly the keep-set, whatever
the previous state. -/
theorem updateChunks_keys (ops : RealOps R) (env : ℕ → ChunkRand R)
    (ctr : ℤ × ℤ) (tm : TM R) (k : ℤ × ℤ) :
    k ∈ (updateChunks ops env ctr tm).chunks.map Prod.fst ↔ k ∈ windowKeys ctr := by
  rw [updateChunks_chunks]
  constructor
  · intro hk
    rcases List.mem_map.mp hk with ⟨kc, hkc, rfl⟩
    rcases List.mem_filter.mp hkc with ⟨_, hdec⟩
    exact of_decide_eq_true hdec
  · intro hk
    have hkl : k ∈ (loadChunks ops env ctr tm).chunks.map Prod.fst := by
      rw [loadChunks, loadChunksGo_keys_iff]
      exact Or.inr hk
    rcases List.mem_map.mp hkl with ⟨kc, hkc, rfl⟩
    exact List.mem_map.mpr ⟨kc, List.mem_filter.mpr ⟨hkc, decide_eq_true hk⟩, rfl⟩

theorem update_windowInv (ops : RealOps R) (env : ℕ → ChunkRand R) (p : Pos3 R)
    (tm : TM R) (h : windowInv tm) : windowInv (update ops env p tm) := by
  intro cc hcc k
  have hcur := update_currentChunk ops env p tm
  rw [hcur] at hcc
  have hcc2 : cc = coordOf tm.chunkSize p := (Option.some.inj hcc).symm
  subst hcc2
  rw [update]
  by_cases hsame : tm.currentChunk = some (coordOf tm.chunkSize p)
  · rw [if_pos hsame]
    exact h _ hsame k
  · rw [if_neg hsame]
    exact updateChunks_keys ops env _ _ k

theorem initTM_windowInv (m : Models R) : windowInv (initTM m) := by
  intro cc hcc
  exact absurd hcc (by rw [initTM]; exact Option.noConfusion)

theorem runUpdates_windowInv (ops : RealOps R) (tm : TM R)
    (l : List (Pos3 R × (ℕ → ChunkRand R))) (h : windowInv tm) :
    windowInv (runUpdates ops tm l) := by
  rw [runUpdates]
  induction l generalizing tm with
  | nil => exact h
  | cons pe t ih => exact ih _ (update_windowInv ops pe.2 pe.1 tm h)

theorem runUpdates_chunkSize (ops : RealOps R) (tm : TM R)
    (l : List (Pos3 R × (ℕ → ChunkRand R))) :
    (runUpdates ops tm l).chunkSize = tm.chunkSize := by
  rw [runUpdates]
  exact foldl_pres _ TM.chunkSize (fun a b => update_chunkSize ops b.2 b.1 a) l tm

theorem idBound_init {α : Type} (idOf : α → ℕ) (n : ℕ) :
    IdBound idOf n ([], n) :=
  ⟨le_refl n, fun x hx => absurd hx (List.not_mem_nil x)⟩

theorem idBound_push {α : Type} (idOf : α → ℕ) (lo : ℕ) (s : List α × ℕ) (a : α)
    (hs : IdBound idOf lo s) (ha : idOf a = s.2) :
    IdBound idOf lo (s.1 ++ [a], s.2 + 1) := by
  refine ⟨le_trans hs.1 (Nat.le_succ _), fun x hx => ?_⟩
  rcases List.mem_append.mp hx with h | h
  · have := hs.2 x h
    exact ⟨this.1, lt_trans this.2 (Nat.lt_succ_self _)⟩
  · rw [List.mem_singleton] at h
    subst h
    rw [ha]
    exact ⟨hs.1, Nat.lt_succ_self _⟩

theorem idBound_foldl {α ι : Type} (idOf : α → ℕ) (lo : ℕ)
    (step : (List α × ℕ) → ι → (List α × ℕ))
    (hstep : ∀ s i, IdBound idOf lo s → IdBound idOf lo (step s i)) :
    ∀ (l : List ι) (s : List α × ℕ), IdBound idOf lo s →
      IdBound idOf lo (List.foldl step s l) := by
  intro l
  induction l with
  | nil => intro s hs; exact hs
  | cons i t ih => intro s hs; exact ih (step s i) (hstep s i hs)

theorem scatterTrees_bound (ops : RealOps R) (rand : ChunkRand R) (m : Models R)
    (cx cz : ℤ) (size : R) (cid nid0 : ℕ) :
    IdBound Tree.id nid0 (scatterTrees ops rand m cx cz size cid nid0) := by
  rw [scatterTrees]
  refine idBound_foldl Tree.id nid0 _ (fun s i hs => ?_) _ _ (idBound_init _ _)
  dsimp only
  split
  · exact hs
  · split
    · split
      · exact idBound_push _ _ _ _ hs rfl
      · exact hs
    · exact hs

theorem scatterBaobabs_bound (ops : RealOps R) (rand : ChunkRand R)
    (cx cz : ℤ) (size : R) (cid nid0 : ℕ) :
    IdBound Baobab.id nid0 (scatterBaobabs ops rand cx cz size cid nid0) := by
  rw [scatterBaobabs]
  refine idBound_foldl Baobab.id nid0 _ (fun s i hs => ?_) _ _ (idBound_init _ _)
  dsimp only
  split
  · exact hs
  · split
    · exact idBound_push _ _ _ _ hs rfl
    · exact hs

theorem ringTrees_bound (ops : RealOps R) (rand : ChunkRand R) (hasTree : Bool)
    (mX mZ treeRadius : R) (nid0 : ℕ) :
    IdBound Tree.id nid0 (ringTrees ops rand hasTree mX mZ treeRadius nid0) := by
  rw [ringTrees]
  split
  · refine idBound_foldl Tree.id nid0 _ (fun s i hs => ?_) _ _ (idBound_init _ _)
    dsimp only
    split
    · exact hs
    · exact idBound_push _ _ _ _ hs rfl
  · exact idBound_init _ _

theorem placeBuilding_bound (ops : RealOps R) (prefabs : List (Prefab R))
    (pv sv bx bz sc : R) (cid lo : ℕ) (st : List (Building R) × ℕ)
    (hs : IdBound Building.id lo st) :
    IdBound Building.id lo (placeBuilding ops prefabs pv sv bx bz sc cid st) := by
  rw [placeBuilding]
  split
  · exact hs
  · dsimp only
    split
    · exact hs
    · exact idBound_push _ _ _ _ hs rfl

theorem buildingsStep_bound (ops : RealOps R) (rand : ChunkRand R)
    (prefabs : List (Prefab R)) (cx cz : ℤ) (size : R) (mtn : Mountain R)
    (rws : List (Runway R)) (cid nid0 : ℕ) :
    IdBound Building.id nid0
      (buildingsStep ops rand prefabs cx cz size mtn rws cid nid0) := by
  have hcity : IdBound Building.id nid0
      (cityPhase ops rand prefabs cx cz size mtn rws cid nid0) := by
    rw [cityPhase]
    refine idBound_foldl Building.id nid0 _ (fun s c hs => ?_) _ _ (idBound_init _ _)
    refine idBound_foldl Building.id nid0 _ (fun s2 b hs2 => ?_) _ _ hs
    dsimp only
    split
    · exact hs2
    · split
      · exact hs2
      · exact placeBuilding_bound _ _ _ _ _ _ _ _ _ _ hs2
  rw [buildingsStep]
  dsimp only
  split
  · split
    · exact placeBuilding_bound _ _ _ _ _ _ _ _ _ _ hcity
    · exact hcity
  · exact hcity

/-- Membership bound assembly over a literal chunk. -/
theorem chunkIds_bound_assemble (cid : ℕ) (cx cz : ℤ) (trees : List (Tree R))
    (baobabs : List (Baobab R)) (rwys : List (Runway R)) (blds : List (Building R))
    (mtn : Mountain R) (hi : ℕ)
    (ht : ∀ t ∈ trees, cid ≤ t.id ∧ t.id < hi)
    (hb : ∀ b ∈ baobabs, cid ≤ b.id ∧ b.id < hi)
    (hr : ∀ r ∈ rwys, cid ≤ r.id ∧ r.id < hi)
    (hbd : ∀ b ∈ blds, cid ≤ b.id ∧ b.id < hi)
    (hm : cid ≤ mtn.id ∧ mtn.id < hi) (hcid : cid < hi) :
    ∀ i ∈ chunkIds (⟨cid, cx, cz, trees, baobabs, rwys, blds, some mtn⟩ : Chunk R),
      cid ≤ i ∧ i < hi := by
  intro i hi2
  simp only [chunkIds, List.mem_cons, List.mem_append] at hi2
  rcases hi2 with rfl | (((h | h) | h) | h) | h
  · exact ⟨le_refl _, hcid⟩
  · obtain ⟨t, htm, rfl⟩ := List.mem_map.mp h
    exact ht t htm
  · obtain ⟨b, hbm, rfl⟩ := List.mem_map.mp h
    exact hb b hbm
  · obtain ⟨r, hrm, rfl⟩ := List.mem_map.mp h
    exact hr r hrm
  · obtain ⟨b, hbm, rfl⟩ := List.mem_map.mp h
    exact hbd b hbm
  · simp only [Option.map_some', Option.toList_some, List.mem_singleton] at h
    exact h ▸ hm

/-- Every tree of the finished chunk came from the scatter stage or the
ring stage. -/
theorem genTreesFinal_sub (ops : RealOps R) (rand : ChunkRand R) (cx cz : ℤ)
    (tm : TM R) :
    ∀ t ∈ genTreesFinal ops rand cx cz tm,
      t ∈ (genTrees ops rand cx cz tm).1 ∨ t ∈ (genRing ops rand cx cz tm).1 := by
  intro t ht
  rw [genTreesFinal] at ht
  have hmem : t ∈ (genTrees ops rand cx cz tm).1.filter (fun t =>
      !(decide (hypot ops (t.x - (genMC ops rand cx cz tm).1)
        (t.z - (genMC ops rand cx cz tm).2) < genMaxR rand + 40)))
      ++ (genRing ops rand cx cz tm).1 := by
    rcases hg : genRunway ops rand cx cz tm with _ | rw
    · rw [hg] at ht; exact ht
    · rw [hg] at ht; exact List.mem_of_mem_filter ht
  rcases List.mem_append.mp hmem with h | h
  · exact Or.inl (List.mem_of_mem_filter h)
  · exact Or.inr h

/-- Every identity a freshly generated chunk owns lies in the consumed
fresh range, and the identity counter strictly advances. -/
theorem mkChunk_ids (ops : RealOps R) (rand : ChunkRand R) (cx cz : ℤ) (tm : TM R) :
    tm.nextId < (mkChunk ops rand cx cz tm).2.nextId ∧
    ∀ i ∈ chunkIds (mkChunk ops rand cx cz tm).1,
      tm.nextId ≤ i ∧ i < (mkChunk ops rand cx cz tm).2.nextId := by
  have hb1 : IdBound Tree.id (tm.nextId + 1) (genTrees ops rand cx cz tm) := by
    rw [genTrees]
    split
    · exact scatterTrees_bound ops rand tm.models cx cz tm.chunkSize tm.nextId _
    · exact idBound_init _ _
  have hb2 : IdBound Baobab.id (genTrees ops rand cx cz tm).2
      (genBaobabs ops rand cx cz tm) := by
    rw [genBaobabs]
    split
    · exact scatterBaobabs_bound ops rand cx cz tm.chunkSize tm.nextId _
    · exact idBound_init _ _
  have hb3 : IdBound Tree.id ((genBaobabs ops rand cx cz tm).2 + 1)
      (genRing ops rand cx cz tm) := by
    rw [genRing]
    exact ringTrees_bound ops rand tm.models.treeModel _ _ _ _
  have hb5 : IdBound Building.id (genNid4 ops rand cx cz tm)
      (genBlds ops rand cx cz tm) := by
    rw [genBlds]
    exact buildingsStep_bound ops rand tm.models.buildingModels cx cz tm.chunkSize
      _ _ tm.nextId _
  have h4a : (genRing ops rand cx cz tm).2 ≤ genNid4 ops rand cx cz tm := by
    rw [genNid4]; split <;> omega
  have h4b : genNid4 ops rand cx cz tm ≤ (genRing ops rand cx cz tm).2 + 1 := by
    rw [genNid4]; split <;> omega
  have hrwid : ∀ r ∈ genRwys ops rand cx cz tm,
      r.id = (genRing ops rand cx cz tm).2 ∧
        tm.models.runwayTexture = true := by
    intro r hr
    rw [genRwys] at hr
    cases hg : genRunway ops rand cx cz tm with
    | none => rw [hg] at hr; exact absurd hr (List.not_mem_nil r)
    | some rw0 =>
      rw [hg] at hr
      rw [List.mem_singleton] at hr
      subst hr
      rw [genRunway] at hg
      by_cases hT : tm.models.runwayTexture = true
      · rw [if_pos hT] at hg
        have := Option.some.inj hg
        exact ⟨by rw [← this], hT⟩
      · rw [if_neg hT] at hg
        exact Option.noConfusion hg
  have hmid : (genMtn ops rand cx cz tm).id = (genBaobabs ops rand cx cz tm).2 := rfl
  have hch : (mkChunk ops rand cx cz tm).1 =
      ⟨tm.nextId, cx, cz, genTreesFinal ops rand cx cz tm,
        (genBaobabs ops rand cx cz tm).1, genRwys ops rand cx cz tm,
        (genBlds ops rand cx cz tm).1, some (genMtn ops rand cx cz tm)⟩ := rfl
  have hnx : (mkChunk ops rand cx cz tm).2.nextId = (genBlds ops rand cx cz tm).2 :=
    rfl
  obtain ⟨e1, e2⟩ := hb1
  obtain ⟨e3, e4⟩ := hb2
  obtain ⟨e5, e6⟩ := hb3
  obtain ⟨e7, e8⟩ := hb5
  rw [hnx, hch]
  have hlt : tm.nextId < (genBlds ops rand cx cz tm).2 := by omega
  refine ⟨hlt, ?_⟩
  refine chunkIds_bound_assemble tm.nextId cx cz _ _ _ _ _ _ ?_ ?_ ?_ ?_ ?_ hlt
  · intro t ht
    rcases genTreesFinal_sub ops rand cx cz tm t ht with h | h
    · have := e2 t h; omega
    · have := e6 t h; omega
  · intro b hb
    have := e4 b hb; omega
  · intro r hr
    obtain ⟨hid, hT⟩ := hrwid r hr
    have h4 : genNid4 ops rand cx cz tm = (genRing ops rand cx cz tm).2 + 1 := by
      rw [genNid4, if_pos hT]
    omega
  · intro b hb
    have := e8 b hb; omega
  · rw [hmid]; omega

/-- `chunkCoord` of the origin at chunk size 1000 is 0. -/
theorem chunkCoord_origin : chunkCoord (1000 : R) 0 = 0 := by
  rw [chunkCoord]
  have h : ((0 : R) + 1000 / 2) / 1000 = 1 / 2 := by norm_num
  rw [h]
  rw [Int.floor_eq_iff]
  norm_num

/-- The runway-unregister fold of `Chunk.dispose`, seen on the global runway
list: a fold of filters is one filter by the conjunction. -/
theorem runFold_globalRunways (l : List (Runway R)) : ∀ (tm : TM R),
    (List.foldl (fun tm (r : Runway R) =>
        { tm with globalRunways := tm.globalRunways.filter fun x => decide (x.id ≠ r.id) })
      tm l).globalRunways
    = tm.globalRunways.filter fun x => l.all fun r => decide (x.id ≠ r.id) := by
  induction l with
  | nil => intro tm; simp
  | cons r t ih =>
    intro tm
    rw [List.foldl_cons, ih]
    dsimp only
    simp only [List.filter_filter, List.all_cons]
    exact List.filter_congr fun x hx => by rw [Bool.and_comm]

/-- `Chunk.dispose` filters exactly the chunk's own runway identities out of
the global runway registry. -/
theorem disposeChunk_globalRunways (tm : TM R) (c : Chunk R) :
    (disposeChunk tm c).globalRunways
      = tm.globalRunways.filter fun x => c.runways.all fun r => decide (x.id ≠ r.id) := by
  rw [disposeChunk]
  rw [foldl_pres (fun (tm : TM R) (b : Building R) =>
    { tm with activeBuildings := tm.activeBuildings.filter fun x => decide (x.id ≠ b.id) })
    TM.globalRunways (fun a b => rfl)]
  cases hm : c.mountain with
  | none => exact runFold_globalRunways c.runways tm
  | some mtn => exact runFold_globalRunways c.runways tm

/-- `Chunk.dispose` filters exactly the chunk's own mountain identity out of
the global mountain registry. -/
theorem disposeChunk_globalMountains (tm : TM R) (c : Chunk R) :
    (disposeChunk tm c).globalMountains
      = tm.globalMountains.filter fun x =>
          c.mountain.toList.all fun m => decide (x.id ≠ m.id) := by
  rw [disposeChunk]
  rw [foldl_pres (fun (tm : TM R) (b : Building R) =>
    { tm with activeBuildings := tm.activeBuildings.filter fun x => decide (x.id ≠ b.id) })
    TM.globalMountains (fun a b => rfl)]
  cases hm : c.mountain with
  | none =>
    dsimp only
    rw [foldl_pres (fun (tm : TM R) (r : Runway R) =>
      { tm with globalRunways := tm.globalRunways.filter fun x => decide (x.id ≠ r.id) })
      TM.globalMountains (fun a b => rfl)]
    simp
  | some mtn =>
    dsimp only
    rw [foldl_pres (fun (tm : TM R) (r : Runway R) =>
      { tm with globalRunways := tm.globalRunways.filter fun x => decide (x.id ≠ r.id) })
      TM.globalMountains (fun a b => rfl)]
    simp

/-- The disposal pass over a list of chunks, seen on the global runway
registry. -/
theorem disposeFold_globalRunways : ∀ (D : List ((ℤ × ℤ) × Chunk R)) (tm : TM R),
    (List.foldl (fun tm (kc : (ℤ × ℤ) × Chunk R) => disposeChunk tm kc.2) tm D).globalRunways
      = tm.globalRunways.filter fun x =>
          (D.flatMap fun kc => kc.2.runways).all fun r => decide (x.id ≠ r.id) := by
  intro D
  induction D with
  | nil => intro tm; simp
  | cons kc t ih =>
    intro tm
    rw [List.foldl_cons, ih, disposeChunk_globalRunways]
    simp only [List.filter_filter, List.flatMap_cons, List.all_append]
    exact List.filter_congr fun x hx => by rw [Bool.and_comm]

/-- The disposal pass over a list of chunks, seen on the global mountain
registry. -/
theorem disposeFold_globalMountains : ∀ (D : List ((ℤ × ℤ) × Chunk R)) (tm : TM R),
    (List.foldl (fun tm (kc : (ℤ × ℤ) × Chunk R) => disposeChunk tm kc.2) tm D).globalMountains
      = tm.globalMountains.filter fun x =>
          (D.flatMap fun kc => kc.2.mountain.toList).all fun m => decide (x.id ≠ m.id) := by
  intro D
  induction D with
  | nil => intro tm; simp
  | cons kc t ih =>
    intro tm
    rw [List.foldl_cons, ih, disposeChunk_globalMountains]
    simp only [List.filter_filter, List.flatMap_cons, List.all_append]
    exact List.filter_congr fun x hx => by rw [Bool.and_comm]

/-- `updateChunks`' unload pass, seen on the global runway registry: the
runways of every dropped chunk are filtered out. -/
theorem unloadChunks_globalRunways (keep : List (ℤ × ℤ)) (tm : TM R) :
    (unloadChunks keep tm).globalRunways
      = tm.globalRunways.filter fun x =>
          ((tm.chunks.filter fun kc => decide (kc.1 ∉ keep)).flatMap
            fun kc => kc.2.runways).all fun r => decide (x.id ≠ r.id) := by
  rw [unloadChunks]
  exact disposeFold_globalRunways _ tm

/-- `updateChunks`' unload pass, seen on the global mountain registry. -/
theorem unloadChunks_globalMountains (keep : List (ℤ × ℤ)) (tm : TM R) :
    (unloadChunks keep tm).globalMountains
      = tm.globalMountains.filter fun x =>
          ((tm.chunks.filter fun kc => decide (kc.1 ∉ keep)).flatMap
            fun kc => kc.2.mountain.toList).all fun m => decide (x.id ≠ m.id) := by
  rw [unloadChunks]
  exact disposeFold_globalMountains _ tm

theorem unloadChunks_nextId (keep : List (ℤ × ℤ)) (tm : TM R) :
    (unloadChunks keep tm).nextId = tm.nextId :=
  unloadChunks_pres TM.nextId (fun _ _ => rfl) (fun _ _ => rfl) (fun _ _ => rfl)
    (fun _ _ => rfl) keep tm

theorem rebuildActive_chunks (tm : TM R) : (rebuildActive tm).chunks = tm.chunks := rfl

theorem rebuildActive_nextId (tm : TM R) : (rebuildActive tm).nextId = tm.nextId := rfl

theorem rebuildActive_globalRunways (tm : TM R) :
    (rebuildActive tm).globalRunways = tm.globalRunways := rfl

theorem rebuildActive_globalMountains (tm : TM R) :
    (rebuildActive tm).globalMountains = tm.globalMountains := rfl

theorem rebuildActive_activeTrees (tm : TM R) :
    (rebuildActive tm).activeTrees = tm.chunks.flatMap fun kc => kc.2.trees := rfl

theorem rebuildActive_activeBaobabTrees (tm : TM R) :
    (rebuildActive tm).activeBaobabTrees
      = tm.chunks.flatMap fun kc => kc.2.baobabTrees := rfl

theorem rebuildActive_activeBuildings (tm : TM R) :
    (rebuildActive tm).activeBuildings
      = tm.chunks.flatMap fun kc => kc.2.buildings := rfl

theorem coreInv_initTM (m : Models R) : CoreInv (initTM m) := by
  refine ⟨?_, ?_, ?_, ?_⟩ <;> simp [initTM]

/-- Appending a freshly generated chunk under an unloaded key preserves the
core invariant. -/
theorem loadStep_coreInv (ops : RealOps R) (rand : ChunkRand R) (cx cz : ℤ)
    (tm : TM R) (k : ℤ × ℤ) (hk : k ∉ tm.chunks.map Prod.fst) (h : CoreInv tm) :
    CoreInv { (mkChunk ops rand cx cz tm).2 with
      chunks := (mkChunk ops rand cx cz tm).2.chunks ++
        [(k, (mkChunk ops rand cx cz tm).1)] } := by
  obtain ⟨hlt, hbd⟩ := mkChunk_ids ops rand cx cz tm
  constructor
  · simp only [mkChunk_snd_chunks, List.map_append, List.map_cons, List.map_nil]
    rw [List.nodup_append]
    refine ⟨h.keyNd, List.nodup_singleton _, ?_⟩
    intro a ha hb
    rw [List.mem_singleton] at hb
    exact hk (hb ▸ ha)
  · simp only [mkChunk_snd_chunks, List.mem_append, List.mem_singleton]
    rintro e1 (he1 | rfl) e2 (he2 | rfl) hne i hi1
    · exact h.idSep e1 he1 e2 he2 hne i hi1
    · intro hi2
      have h1 := h.idLt e1 he1 i hi1
      have h2 := (hbd i hi2).1
      omega
    · intro hi2
      have h1 := h.idLt e2 he2 i hi2
      have h2 := (hbd i hi1).1
      omega
    · exact absurd rfl hne
  · simp only [mkChunk_snd_chunks, List.mem_append, List.mem_singleton]
    rintro e (he | rfl) i hi
    · have h1 := h.idLt e he i hi
      omega
    · exact (hbd i hi).2
  · simp only [mkChunk_snd_chunks, List.mem_append, List.mem_singleton]
    rintro e (he | rfl)
    · exact h.mtn e he
    · exact mkChunk_fst_mountain_isSome ops rand cx cz tm

theorem loadChunksGo_coreInv (ops : RealOps R) (env : ℕ → ChunkRand R) :
    ∀ (ks : List (ℤ × ℤ)) (tm : TM R), CoreInv tm →
      CoreInv (loadChunksGo ops env ks tm) := by
  intro ks
  induction ks with
  | nil => intro tm h; exact h
  | cons k t ih =>
    intro tm h
    rw [loadChunksGo]
    cases hl : lookupChunk tm.chunks k with
    | some c => exact ih tm h
    | none =>
      exact ih _ (loadStep_coreInv ops (env tm.nextId) k.1 k.2 tm k
        ((lookupChunk_none_iff _ _).mp hl) h)

theorem unloadChunks_coreInv (keep : List (ℤ × ℤ)) (tm : TM R) (h : CoreInv tm) :
    CoreInv (unloadChunks keep tm) := by
  have hch := unloadChunks_chunks keep tm
  have hid := unloadChunks_nextId keep tm
  constructor
  · rw [hch]
    exact h.keyNd.sublist ((List.filter_sublist _).map Prod.fst)
  · rw [hch]
    intro e1 he1 e2 he2
    exact h.idSep e1 (List.mem_of_mem_filter he1) e2 (List.mem_of_mem_filter he2)
  · rw [hch, hid]
    intro e he
    exact h.idLt e (List.mem_of_mem_filter he)
  · rw [hch]
    intro e he
    exact h.mtn e (List.mem_of_mem_filter he)

theorem rebuildActive_coreInv (tm : TM R) (h : CoreInv tm) :
    CoreInv (rebuildActive tm) :=
  ⟨h.keyNd, h.idSep, h.idLt, h.mtn⟩

theorem updateChunks_coreInv (ops : RealOps R) (env : ℕ → ChunkRand R)
    (ctr : ℤ × ℤ) (tm : TM R) (h : CoreInv tm) :
    CoreInv (updateChunks ops env ctr tm) := by
  rw [updateChunks, loadChunks]
  exact rebuildActive_coreInv _ (unloadChunks_coreInv _ _
    (loadChunksGo_coreInv ops env _ tm h))

theorem update_coreInv (ops : RealOps R) (env : ℕ → ChunkRand R) (p : Pos3 R)
    (tm : TM R) (h : CoreInv tm) : CoreInv (update ops env p tm) := by
  rw [update]
  by_cases hs : tm.currentChunk = some (coordOf tm.chunkSize p)
  · rw [if_pos hs]
    exact h
  · rw [if_neg hs]
    exact updateChunks_coreInv ops env _ _ ⟨h.keyNd, h.idSep, h.idLt, h.mtn⟩

/-- Identities of a chunk whose tree list was shrunk to a sublist. -/
theorem chunkIds_treesSub (c : Chunk R) (l : List (Tree R)) (hl : l.Sublist c.trees) :
    ∀ i ∈ chunkIds { c with trees := l }, i ∈ chunkIds c := by
  intro i hi
  simp only [chunkIds, List.mem_cons, List.mem_append] at hi ⊢
  rcases hi with h | (((h | h) | h) | h) | h
  · exact Or.inl h
  · exact Or.inr (Or.inl (Or.inl (Or.inl (Or.inl ((hl.map Tree.id).subset h)))))
  · exact Or.inr (Or.inl (Or.inl (Or.inl (Or.inr h))))
  · exact Or.inr (Or.inl (Or.inl (Or.inr h)))
  · exact Or.inr (Or.inl (Or.inr h))
  · exact Or.inr (Or.inr h)

/-- Identities of a chunk whose baobab list was shrunk to a sublist. -/
theorem chunkIds_baobabSub (c : Chunk R) (l : List (Baobab R))
    (hl : l.Sublist c.baobabTrees) :
    ∀ i ∈ chunkIds { c with baobabTrees := l }, i ∈ chunkIds c := by
  intro i hi
  simp only [chunkIds, List.mem_cons, List.mem_append] at hi ⊢
  rcases hi with h | (((h | h) | h) | h) | h
  · exact Or.inl h
  · exact Or.inr (Or.inl (Or.inl (Or.inl (Or.inl h))))
  · exact Or.inr (Or.inl (Or.inl (Or.inl (Or.inr ((hl.map Baobab.id).subset h)))))
  · exact Or.inr (Or.inl (Or.inl (Or.inr h)))
  · exact Or.inr (Or.inl (Or.inr h))
  · exact Or.inr (Or.inr h)

/-- Identities of a chunk whose building list was shrunk to a sublist. -/
theorem chunkIds_buildingsSub (c : Chunk R) (l : List (Building R))
    (hl : l.Sublist c.buildings) :
    ∀ i ∈ chunkIds { c with buildings := l }, i ∈ chunkIds c := by
  intro i hi
  simp only [chunkIds, List.mem_cons, List.mem_append] at hi ⊢
  rcases hi with h | (((h | h) | h) | h) | h
  · exact Or.inl h
  · exact Or.inr (Or.inl (Or.inl (Or.inl (Or.inl h))))
  · exact Or.inr (Or.inl (Or.inl (Or.inl (Or.inr h))))
  · exact Or.inr (Or.inl (Or.inl (Or.inr h)))
  · exact Or.inr (Or.inl (Or.inr ((hl.map Building.id).subset h)))
  · exact Or.inr (Or.inr h)

/-- The core invariant survives any per-chunk shrink of the chunk map that
keeps keys, keeps the mountain, and only drops entity identities. -/
theorem coreInv_chunkMapShrink (tm tm' : TM R) (φ : Chunk R → Chunk R)
    (hch : tm'.chunks = tm.chunks.map fun kc => (kc.1, φ kc.2))
    (hnid : tm'.nextId = tm.nextId)
    (hid : ∀ c, ∀ i ∈ chunkIds (φ c), i ∈ chunkIds c)
    (hmtn : ∀ c, (φ c).mountain = c.mountain)
    (h : CoreInv tm) : CoreInv tm' := by
  have hkeys : ((tm.chunks.map fun kc => (kc.1, φ kc.2)).map Prod.fst)
      = tm.chunks.map Prod.fst := by
    rw [List.map_map]
    rfl
  constructor
  · rw [hch, hkeys]
    exact h.keyNd
  · rw [hch]
    intro e1 he1 e2 he2 hne i hi1 hi2
    obtain ⟨kc1, hkc1, rfl⟩ := List.mem_map.mp he1
    obtain ⟨kc2, hkc2, rfl⟩ := List.mem_map.mp he2
    exact h.idSep kc1 hkc1 kc2 hkc2 hne i (hid _ i hi1) (hid _ i hi2)
  · rw [hch, hnid]
    intro e he i hi
    obtain ⟨kc, hkc, rfl⟩ := List.mem_map.mp he
    exact h.idLt kc hkc i (hid _ i hi)
  · rw [hch]
    intro e he
    obtain ⟨kc, hkc, rfl⟩ := List.mem_map.mp he
    rw [show ((kc.1, φ kc.2) : (ℤ × ℤ) × Chunk R).2.mountain = (φ kc.2).mountain from rfl,
      hmtn]
    exact h.mtn kc hkc

theorem unregisterTree_coreInv (tm : TM R) (t : Tree R) (h : CoreInv tm) :
    CoreInv (unregisterTree tm t) := by
  rw [unregisterTree]
  cases t.chunkRef with
  | none => exact ⟨h.keyNd, h.idSep, h.idLt, h.mtn⟩
  | some cid =>
    dsimp only
    have hmap : (tm.chunks.map fun kc =>
        if kc.2.id = cid then
          (kc.1, { kc.2 with trees := removeFirstId Tree.id t.id kc.2.trees })
        else kc)
      = tm.chunks.map fun kc => (kc.1,
          if kc.2.id = cid then
            { kc.2 with trees := removeFirstId Tree.id t.id kc.2.trees }
          else kc.2) := by
      refine List.map_congr_left fun kc hkc => ?_
      by_cases hc : kc.2.id = cid
      · rw [if_pos hc, if_pos hc]
      · rw [if_neg hc, if_neg hc]
    refine coreInv_chunkMapShrink tm _
      (fun c => if c.id = cid then
        { c with trees := removeFirstId Tree.id t.id c.trees } else c)
      hmap rfl (fun c i hi => ?_) (fun c => ?_) h
    · dsimp only at hi
      by_cases hc : c.id = cid
      · rw [if_pos hc] at hi
        exact chunkIds_treesSub c _ (List.eraseP_sublist _) i hi
      · rw [if_neg hc] at hi
        exact hi
    · dsimp only
      by_cases hc : c.id = cid
      · rw [if_pos hc]
      · rw [if_neg hc]

theorem unregisterBaobabTree_coreInv (tm : TM R) (t : Baobab R) (h : CoreInv tm) :
    CoreInv (unregisterBaobabTree tm t) := by
  rw [unregisterBaobabTree]
  cases t.chunkRef with
  | none => exact ⟨h.keyNd, h.idSep, h.idLt, h.mtn⟩
  | some cid =>
    dsimp only
    have hmap : (tm.chunks.map fun kc =>
        if kc.2.id = cid then
          (kc.1, { kc.2 with baobabTrees := removeFirstId Baobab.id t.id kc.2.baobabTrees })
        else kc)
      = tm.chunks.map fun kc => (kc.1,
          if kc.2.id = cid then
            { kc.2 with baobabTrees := removeFirstId Baobab.id t.id kc.2.baobabTrees }
          else kc.2) := by
      refine List.map_congr_left fun kc hkc => ?_
      by_cases hc : kc.2.id = cid
      · rw [if_pos hc, if_pos hc]
      · rw [if_neg hc, if_neg hc]
    refine coreInv_chunkMapShrink tm _
      (fun c => if c.id = cid then
        { c with baobabTrees := removeFirstId Baobab.id t.id c.baobabTrees } else c)
      hmap rfl (fun c i hi => ?_) (fun c => ?_) h
    · dsimp only at hi
      by_cases hc : c.id = cid
      · rw [if_pos hc] at hi
        exact chunkIds_baobabSub c _ (List.eraseP_sublist _) i hi
      · rw [if_neg hc] at hi
        exact hi
    · dsimp only
      by_cases hc : c.id = cid
      · rw [if_pos hc]
      · rw [if_neg hc]

theorem unregisterBuilding_coreInv (tm : TM R) (b : Building R) (h : CoreInv tm) :
    CoreInv (unregisterBuilding tm b) := by
  rw [unregisterBuilding]
  cases b.chunkRef with
  | none => exact ⟨h.keyNd, h.idSep, h.idLt, h.mtn⟩
  | some cid =>
    dsimp only
    have hmap : (tm.chunks.map fun kc =>
        if kc.2.id = cid then
          (kc.1, { kc.2 with buildings := removeFirstId Building.id b.id kc.2.buildings })
        else kc)
      = tm.chunks.map fun kc => (kc.1,
          if kc.2.id = cid then
            { kc.2 with buildings := removeFirstId Building.id b.id kc.2.buildings }
          else kc.2) := by
      refine List.map_congr_left fun kc hkc => ?_
      by_cases hc : kc.2.id = cid
      · rw [if_pos hc, if_pos hc]
      · rw [if_neg hc, if_neg hc]
    refine coreInv_chunkMapShrink tm _
      (fun c => if c.id = cid then
        { c with buildings := removeFirstId Building.id b.id c.buildings } else c)
      hmap rfl (fun c i hi => ?_) (fun c => ?_) h
    · dsimp only at hi
      by_cases hc : c.id = cid
      · rw [if_pos hc] at hi
        exact chunkIds_buildingsSub c _ (List.eraseP_sublist _) i hi
      · rw [if_neg hc] at hi
        exact hi
    · dsimp only
      by_cases hc : c.id = cid
      · rw [if_pos hc]
      · rw [if_neg hc]

theorem applyOp_coreInv (ops : RealOps R) (o : Op R) (tm : TM R) (h : CoreInv tm) :
    CoreInv (applyOp ops o tm) := by
  cases o with
  | upd p env => exact update_coreInv ops env p tm h
  | unregTree t => exact unregisterTree_coreInv tm t h
  | unregBaobab t => exact unregisterBaobabTree_coreInv tm t h
  | unregBuilding b => exact unregisterBuilding_coreInv tm b h
  | unregRunway r => exact ⟨h.keyNd, h.idSep, h.idLt, h.mtn⟩
  | unregMountain m => exact ⟨h.keyNd, h.idSep, h.idLt, h.mtn⟩

theorem runOps_coreInv (ops : RealOps R) (tm : TM R) (l : List (Op R))
    (h : CoreInv tm) : CoreInv (runOps ops tm l) := by
  rw [runOps]
  induction l generalizing tm with
  | nil => exact h
  | cons o t ih => exact ih _ (applyOp_coreInv ops o tm h)

/-- Transfer of the window invariant along equal keys and current chunk. -/
theorem windowInv_of_eq (tm tm' : TM R) (hc : tm'.currentChunk = tm.currentChunk)
    (hk : tm'.chunks.map Prod.fst = tm.chunks.map Prod.fst) (h : windowInv tm) :
    windowInv tm' := by
  intro cc hcc k
  rw [hk]
  exact h cc (hc ▸ hcc) k

theorem unregisterTree_windowInv (tm : TM R) (t : Tree R) (h : windowInv tm) :
    windowInv (unregisterTree tm t) := by
  refine windowInv_of_eq tm _ ?_ ?_ h
  · rw [unregisterTree]
    cases t.chunkRef <;> rfl
  · rw [unregisterTree]
    cases t.chunkRef with
    | none => rfl
    | some cid =>
      dsimp only
      rw [List.map_map]
      refine List.map_congr_left fun kc hkc => ?_
      by_cases hc : kc.2.id = cid
      · simp [hc]
      · simp [hc]

theorem unregisterBaobabTree_windowInv (tm : TM R) (t : Baobab R) (h : windowInv tm) :
    windowInv (unregisterBaobabTree tm t) := by
  refine windowInv_of_eq tm _ ?_ ?_ h
  · rw [unregisterBaobabTree]
    cases t.chunkRef <;> rfl
  · rw [unregisterBaobabTree]
    cases t.chunkRef with
    | none => rfl
    | some cid =>
      dsimp only
      rw [List.map_map]
      refine List.map_congr_left fun kc hkc => ?_
      by_cases hc : kc.2.id = cid
      · simp [hc]
      · simp [hc]

theorem unregisterBuilding_windowInv (tm : TM R) (b : Building R) (h : windowInv tm) :
    windowInv (unregisterBuilding tm b) := by
  refine windowInv_of_eq tm _ ?_ ?_ h
  · rw [unregisterBuilding]
    cases b.chunkRef <;> rfl
  · rw [unregisterBuilding]
    cases b.chunkRef with
    | none => rfl
    | some cid =>
      dsimp only
      rw [List.map_map]
      refine List.map_congr_left fun kc hkc => ?_
      by_cases hc : kc.2.id = cid
      · simp [hc]
      · simp [hc]

theorem applyOp_windowInv (ops : RealOps R) (o : Op R) (tm : TM R) (h : windowInv tm) :
    windowInv (applyOp ops o tm) := by
  cases o with
  | upd p env => exact update_windowInv ops env p tm h
  | unregTree t => exact unregisterTree_windowInv tm t h
  | unregBaobab t => exact unregisterBaobabTree_windowInv tm t h
  | unregBuilding b => exact unregisterBuilding_windowInv tm b h
  | unregRunway r => exact windowInv_of_eq tm _ rfl rfl h
  | unregMountain m => exact windowInv_of_eq tm _ rfl rfl h

theorem runOps_windowInv (ops : RealOps R) (tm : TM R) (l : List (Op R))
    (h : windowInv tm) : windowInv (runOps ops tm l) := by
  rw [runOps]
  induction l generalizing tm with
  | nil => exact h
  | cons o t ih => exact ih _ (applyOp_windowInv ops o tm h)

/-- Evaluation of the C2 witness chunk: with no optional models the chunk
at key (-1,-1) owns only its mountain. -/
theorem c2w_chunk_eval :
    (mkChunk qOps (constRand 0) (-1) (-1)
      ({ initTM c9wModels with currentChunk := some ((0 : ℤ), (0 : ℤ)) } : TM ℚ)).1
    = c2wChunk := by
  have h3 : List.range 3 = [0, 1, 2] := by decide
  have hmc : mountainCenter qOps (constRand 0) [] (-1000) (-1000) 1000
      = (-700, -1000) := by
    norm_num [mountainCenter, findMountainPos, mountainTooClose]
  have hmr : mountainMaxRadius (constRand (0 : ℚ)) (Int.toNat 3) = 40 := by
    norm_num [mountainMaxRadius, h3, List.foldl, max_def]
  norm_num [mkChunk, genTreesFinal, genTrees, genBaobabs, genMC, genMaxR, genMtn,
    genRing, genRunway, genNid4, genRwys, genBlds, initTM, c9wModels, hmc, hmr,
    buildingsStep_nil, getHeight_qOps, ringTrees, c2wChunk]

theorem chunkIds_of_tree (c : Chunk R) (t : Tree R) (h : t ∈ c.trees) :
    t.id ∈ chunkIds c := by
  simp only [chunkIds, List.mem_cons, List.mem_append]
  exact Or.inr (Or.inl (Or.inl (Or.inl (Or.inl (List.mem_map_of_mem Tree.id h)))))

theorem chunkIds_of_baobab (c : Chunk R) (b : Baobab R) (h : b ∈ c.baobabTrees) :
    b.id ∈ chunkIds c := by
  simp only [chunkIds, List.mem_cons, List.mem_append]
  exact Or.inr (Or.inl (Or.inl (Or.inl (Or.inr (List.mem_map_of_mem Baobab.id h)))))

theorem chunkIds_of_runway (c : Chunk R) (r : Runway R) (h : r ∈ c.runways) :
    r.id ∈ chunkIds c := by
  simp only [chunkIds, List.mem_cons, List.mem_append]
  exact Or.inr (Or.inl (Or.inl (Or.inr (List.mem_map_of_mem Runway.id h))))

theorem chunkIds_of_building (c : Chunk R) (b : Building R) (h : b ∈ c.buildings) :
    b.id ∈ chunkIds c := by
  simp only [chunkIds, List.mem_cons, List.mem_append]
  exact Or.inr (Or.inl (Or.inr (List.mem_map_of_mem Building.id h)))

theorem chunkIds_of_mountain (c : Chunk R) (m : Mountain R)
    (h : m ∈ c.mountain.toList) : m.id ∈ chunkIds c := by
  simp only [chunkIds, List.mem_cons, List.mem_append]
  exact Or.inr (Or.inr (by
    cases hm : c.mountain with
    | none => rw [hm] at h; exact absurd h (List.not_mem_nil m)
    | some m0 =>
      rw [hm] at h
      simp only [Option.toList_some, List.mem_singleton] at h
      subst h
      simp [hm]))

/-- A filter after a `filterMap` commutes to a filter before it whenever the
two predicates agree through the partial map. -/
theorem filterMap_filter_comm {α β : Type} (f : α → Option β) (q : α → Bool)
    (p : β → Bool) :
    ∀ l : List α, (∀ a ∈ l, ∀ b, f a = some b → p b = q a) →
      (l.filterMap f).filter p = (l.filter q).filterMap f := by
  intro l
  induction l with
  | nil => intro _; rfl
  | cons a t ih =>
    intro h
    have ht := ih fun x hx => h x (List.mem_cons_of_mem a hx)
    rw [List.filterMap_cons, List.filter_cons]
    cases hf : f a with
    | none =>
      by_cases hq : q a = true
      · rw [if_pos hq, List.filterMap_cons, hf, ht]
      · rw [if_neg hq, ht]
    | some b =>
      have hpb := h a (List.mem_cons_self a t) b hf
      by_cases hq : q a = true
      · rw [if_pos hq, List.filterMap_cons, hf, List.filter_cons, hpb, if_pos hq, ht]
      · rw [if_neg hq, List.filter_cons, hpb, if_neg hq, ht]

theorem mtnInv_initTM (m : Models R) : MtnInv (initTM m) := rfl

/-- Appending a freshly generated chunk preserves mountain-registry
coherence: its mountain is registered exactly once, at the end. -/
theorem loadStep_mtnInv (ops : RealOps R) (rand : ChunkRand R) (cx cz : ℤ)
    (tm : TM R) (k : ℤ × ℤ) (hM : MtnInv tm) :
    MtnInv { (mkChunk ops rand cx cz tm).2 with
      chunks := (mkChunk ops rand cx cz tm).2.chunks ++
        [(k, (mkChunk ops rand cx cz tm).1)] } := by
  show (mkChunk ops rand cx cz tm).2.globalMountains = _
  rw [mkChunk_snd_globalMountains, mkChunk_snd_chunks, List.filterMap_append, hM]
  rfl

theorem loadChunksGo_mtnInv (ops : RealOps R) (env : ℕ → ChunkRand R) :
    ∀ (ks : List (ℤ × ℤ)) (tm : TM R), MtnInv tm →
      MtnInv (loadChunksGo ops env ks tm) := by
  intro ks
  induction ks with
  | nil => intro tm h; exact h
  | cons k t ih =>
    intro tm h
    rw [loadChunksGo]
    cases hl : lookupChunk tm.chunks k with
    | some c => exact ih tm h
    | none => exact ih _ (loadStep_mtnInv ops (env tm.nextId) k.1 k.2 tm k h)

/-- The unload pass preserves mountain-registry coherence: by identity
separation, each disposed chunk's mountain filter removes exactly that
chunk's contribution. -/
theorem unloadChunks_mtnInv (keep : List (ℤ × ℤ)) (tm : TM R) (h : CoreInv tm)
    (hM : MtnInv tm) : MtnInv (unloadChunks keep tm) := by
  show (unloadChunks keep tm).globalMountains = _
  rw [unloadChunks_chunks, unloadChunks_globalMountains, hM]
  refine filterMap_filter_comm _ _ _ tm.chunks ?_
  intro a ha b hb
  by_cases hk : a.1 ∈ keep
  · rw [decide_eq_true hk]
    rw [List.all_eq_true]
    intro m hm
    obtain ⟨kc, hkc, hmm⟩ := List.mem_flatMap.mp hm
    have hkcm : kc ∈ tm.chunks := List.mem_of_mem_filter hkc
    have hknotin : kc.1 ∉ keep := of_decide_eq_true (List.mem_filter.mp hkc).2
    have hne : a.1 ≠ kc.1 := fun he => hknotin (he ▸ hk)
    have hb' : b.id ∈ chunkIds a.2 :=
      chunkIds_of_mountain a.2 b (by rw [hb]; simp)
    have hsep := h.idSep a ha kc hkcm hne b.id hb'
    refine decide_eq_true ?_
    intro he
    exact hsep (he ▸ chunkIds_of_mountain kc.2 m hmm)
  · rw [decide_eq_false hk]
    rw [List.all_eq_false]
    refine ⟨b, List.mem_flatMap.mpr ⟨a, List.mem_filter.mpr ⟨ha, decide_eq_true hk⟩,
      by rw [hb]; simp⟩, ?_⟩
    simp

theorem update_mtnInv (ops : RealOps R) (env : ℕ → ChunkRand R) (p : Pos3 R)
    (tm : TM R) (h : CoreInv tm) (hM : MtnInv tm) : MtnInv (update ops env p tm) := by
  rw [update]
  by_cases hs : tm.currentChunk = some (coordOf tm.chunkSize p)
  · rw [if_pos hs]
    exact hM
  · rw [if_neg hs]
    rw [updateChunks, loadChunks]
    have h1 : CoreInv (loadChunksGo ops env
        (windowKeys (coordOf tm.chunkSize p))
        { tm with currentChunk := some (coordOf tm.chunkSize p) }) :=
      loadChunksGo_coreInv ops env _ _ ⟨h.keyNd, h.idSep, h.idLt, h.mtn⟩
    have h2 : MtnInv (loadChunksGo ops env
        (windowKeys (coordOf tm.chunkSize p))
        { tm with currentChunk := some (coordOf tm.chunkSize p) }) :=
      loadChunksGo_mtnInv ops env _ _ hM
    exact unloadChunks_mtnInv _ _ h1 h2

theorem runUpdates_coreInv (ops : RealOps R) (tm : TM R)
    (l : List (Pos3 R × (ℕ → ChunkRand R))) (h : CoreInv tm) :
    CoreInv (runUpdates ops tm l) := by
  rw [runUpdates]
  induction l generalizing tm with
  | nil => exact h
  | cons pe t ih => exact ih _ (update_coreInv ops pe.2 pe.1 tm h)

theorem runUpdates_mtnInv (ops : RealOps R) (tm : TM R)
    (l : List (Pos3 R × (ℕ → ChunkRand R))) (h : CoreInv tm) (hM : MtnInv tm) :
    MtnInv (runUpdates ops tm l) := by
  rw [runUpdates]
  induction l generalizing tm with
  | nil => exact hM
  | cons pe t ih =>
    exact ih _ (update_coreInv ops pe.2 pe.1 tm h) (update_mtnInv ops pe.2 pe.1 tm h hM)

theorem windowKeys_nodup (c : ℤ × ℤ) : (windowKeys c).Nodup := by
  rw [windowKeys]
  have hdis : ∀ x y : ℤ, x ≠ y →
      List.Disjoint ([c.2 - 1, c.2, c.2 + 1].map fun z => (x, z))
        ([c.2 - 1, c.2, c.2 + 1].map fun z => (y, z)) := by
    intro x y hxy a ha hb
    obtain ⟨z1, hz1, rfl⟩ := List.mem_map.mp ha
    obtain ⟨z2, hz2, he⟩ := List.mem_map.mp hb
    exact hxy ((congrArg Prod.fst he).symm)
  have hinner : ∀ x : ℤ,
      (([c.2 - 1, c.2, c.2 + 1].map fun z => (x, z)) : List (ℤ × ℤ)).Nodup := by
    intro x
    refine List.Nodup.map (fun a b hab => ?_) ?_
    · exact ((Prod.mk.injEq x a x b ▸ hab) : x = x ∧ a = b).2
    · refine List.nodup_cons.mpr ⟨?_, List.nodup_cons.mpr ⟨?_, List.nodup_singleton _⟩⟩
      · intro h
        rcases List.mem_cons.mp h with h | h
        · omega
        · rw [List.mem_singleton] at h
          omega
      · intro h
        rw [List.mem_singleton] at h
        omega
  refine List.nodup_flatMap.mpr ⟨fun x _ => hinner x, ?_⟩
  refine List.pairwise_cons.mpr ⟨?_, List.pairwise_cons.mpr
    ⟨?_, List.pairwise_singleton _ _⟩⟩
  · intro y hy
    rcases List.mem_cons.mp hy with h | h
    · subst h
      exact hdis _ _ (by omega)
    · rw [List.mem_singleton] at h
      subst h
      exact hdis _ _ (by omega)
  · intro y hy
    rw [List.mem_singleton] at hy
    subst hy
    exact hdis _ _ (by omega)

theorem windowKeys_length (c : ℤ × ℤ) : (windowKeys c).length = 9 := by
  simp [windowKeys]

theorem length_eq_of_nodup_mem_iff {α : Type} (l1 l2 : List α) (h1 : l1.Nodup)
    (h2 : l2.Nodup) (h : ∀ a, a ∈ l1 ↔ a ∈ l2) : l1.length = l2.length :=
  le_antisymm (h1.subperm fun a ha => (h a).mp ha).length_le
    (h2.subperm fun a ha => (h a).mpr ha).length_le

theorem filterMap_length_isSome {α β : Type} (f : α → Option β) :
    ∀ l : List α, (∀ a ∈ l, (f a).isSome = true) → (l.filterMap f).length = l.length := by
  intro l
  induction l with
  | nil => intro _; rfl
  | cons a t ih =>
    intro h
    rw [List.filterMap_cons]
    cases hf : f a with
    | none => exact absurd (hf ▸ h a (List.mem_cons_self a t)) (by simp)
    | some b =>
      simp only [List.length_cons, ih fun x hx => h x (List.mem_cons_of_mem a hx)]

/-- A fold that pushes one element per step, numbered from the running
counter. -/
theorem foldl_push {α : Type} (f : ℕ → α) (k n0 : ℕ) :
    List.foldl (fun (acc : List α × ℕ) (_ : ℕ) => (acc.1 ++ [f acc.2], acc.2 + 1))
      ([], n0) (List.range k)
    = ((List.range k).map (fun j => f (n0 + j)), n0 + k) := by
  induction k with
  | zero => rfl
  | succ k ih =>
    rw [List.range_succ, List.foldl_append, ih]
    simp [List.range_succ, Nat.add_assoc]

theorem c3_sin05 (cx : ℤ) :
    Real.sin (Real.pi * (400 * (cx : ℝ) - 50) * 0.05) = -1 := by
  rw [show Real.pi * (400 * (cx : ℝ) - 50) * 0.05
      = -(Real.pi / 2) + (10 * cx - 1 : ℤ) * (2 * Real.pi) by push_cast; ring]
  rw [Real.sin_add_int_mul_two_pi, Real.sin_neg, Real.sin_pi_div_two]

theorem c3_sin01 (cx : ℤ) :
    Real.sin (Real.pi * (400 * (cx : ℝ) - 50) * 0.01) = -1 := by
  rw [show Real.pi * (400 * (cx : ℝ) - 50) * 0.01
      = -(Real.pi / 2) + (2 * cx : ℤ) * (2 * Real.pi) by push_cast; ring]
  rw [Real.sin_add_int_mul_two_pi, Real.sin_neg, Real.sin_pi_div_two]

theorem c3_sin5b (cx : ℤ) :
    Real.sin (100 * ((b3 cx : ℤ) : ℝ) * Real.pi * 0.05) = 0 := by
  rw [show 100 * ((b3 cx : ℤ) : ℝ) * Real.pi * 0.05
      = (5 * b3 cx : ℤ) * Real.pi by push_cast; ring]
  exact Real.sin_int_mul_pi _

theorem c3_sin1b (cx : ℤ) :
    Real.sin (100 * ((b3 cx : ℤ) : ℝ) * Real.pi * 0.01) = 0 := by
  rw [show 100 * ((b3 cx : ℤ) : ℝ) * Real.pi * 0.01
      = (b3 cx : ℤ) * Real.pi by push_cast; ring]
  exact Real.sin_int_mul_pi _

theorem c3_cos_cz (cz : ℤ) (h : cz = -1 ∨ cz = 0 ∨ cz = 1) :
    0 ≤ Real.cos (1000 * (cz : ℝ) * 0.05) := by
  have hgt := Real.pi_gt_d6
  have hlt := Real.pi_lt_d6
  rcases h with rfl | rfl | rfl
  · rw [show 1000 * ((-1 : ℤ) : ℝ) * 0.05
        = (16 * Real.pi - 50) + (-8 : ℤ) * (2 * Real.pi) by push_cast; ring]
    rw [Real.cos_add_int_mul_two_pi]
    exact le_of_lt (Real.cos_pos_of_mem_Ioo ⟨by nlinarith, by nlinarith⟩)
  · norm_num
  · rw [show 1000 * ((1 : ℤ) : ℝ) * 0.05
        = (50 - 16 * Real.pi) + (8 : ℤ) * (2 * Real.pi) by push_cast; ring]
    rw [Real.cos_add_int_mul_two_pi]
    exact le_of_lt (Real.cos_pos_of_mem_Ioo ⟨by nlinarith, by nlinarith⟩)

/-- Evaluation of chunk generation in the C3 scenario: every chunk in
columns -1, 0, 1 of rows -1, 0, 1 grows exactly ten ring trees and a
mountain, consuming twelve identities. -/
theorem mkChunk_c3 (at2 : ℝ → ℝ → ℝ) (cx cz : ℤ) (tm : TM ℝ)
    (hcx : cx = -1 ∨ cx = 0 ∨ cx = 1)
    (hcz : cz = -1 ∨ cz = 0 ∨ cz = 1)
    (hm : tm.models = c3Models) (hs : tm.chunkSize = 1000)
    (hr : tm.globalRunways = []) :
    (mkChunk (realOpsAt at2) (randC3 cx) cx cz tm).1 = c3Chunk cx cz tm.nextId ∧
    (mkChunk (realOpsAt at2) (randC3 cx) cx cz tm).2.nextId = tm.nextId + 12 := by
  have htcx : cx = 0 ∨ cx = 1 ∨ cx = -1 ∨ cx = 2 := by tauto
  have hdcx : cx = 0 ∨ cx = 1 ∨ cx = -1 := by tauto
  have ht3v : t3 cx
      = 1/2 + (Real.pi * (400 * (cx : ℝ) - 50) - 1000 * (cx : ℝ)) / 1000 := by
    rw [t3, if_pos htcx]
  have hd3v : d3 cx = (1000 * (cx : ℝ) - 244 - 100 * (b3 cx : ℝ) * Real.pi) / 150 := by
    rw [d3, if_pos hdcx]
  have hty : ∀ i : ℕ, ¬(getHeight (realOpsAt at2)
      ((cx : ℝ) * 1000 + ((randC3 cx).treeX i - 0.5) * 1000)
      ((cz : ℝ) * 1000 + ((randC3 cx).treeZ i - 0.5) * 1000) > -1) := by
    intro i
    have hX : (cx : ℝ) * 1000 + ((randC3 cx).treeX i - 0.5) * 1000
        = Real.pi * (400 * (cx : ℝ) - 50) := by
      show (cx : ℝ) * 1000 + (t3 cx - 0.5) * 1000 = _
      rw [ht3v]
      norm_num
      ring
    have hZ : (cz : ℝ) * 1000 + ((randC3 cx).treeZ i - 0.5) * 1000
        = 1000 * (cz : ℝ) := by
      show (cz : ℝ) * 1000 + ((1 : ℝ)/2 - 0.5) * 1000 = _
      norm_num
      ring
    rw [getHeight, hX, hZ]
    simp only [realOpsAt_sin, realOpsAt_cos]
    rw [c3_sin05 cx, c3_sin01 cx]
    have hc := c3_cos_cz cz hcz
    intro hgt
    nlinarith
  have hscat : genTrees (realOpsAt at2) (randC3 cx) cx cz tm
      = ([], tm.nextId + 1) := by
    rw [genTrees, if_pos (by rw [hm]; rfl)]
    rw [scatterTrees, hs]
    refine foldl_const _ _ (fun acc i => ?_) _
    dsimp only
    split
    · rfl
    · rw [if_neg (hty i)]
  have hbao : genBaobabs (realOpsAt at2) (randC3 cx) cx cz tm
      = ([], tm.nextId + 1) := by
    rw [genBaobabs, if_neg (by rw [hm]; simp [c3Models]), hscat]
  have hmc3 : genMC (realOpsAt at2) (randC3 cx) cx cz tm
      = (mX3 cx, 1000 * (cz : ℝ)) := by
    rw [genMC, hr, hs, mountainCenter]
    have hpi2 : (1 : ℝ)/2 * Real.pi * 2 = Real.pi := by ring
    norm_num [findMountainPos, mountainTooClose, randC3, hd3v, hpi2,
      Real.cos_pi, Real.sin_pi, mX3]
    constructor
    · push_cast
      ring
    · push_cast
      ring
  have hmaxr3 : genMaxR (randC3 cx) = 40 := by
    have h3 : List.range 3 = [0, 1, 2] := by decide
    norm_num [genMaxR, mountainMaxRadius, randC3, h3, List.foldl, max_def]
  have hmtn3 : genMtn (realOpsAt at2) (randC3 cx) cx cz tm
      = mtn3 cx cz (tm.nextId + 1) := by
    rw [genMtn, hmc3, hbao, hmaxr3, mtn3]
    norm_num [getHeight, mY3]
  have hring3 : genRing (realOpsAt at2) (randC3 cx) cx cz tm
      = ((List.range 10).map fun j => ringTree3 cx cz (tm.nextId + 2 + j),
        tm.nextId + 12) := by
    rw [genRing, hmc3, hmtn3, hbao]
    rw [show (if (mtn3 cx cz (tm.nextId + 1)).baseRadius = 0
        then genMaxR (randC3 cx) * 1.4
        else (mtn3 cx cz (tm.nextId + 1)).baseRadius) = 56 from by norm_num [mtn3]]
    rw [ringTrees, if_pos (by rw [hm]; rfl)]
    rw [show (10 + ⌊(randC3 cx).ringCount * 6⌋).toNat = 10 from by
      norm_num [randC3]
      rfl]
    dsimp only
    rw [show (([] : List (Baobab ℝ)), tm.nextId + 1).2 + 1 = tm.nextId + 2 from rfl]
    have hXv : ∀ i : ℕ, mX3 cx +
        Real.cos ((randC3 cx).ringAngle i * Real.pi * 2) *
          (56 * (1 + (randC3 cx).ringDist i * 0.3))
        = 100 * (b3 cx : ℝ) * Real.pi := by
      intro i
      norm_num [randC3, mX3]
    have hZv : ∀ i : ℕ, 1000 * (cz : ℝ) +
        Real.sin ((randC3 cx).ringAngle i * Real.pi * 2) *
          (56 * (1 + (randC3 cx).ringDist i * 0.3))
        = 1000 * (cz : ℝ) := by
      intro i
      norm_num [randC3]
    have hY2 : getHeight (realOpsAt at2) (100 * ((b3 cx : ℤ) : ℝ) * Real.pi)
        (1000 * (cz : ℝ)) = 4 := by
      rw [getHeight]
      simp only [realOpsAt_sin, realOpsAt_cos]
      rw [c3_sin5b cx, c3_sin1b cx]
      ring
    rw [List.foldl_ext _ (fun (acc : List (Tree ℝ) × ℕ) (_ : ℕ) =>
        (acc.1 ++ [(⟨acc.2, 0, 100 * (b3 cx : ℝ) * Real.pi, 4, 1000 * (cz : ℝ),
          1/2, none⟩ : Tree ℝ)], acc.2 + 1)) ([], tm.nextId + 2)
      (fun acc i hi => ?_)]
    · rw [foldl_push (fun m => (⟨m, 0, 100 * (b3 cx : ℝ) * Real.pi, 4,
        1000 * (cz : ℝ), 1/2, none⟩ : Tree ℝ)) 10 (tm.nextId + 2)]
      refine Prod.ext ?_ ?_
      · dsimp only
        refine List.map_congr_left fun j hj => ?_
        rw [ringTree3]
      · dsimp only
    · dsimp only
      simp only [realOpsAt_sin, realOpsAt_cos, realOpsAt_pi]
      rw [hXv i, hZv i]
      rw [if_neg (by rw [hY2]; norm_num)]
      rw [hY2]
      rw [show (0.5 : ℝ) + (randC3 cx).ringScale i * 0.5 = 1/2 from by
        norm_num [randC3]]
  have hrwys3 : genRwys (realOpsAt at2) (randC3 cx) cx cz tm = [] := by
    rw [genRwys]
    rw [show genRunway (realOpsAt at2) (randC3 cx) cx cz tm = none from by
      rw [genRunway, if_neg (by rw [hm]; simp [c3Models])]]
  have hnid4 : genNid4 (realOpsAt at2) (randC3 cx) cx cz tm = tm.nextId + 12 := by
    rw [genNid4, if_neg (by rw [hm]; simp [c3Models]), hring3]
  have hblds3 : genBlds (realOpsAt at2) (randC3 cx) cx cz tm
      = ([], tm.nextId + 12) := by
    rw [genBlds, hm]
    rw [show c3Models.buildingModels = [] from rfl]
    rw [buildingsStep_nil, hnid4]
  have hgrw : genRunway (realOpsAt at2) (randC3 cx) cx cz tm = none := by
    rw [genRunway, if_neg (by rw [hm]; simp [c3Models])]
  have hfinal : genTreesFinal (realOpsAt at2) (randC3 cx) cx cz tm
      = (List.range 10).map fun j => ringTree3 cx cz (tm.nextId + 2 + j) := by
    rw [genTreesFinal, hgrw]
    dsimp only
    rw [hscat, hring3]
    simp
  constructor
  · show (⟨tm.nextId, cx, cz, genTreesFinal (realOpsAt at2) (randC3 cx) cx cz tm,
      (genBaobabs (realOpsAt at2) (randC3 cx) cx cz tm).1,
      genRwys (realOpsAt at2) (randC3 cx) cx cz tm,
      (genBlds (realOpsAt at2) (randC3 cx) cx cz tm).1,
      some (genMtn (realOpsAt at2) (randC3 cx) cx cz tm)⟩ : Chunk ℝ)
      = c3Chunk cx cz tm.nextId
    rw [hfinal, hbao, hrwys3, hblds3, hmtn3, c3Chunk]
  · show (genBlds (realOpsAt at2) (randC3 cx) cx cz tm).2 = tm.nextId + 12
    rw [hblds3]

/-- One creation step of the C3 load walk: the state keeps the C3 shape, the
counter advances by 12, and exactly the expected chunk is appended. -/
theorem c3_step (at2 : ℝ → ℝ → ℝ) (st : TM ℝ) (cx cz : ℤ)
    (hcx : cx = -1 ∨ cx = 0 ∨ cx = 1) (hcz : cz = -1 ∨ cz = 0 ∨ cz = 1)
    (hM : st.models = c3Models) (hS : st.chunkSize = 1000)
    (hR : st.globalRunways = []) :
    ({ (mkChunk (realOpsAt at2) (randC3 cx) cx cz st).2 with
        chunks := (mkChunk (realOpsAt at2) (randC3 cx) cx cz st).2.chunks
          ++ [((cx, cz), (mkChunk (realOpsAt at2) (randC3 cx) cx cz st).1)] }
      : TM ℝ).models = c3Models ∧
    ({ (mkChunk (realOpsAt at2) (randC3 cx) cx cz st).2 with
        chunks := (mkChunk (realOpsAt at2) (randC3 cx) cx cz st).2.chunks
          ++ [((cx, cz), (mkChunk (realOpsAt at2) (randC3 cx) cx cz st).1)] }
      : TM ℝ).chunkSize = 1000 ∧
    ({ (mkChunk (realOpsAt at2) (randC3 cx) cx cz st).2 with
        chunks := (mkChunk (realOpsAt at2) (randC3 cx) cx cz st).2.chunks
          ++ [((cx, cz), (mkChunk (realOpsAt at2) (randC3 cx) cx cz st).1)] }
      : TM ℝ).globalRunways = [] ∧
    ({ (mkChunk (realOpsAt at2) (randC3 cx) cx cz st).2 with
        chunks := (mkChunk (realOpsAt at2) (randC3 cx) cx cz st).2.chunks
          ++ [((cx, cz), (mkChunk (realOpsAt at2) (randC3 cx) cx cz st).1)] }
      : TM ℝ).nextId = st.nextId + 12 ∧
    ({ (mkChunk (realOpsAt at2) (randC3 cx) cx cz st).2 with
        chunks := (mkChunk (realOpsAt at2) (randC3 cx) cx cz st).2.chunks
          ++ [((cx, cz), (mkChunk (realOpsAt at2) (randC3 cx) cx cz st).1)] }
      : TM ℝ).chunks = st.chunks ++ [((cx, cz), c3Chunk cx cz st.nextId)] := by
  obtain ⟨hfst, hnid⟩ := mkChunk_c3 at2 cx cz st hcx hcz hM hS hR
  refine ⟨?_, ?_, ?_, ?_, ?_⟩
  · show (mkChunk (realOpsAt at2) (randC3 cx) cx cz st).2.models = c3Models
    rw [mkChunk_snd_models, hM]
  · show (mkChunk (realOpsAt at2) (randC3 cx) cx cz st).2.chunkSize = 1000
    rw [mkChunk_snd_chunkSize, hS]
  · show (mkChunk (realOpsAt at2) (randC3 cx) cx cz st).2.globalRunways = []
    rw [mkChunk_snd_globalRunways, hfst, hR]
    rfl
  · exact hnid
  · show (mkChunk (realOpsAt at2) (randC3 cx) cx cz st).2.chunks
      ++ [((cx, cz), (mkChunk (realOpsAt at2) (randC3 cx) cx cz st).1)]
      = st.chunks ++ [((cx, cz), c3Chunk cx cz st.nextId)]
    rw [mkChunk_snd_chunks, hfst]

/-- One full step of the C3 load walk, existentially packaging the next
state. -/
theorem c3_walk_step (at2 : ℝ → ℝ → ℝ) (ks : List (ℤ × ℤ)) (tm : TM ℝ)
    (cx cz : ℤ) (hcx : cx = -1 ∨ cx = 0 ∨ cx = 1)
    (hcz : cz = -1 ∨ cz = 0 ∨ cz = 1)
    (hM : tm.models = c3Models) (hS : tm.chunkSize = 1000)
    (hR : tm.globalRunways = [])
    (hE : envC3 tm.nextId = randC3 cx)
    (hlook : lookupChunk tm.chunks (cx, cz) = none) :
    ∃ tm' : TM ℝ,
      loadChunksGo (realOpsAt at2) envC3 ((cx, cz) :: ks) tm
        = loadChunksGo (realOpsAt at2) envC3 ks tm' ∧
      tm'.models = c3Models ∧ tm'.chunkSize = 1000 ∧
      tm'.globalRunways = [] ∧ tm'.nextId = tm.nextId + 12 ∧
      tm'.chunks = tm.chunks ++ [((cx, cz), c3Chunk cx cz tm.nextId)] := by
  obtain ⟨h1, h2, h3, h4, h5⟩ := c3_step at2 tm cx cz hcx hcz hM hS hR
  refine ⟨_, ?_, h1, h2, h3, h4, h5⟩
  rw [loadChunksGo, hlook, hE]

/-- The C3 load walk from a fresh manager centered at (0,0): the fifth
created chunk is (0,0) with identities 48..59. -/
theorem c3_walk (at2 : ℝ → ℝ → ℝ) :
    (((0 : ℤ), (0 : ℤ)), c3Chunk 0 0 48) ∈
      (loadChunksGo (realOpsAt at2) envC3 (windowKeys ((0 : ℤ), (0 : ℤ)))
        ({ initTM c3Models with currentChunk := some ((0 : ℤ), (0 : ℤ)) }
          : TM ℝ)).chunks := by
  have hwk : windowKeys ((0 : ℤ), (0 : ℤ)) = [(-1, -1), (-1, 0), (-1, 1),
      (0, -1), (0, 0), (0, 1), (1, -1), (1, 0), (1, 1)] := by
    decide
  obtain ⟨s1, he1, hM1, hS1, hR1, hN1, hCh1⟩ := c3_walk_step at2
    [(-1, 0), (-1, 1), (0, -1), (0, 0), (0, 1), (1, -1), (1, 0), (1, 1)]
    ({ initTM c3Models with currentChunk := some ((0 : ℤ), (0 : ℤ)) } : TM ℝ)
    (-1) (-1) (by tauto) (by tauto) rfl rfl rfl
    (by norm_num [initTM, envC3, cxOfId]) rfl
  have hN1' : s1.nextId = 12 := by
    rw [hN1]
    rfl
  have hC1 : s1.chunks = [((-1, -1), c3Chunk (-1) (-1) 0)] := by
    rw [hCh1]
    rfl
  obtain ⟨s2, he2, hM2, hS2, hR2, hN2, hCh2⟩ := c3_walk_step at2
    [(-1, 1), (0, -1), (0, 0), (0, 1), (1, -1), (1, 0), (1, 1)]
    s1 (-1) 0 (by tauto) (by tauto) hM1 hS1 hR1
    (by rw [hN1']; norm_num [envC3, cxOfId]) (by rw [hC1]; rfl)
  have hN2' : s2.nextId = 24 := by
    rw [hN2, hN1']
  have hC2 : s2.chunks = [((-1, -1), c3Chunk (-1) (-1) 0),
      ((-1, 0), c3Chunk (-1) 0 12)] := by
    rw [hCh2, hC1, hN1']
    rfl
  obtain ⟨s3, he3, hM3, hS3, hR3, hN3, hCh3⟩ := c3_walk_step at2
    [(0, -1), (0, 0), (0, 1), (1, -1), (1, 0), (1, 1)]
    s2 (-1) 1 (by tauto) (by tauto) hM2 hS2 hR2
    (by rw [hN2']; norm_num [envC3, cxOfId]) (by rw [hC2]; rfl)
  have hN3' : s3.nextId = 36 := by
    rw [hN3, hN2']
  have hC3 : s3.chunks = [((-1, -1), c3Chunk (-1) (-1) 0),
      ((-1, 0), c3Chunk (-1) 0 12), ((-1, 1), c3Chunk (-1) 1 24)] := by
    rw [hCh3, hC2, hN2']
    rfl
  obtain ⟨s4, he4, hM4, hS4, hR4, hN4, hCh4⟩ := c3_walk_step at2
    [(0, 0), (0, 1), (1, -1), (1, 0), (1, 1)]
    s3 0 (-1) (by tauto) (by tauto) hM3 hS3 hR3
    (by rw [hN3']; norm_num [envC3, cxOfId]) (by rw [hC3]; rfl)
  have hN4' : s4.nextId = 48 := by
    rw [hN4, hN3']
  have hC4 : s4.chunks = [((-1, -1), c3Chunk (-1) (-1) 0),
      ((-1, 0), c3Chunk (-1) 0 12), ((-1, 1), c3Chunk (-1) 1 24),
      ((0, -1), c3Chunk 0 (-1) 36)] := by
    rw [hCh4, hC3, hN3']
    rfl
  obtain ⟨s5, he5, hM5, hS5, hR5, hN5, hCh5⟩ := c3_walk_step at2
    [(0, 1), (1, -1), (1, 0), (1, 1)]
    s4 0 0 (by tauto) (by tauto) hM4 hS4 hR4
    (by rw [hN4']; norm_num [envC3, cxOfId]) (by rw [hC4]; rfl)
  have hC5 : ((0 : ℤ), (0 : ℤ)) = ((0 : ℤ), (0 : ℤ)) := rfl
  rw [hwk, he1, he2, he3, he4, he5]
  refine loadChunksGo_mem_entry (realOpsAt at2) envC3 _ _ _ ?_
  rw [hCh5, hN4']
  exact List.mem_append_right _ (by simp)

end Helpers

/-! ## Claim theorems -/

/-- C5: a boss tree created with health 10 (the baobab userData), hit three
times with `damageTree(tree, 3)`, reports not-destroyed on each of those
calls; a fourth hit with damage 1 brings `currentHP` to exactly 0 and
reports destroyed on that call and not before. -/
theorem c5_boss_tree_damage_sequence :
    (damageTree baobabUserData 3).1 = false ∧
    (damageTree (damageTree baobabUserData 3).2 3).1 = false ∧
    (damageTree (damageTree (damageTree baobabUserData 3).2 3).2 3).1 = false ∧
    (damageTree (damageTree (damageTree (damageTree baobabUserData 3).2 3).2 3).2 1).1
      = true ∧
    (damageTree (damageTree (damageTree (damageTree baobabUserData 3).2 3).2 3).2 1).2.currentHP
      = some 0 := by
  decide

/-- C1: after any update in any sequence of `update` calls, the set of
loaded chunk coordinates equals exactly the 3x3 window centered on
`(floor((p.x + 500)/1000), floor((p.z + 500)/1000))` for the most recent
position; in particular the first update at the origin loads exactly the
nine chunks with coordinates in {-1,0,1} x {-1,0,1}. -/
theorem c1_window_invariant {R : Type} [LinearOrderedField R] [FloorRing R]
    (models : Models R) (ops : RealOps R)
    (trace : List (Pos3 R × (ℕ → ChunkRand R))) (env env0 : ℕ → ChunkRand R)
    (p : Pos3 R) :
    (∀ k : ℤ × ℤ,
      k ∈ (update ops env p (runUpdates ops (initTM models) trace)).chunks.map
          Prod.fst ↔
        k ∈ windowKeys (chunkCoord 1000 p.x, chunkCoord 1000 p.z)) ∧
    (∀ k : ℤ × ℤ,
      k ∈ (update ops env0 ⟨0, 0, 0⟩ (initTM models)).chunks.map Prod.fst ↔
        k ∈ ([(-1, -1), (-1, 0), (-1, 1), (0, -1), (0, 0), (0, 1), (1, -1),
          (1, 0), (1, 1)] : List (ℤ × ℤ))) := by
  have main : ∀ (tr : List (Pos3 R × (ℕ → ChunkRand R))) (e : ℕ → ChunkRand R)
      (q : Pos3 R) (k : ℤ × ℤ),
      k ∈ (update ops e q (runUpdates ops (initTM models) tr)).chunks.map
          Prod.fst ↔
        k ∈ windowKeys (chunkCoord 1000 q.x, chunkCoord 1000 q.z) := by
    intro tr e q k
    have hinv := update_windowInv ops e q _
      (runUpdates_windowInv ops _ tr (initTM_windowInv models))
    have hsz : (runUpdates ops (initTM models) tr).chunkSize = 1000 := by
      rw [runUpdates_chunkSize]; rfl
    have hcur := update_currentChunk ops e q (runUpdates ops (initTM models) tr)
    rw [hsz] at hcur
    exact hinv _ hcur k
  refine ⟨main trace env p, fun k => ?_⟩
  have h2 := main [] env0 ⟨0, 0, 0⟩ k
  rw [runUpdates] at h2
  simp only [List.foldl_nil] at h2
  rw [h2]
  rw [show chunkCoord (1000 : R) 0 = 0 from chunkCoord_origin]
  have hw : windowKeys ((0 : ℤ), (0 : ℤ)) = [(-1, -1), (-1, 0), (-1, 1), (0, -1),
      (0, 0), (0, 1), (1, -1), (1, 0), (1, 1)] := by decide
  rw [hw]

/-- C8: an `update` whose position maps to the same chunk coordinate as the
previous `update` leaves the entire streamer state unchanged (the identical
state record, hence the identical chunk objects and aggregate lists, with
no chunk regenerated); in particular every loaded chunk entry survives
untouched. -/
theorem c8_no_reload_same_coord {R : Type} [LinearOrderedField R] [FloorRing R]
    (ops : RealOps R) (env1 env2 : ℕ → ChunkRand R) (p1 p2 : Pos3 R) (tm : TM R)
    (hc : coordOf tm.chunkSize p2 = coordOf tm.chunkSize p1) :
    update ops env2 p2 (update ops env1 p1 tm) = update ops env1 p1 tm ∧
    ∀ e : (ℤ × ℤ) × Chunk R, e ∈ (update ops env1 p1 tm).chunks →
      e ∈ (update ops env2 p2 (update ops env1 p1 tm)).chunks := by
  have hcond : (update ops env1 p1 tm).currentChunk =
      some (coordOf (update ops env1 p1 tm).chunkSize p2) := by
    rw [update_currentChunk, update_chunkSize, hc]
  have h1 : update ops env2 p2 (update ops env1 p1 tm) = update ops env1 p1 tm := by
    generalize hgen : update ops env1 p1 tm = tm1
    rw [hgen] at hcond
    rw [update, if_pos hcond]
  exact ⟨h1, fun e he => h1.symm ▸ he⟩

/-- Witness for C8: two consecutive updates at (0,0,0) and (1,0,0) over ℚ,
both of which map to chunk (0,0). -/
theorem c8_no_reload_same_coord_witness :
    update qOps (fun _ => constRand 0) ⟨1, 0, 0⟩
        (update qOps (fun _ => constRand 0) ⟨0, 0, 0⟩ (initTM c9wModels)) =
      update qOps (fun _ => constRand 0) ⟨0, 0, 0⟩ (initTM c9wModels) ∧
    ∀ e : (ℤ × ℤ) × Chunk ℚ,
      e ∈ (update qOps (fun _ => constRand 0) ⟨0, 0, 0⟩ (initTM c9wModels)).chunks →
      e ∈ (update qOps (fun _ => constRand 0) ⟨1, 0, 0⟩
        (update qOps (fun _ => constRand 0) ⟨0, 0, 0⟩ (initTM c9wModels))).chunks :=
  c8_no_reload_same_coord qOps (fun _ => constRand 0) (fun _ => constRand 0)
    ⟨0, 0, 0⟩ ⟨1, 0, 0⟩ (initTM c9wModels) (by
      rw [coordOf, coordOf]
      have h1 : chunkCoord (initTM c9wModels).chunkSize (Pos3.mk (1 : ℚ) 0 0).x = 0 := by
        rw [chunkCoord]
        have : ((1 : ℚ) + (initTM c9wModels).chunkSize / 2) / (initTM c9wModels).chunkSize
            = 501 / 1000 := by norm_num [initTM]
        rw [this, Int.floor_eq_iff] <;> norm_num
      have h2 : chunkCoord (initTM c9wModels).chunkSize (Pos3.mk (0 : ℚ) 0 0).x = 0 := by
        have : (initTM c9wModels).chunkSize = (1000 : ℚ) := rfl
        rw [this]
        exact chunkCoord_origin
      rw [h1, h2])

/-- C4: for a mountain and a runway both placed during the same chunk's
generation, either the XZ distance between the runway center and the
mountain center is at least the mountain's registered base radius plus the
runway safe radius (120) plus the separation buffer (80), or the runway
retry loop failed every attempt and the placement took the fallback path
(the `placed` flag of the placement outcome is `false`). -/
theorem c4_runway_mountain_separation {R : Type} [LinearOrderedField R]
    [FloorRing R] (ops : RealOps R) (rand : ChunkRand R) (cx cz : ℤ) (tm : TM R)
    (rw : Runway R) (mtn : Mountain R)
    (hrw : (mkChunk ops rand cx cz tm).1.runways = [rw])
    (hm : (mkChunk ops rand cx cz tm).1.mountain = some mtn)
    (hbr : mtn.baseRadius ≠ 0) :
    (runwayPlacement ops rand (tm.globalMountains ++ [mtn])
        ((cx : R) * tm.chunkSize) ((cz : R) * tm.chunkSize) tm.chunkSize).2.2 = false ∨
    hypot ops (rw.x - mtn.x) (rw.z - mtn.z) ≥
      mtn.baseRadius + RUNWAY_SAFE_RADIUS + RUNWAY_MOUNTAIN_BUFFER := by
  have hrw2 : genRwys ops rand cx cz tm = [rw] := hrw
  have hm2 : genMtn ops rand cx cz tm = mtn := Option.some.inj hm
  rw [genRwys] at hrw2
  cases hg : genRunway ops rand cx cz tm with
  | none =>
    rw [hg] at hrw2
    exact absurd hrw2 (by simp)
  | some rw0 =>
    rw [hg] at hrw2
    have hr0 : rw0 = rw := by simpa using hrw2
    subst hr0
    rw [genRunway] at hg
    by_cases hT : tm.models.runwayTexture = true
    · rw [if_pos hT] at hg
      have hx := Option.some.inj hg
      subst hm2
      rw [← hx]
      exact runwaySep_core ops rand _ _ _ _ _
        (List.mem_append_right _ (by simp)) hbr
    · rw [if_neg hT] at hg
      exact Option.noConfusion hg

/-- Witness for C4: a concrete single-chunk generation over ℚ with
degenerate transcendental operations, in which the runway retry succeeds on
its first attempt. -/
theorem c4_runway_mountain_separation_witness :
    (runwayPlacement qOps (constRand 0) ((initTM c4wModels).globalMountains ++ [c4wMtn])
        ((0 : ℤ) * (initTM c4wModels).chunkSize) ((0 : ℤ) * (initTM c4wModels).chunkSize)
        (initTM c4wModels).chunkSize).2.2 = false ∨
    hypot qOps (c4wRw.x - c4wMtn.x) (c4wRw.z - c4wMtn.z) ≥
      c4wMtn.baseRadius + RUNWAY_SAFE_RADIUS + RUNWAY_MOUNTAIN_BUFFER :=
  c4_runway_mountain_separation qOps (constRand 0) 0 0 (initTM c4wModels) c4wRw c4wMtn
    c4w_runways_eval c4w_mountain_eval (by norm_num [c4wMtn])

/-- C9: unregistering is idempotent.  For each of the five unregister
operations: when the entity is absent from the corresponding registry
collection the call leaves all five registry collections unchanged, and for
every manager state, applying the operation twice yields the same registry
state as applying it once. -/
theorem c9_unregister_idempotent {R : Type} [LinearOrderedField R] [FloorRing R]
    (tm : TM R) (t : Tree R) (bt : Baobab R) (b : Building R) (r : Runway R)
    (mn : Mountain R)
    (ht : ∀ x ∈ tm.activeTrees, x.id ≠ t.id)
    (hbt : ∀ x ∈ tm.activeBaobabTrees, x.id ≠ bt.id)
    (hb : ∀ x ∈ tm.activeBuildings, x.id ≠ b.id)
    (hr : ∀ x ∈ tm.globalRunways, x.id ≠ r.id)
    (hmn : ∀ x ∈ tm.globalMountains, x.id ≠ mn.id) :
    (registryState (unregisterTree tm t) = registryState tm ∧
     registryState (unregisterBaobabTree tm bt) = registryState tm ∧
     registryState (unregisterBuilding tm b) = registryState tm ∧
     registryState (unregisterRunway tm r) = registryState tm ∧
     registryState (unregisterMountain tm mn) = registryState tm) ∧
    (∀ tm2 : TM R,
     registryState (unregisterTree (unregisterTree tm2 t) t)
        = registryState (unregisterTree tm2 t) ∧
     registryState (unregisterBaobabTree (unregisterBaobabTree tm2 bt) bt)
        = registryState (unregisterBaobabTree tm2 bt) ∧
     registryState (unregisterBuilding (unregisterBuilding tm2 b) b)
        = registryState (unregisterBuilding tm2 b) ∧
     registryState (unregisterRunway (unregisterRunway tm2 r) r)
        = registryState (unregisterRunway tm2 r) ∧
     registryState (unregisterMountain (unregisterMountain tm2 mn) mn)
        = registryState (unregisterMountain tm2 mn)) := by
  have hfe : ∀ {α : Type} (idOf : α → ℕ) (i : ℕ) (l : List α),
      (∀ x ∈ l, idOf x ≠ i) → l.filter (fun x => decide (idOf x ≠ i)) = l := by
    intro α idOf i l h
    exact List.filter_eq_self.mpr fun x hx => by simpa using h x hx
  have hff : ∀ {α : Type} (idOf : α → ℕ) (i : ℕ) (l : List α),
      (l.filter (fun x => decide (idOf x ≠ i))).filter (fun x => decide (idOf x ≠ i))
        = l.filter (fun x => decide (idOf x ≠ i)) := by
    intro α idOf i l
    simp [List.filter_filter]
  constructor
  · refine ⟨?_, ?_, ?_, ?_, ?_⟩
    · cases h : t.chunkRef <;>
        simp [registryState, unregisterTree, h] <;> exact ht
    · cases h : bt.chunkRef <;>
        simp [registryState, unregisterBaobabTree, h] <;> exact hbt
    · cases h : b.chunkRef <;>
        simp [registryState, unregisterBuilding, h] <;> exact hb
    · simp [registryState, unregisterRunway] <;> exact hr
    · simp [registryState, unregisterMountain] <;> exact hmn
  · intro tm2
    refine ⟨?_, ?_, ?_, ?_, ?_⟩
    · cases h : t.chunkRef <;>
        simp [registryState, unregisterTree, h, hff Tree.id t.id]
    · cases h : bt.chunkRef <;>
        simp [registryState, unregisterBaobabTree, h, hff Baobab.id bt.id]
    · cases h : b.chunkRef <;>
        simp [registryState, unregisterBuilding, h, hff Building.id b.id]
    · simp [registryState, unregisterRunway, hff Runway.id r.id]
    · simp [registryState, unregisterMountain, hff Mountain.id mn.id]

/-- Witness for C9 at a concrete manager state (the freshly constructed
manager) and concrete entities. -/
theorem c9_unregister_idempotent_witness :
    (registryState (unregisterTree (initTM c9wModels) ⟨0, 0, 0, 0, 0, 0, none⟩)
        = registryState (initTM c9wModels) ∧
     registryState (unregisterBaobabTree (initTM c9wModels) ⟨1, 0, 0, 0, none⟩)
        = registryState (initTM c9wModels) ∧
     registryState (unregisterBuilding (initTM c9wModels) ⟨2, 0, 0, 0, 0, 0, none⟩)
        = registryState (initTM c9wModels) ∧
     registryState (unregisterRunway (initTM c9wModels) ⟨3, 0, 0, 0, 0, 120⟩)
        = registryState (initTM c9wModels) ∧
     registryState (unregisterMountain (initTM c9wModels) ⟨4, 0, 0, 0, 56, 160⟩)
        = registryState (initTM c9wModels)) ∧
    (∀ tm2 : TM ℚ,
     registryState (unregisterTree (unregisterTree tm2 ⟨0, 0, 0, 0, 0, 0, none⟩)
          ⟨0, 0, 0, 0, 0, 0, none⟩)
        = registryState (unregisterTree tm2 ⟨0, 0, 0, 0, 0, 0, none⟩) ∧
     registryState (unregisterBaobabTree (unregisterBaobabTree tm2 ⟨1, 0, 0, 0, none⟩)
          ⟨1, 0, 0, 0, none⟩)
        = registryState (unregisterBaobabTree tm2 ⟨1, 0, 0, 0, none⟩) ∧
     registryState (unregisterBuilding (unregisterBuilding tm2 ⟨2, 0, 0, 0, 0, 0, none⟩)
          ⟨2, 0, 0, 0, 0, 0, none⟩)
        = registryState (unregisterBuilding tm2 ⟨2, 0, 0, 0, 0, 0, none⟩) ∧
     registryState (unregisterRunway (unregisterRunway tm2 ⟨3, 0, 0, 0, 0, 120⟩)
          ⟨3, 0, 0, 0, 0, 120⟩)
        = registryState (unregisterRunway tm2 ⟨3, 0, 0, 0, 0, 120⟩) ∧
     registryState (unregisterMountain (unregisterMountain tm2 ⟨4, 0, 0, 0, 56, 160⟩)
          ⟨4, 0, 0, 0, 56, 160⟩)
        = registryState (unregisterMountain tm2 ⟨4, 0, 0, 0, 56, 160⟩)) :=
  c9_unregister_idempotent (initTM c9wModels) ⟨0, 0, 0, 0, 0, 0, none⟩
    ⟨1, 0, 0, 0, none⟩ ⟨2, 0, 0, 0, 0, 0, none⟩ ⟨3, 0, 0, 0, 0, 120⟩
    ⟨4, 0, 0, 0, 56, 160⟩ (by simp [initTM]) (by simp [initTM]) (by simp [initTM])
    (by simp [initTM]) (by simp [initTM])

/-- C6: `getHeight` is a pure function of its inputs equal to the closed
formula `sin(x*0.05)*cos(z*0.05)*5 + sin(x*0.01)*5 + 4`, and
`getHeight(0, 0) = 4` exactly. -/
theorem c6_getHeight_formula_and_origin (at2 : ℝ → ℝ → ℝ) (x z : ℝ) :
    getHeight ⟨Real.sin, Real.cos, Real.sqrt, at2, Real.pi⟩ x z =
      Real.sin (x * 0.05) * Real.cos (z * 0.05) * 5 + Real.sin (x * 0.01) * 5 + 4 ∧
    getHeight ⟨Real.sin, Real.cos, Real.sqrt, at2, Real.pi⟩ 0 0 = 4 := by
  refine ⟨rfl, ?_⟩
  norm_num [getHeight, Real.sin_zero]

/-- C2: for every entity (tree, boss tree, runway, mountain, building) owned
by a loaded chunk whose key leaves the keep-set during an `update(pos)` call
on a manager reachable by any sequence of public operations, after that
update returns the entity appears in none of the registry collections:
not in `getTrees()`, `getRunways()`, `getMountains()`, `getBuildings()`,
and not in `globalRunways` or `globalMountains`. -/
theorem c2_disposal_completeness {R : Type} [LinearOrderedField R] [FloorRing R]
    (ops : RealOps R) (mo : Models R) (trace : List (Op R)) (p : Pos3 R)
    (env : ℕ → ChunkRand R) (k : ℤ × ℤ) (c : Chunk R)
    (hmem : (k, c) ∈ (runOps ops (initTM mo) trace).chunks)
    (hout : k ∉ windowKeys (coordOf (runOps ops (initTM mo) trace).chunkSize p)) :
    (∀ t ∈ c.trees,
      t ∉ (getTrees (update ops env p (runOps ops (initTM mo) trace))).1) ∧
    (∀ b ∈ c.baobabTrees,
      b ∉ (getTrees (update ops env p (runOps ops (initTM mo) trace))).2) ∧
    (∀ r ∈ c.runways,
      r ∉ getRunways (update ops env p (runOps ops (initTM mo) trace)) ∧
      r ∉ (update ops env p (runOps ops (initTM mo) trace)).globalRunways) ∧
    (∀ m ∈ c.mountain.toList,
      m ∉ getMountains (update ops env p (runOps ops (initTM mo) trace)) ∧
      m ∉ (update ops env p (runOps ops (initTM mo) trace)).globalMountains) ∧
    (∀ b ∈ c.buildings,
      b ∉ getBuildings (update ops env p (runOps ops (initTM mo) trace))) := by
  set tm := runOps ops (initTM mo) trace with htm
  have hCore : CoreInv tm := runOps_coreInv ops (initTM mo) trace (coreInv_initTM mo)
  have hWin : windowInv tm := runOps_windowInv ops (initTM mo) trace (initTM_windowInv mo)
  by_cases hs : tm.currentChunk = some (coordOf tm.chunkSize p)
  · exact absurd ((hWin _ hs k).mp (List.mem_map_of_mem Prod.fst hmem)) hout
  · have hupd : update ops env p tm
        = updateChunks ops env (coordOf tm.chunkSize p)
            { tm with currentChunk := some (coordOf tm.chunkSize p) } := by
      rw [update, if_neg hs]
    rw [hupd, updateChunks, loadChunks]
    set tm1 : TM R := { tm with currentChunk := some (coordOf tm.chunkSize p) } with htm1
    set keep := windowKeys (coordOf tm.chunkSize p) with hkeep
    set tm2 := loadChunksGo ops env keep tm1 with htm2
    have hC2 : CoreInv tm2 := loadChunksGo_coreInv ops env keep tm1
      ⟨hCore.keyNd, hCore.idSep, hCore.idLt, hCore.mtn⟩
    have hmem2 : (k, c) ∈ tm2.chunks := loadChunksGo_mem_entry ops env keep tm1 (k, c) hmem
    have hkc : k ∉ keep := hout
    have hsurv : ∀ kc : (ℤ × ℤ) × Chunk R,
        kc ∈ tm2.chunks.filter (fun kc => decide (kc.1 ∈ keep)) →
        ∀ i ∈ chunkIds c, i ∉ chunkIds kc.2 := by
      intro kc hkcm i hi
      have h1 := List.mem_filter.mp hkcm
      have hin : kc.1 ∈ keep := of_decide_eq_true h1.2
      have hne : (k, c).1 ≠ kc.1 := by
        intro he
        refine hkc ?_
        rw [show k = kc.1 from he]
        exact hin
      exact hC2.idSep (k, c) hmem2 kc h1.1 hne i hi
    have hDmem : (k, c) ∈ tm2.chunks.filter (fun kc => decide (kc.1 ∉ keep)) :=
      List.mem_filter.mpr ⟨hmem2, decide_eq_true hkc⟩
    refine ⟨?_, ?_, ?_, ?_, ?_⟩
    · intro t ht hmem3
      rw [getTrees] at hmem3
      rw [rebuildActive_activeTrees, unloadChunks_chunks] at hmem3
      obtain ⟨kc, hkcm, ht2⟩ := List.mem_flatMap.mp hmem3
      exact hsurv kc hkcm t.id (chunkIds_of_tree c t ht) (chunkIds_of_tree kc.2 t ht2)
    · intro b hb hmem3
      rw [getTrees] at hmem3
      rw [rebuildActive_activeBaobabTrees, unloadChunks_chunks] at hmem3
      obtain ⟨kc, hkcm, hb2⟩ := List.mem_flatMap.mp hmem3
      exact hsurv kc hkcm b.id (chunkIds_of_baobab c b hb) (chunkIds_of_baobab kc.2 b hb2)
    · intro r hr
      constructor
      · intro hmem3
        rw [getRunways, rebuildActive_chunks, unloadChunks_chunks] at hmem3
        obtain ⟨kc, hkcm, hr2⟩ := List.mem_flatMap.mp hmem3
        exact hsurv kc hkcm r.id (chunkIds_of_runway c r hr) (chunkIds_of_runway kc.2 r hr2)
      · intro hmem3
        rw [rebuildActive_globalRunways, unloadChunks_globalRunways] at hmem3
        have hall := (List.mem_filter.mp hmem3).2
        rw [List.all_eq_true] at hall
        have := hall r (List.mem_flatMap.mpr ⟨(k, c), hDmem, hr⟩)
        exact absurd rfl (of_decide_eq_true this)
    · intro m hm
      constructor
      · intro hmem3
        rw [getMountains, rebuildActive_chunks, unloadChunks_chunks] at hmem3
        obtain ⟨kc, hkcm, hm2⟩ := List.mem_filterMap.mp hmem3
        have hm2' : m ∈ kc.2.mountain.toList := by rw [hm2]; simp
        exact hsurv kc hkcm m.id (chunkIds_of_mountain c m hm)
          (chunkIds_of_mountain kc.2 m hm2')
      · intro hmem3
        rw [rebuildActive_globalMountains, unloadChunks_globalMountains] at hmem3
        have hall := (List.mem_filter.mp hmem3).2
        rw [List.all_eq_true] at hall
        have := hall m (List.mem_flatMap.mpr ⟨(k, c), hDmem, hm⟩)
        exact absurd rfl (of_decide_eq_true this)
    · intro b hb hmem3
      rw [getBuildings] at hmem3
      rw [rebuildActive_activeBuildings, unloadChunks_chunks] at hmem3
      obtain ⟨kc, hkcm, hb2⟩ := List.mem_flatMap.mp hmem3
      exact hsurv kc hkcm b.id (chunkIds_of_building c b hb)
        (chunkIds_of_building kc.2 b hb2)

theorem c2_disposal_completeness_witness :
    ((((-1 : ℤ), (-1 : ℤ)), c2wChunk) ∈
        (runOps qOps (initTM c9wModels) [Op.upd ⟨0, 0, 0⟩ c2wEnv]).chunks) ∧
    (((-1 : ℤ), (-1 : ℤ)) ∉ windowKeys (coordOf
        (runOps qOps (initTM c9wModels) [Op.upd ⟨0, 0, 0⟩ c2wEnv]).chunkSize
        ⟨1500, 0, 0⟩)) ∧
    ((∀ t ∈ c2wChunk.trees,
      t ∉ (getTrees (update qOps c2wEnv ⟨1500, 0, 0⟩
        (runOps qOps (initTM c9wModels) [Op.upd ⟨0, 0, 0⟩ c2wEnv]))).1) ∧
    (∀ b ∈ c2wChunk.baobabTrees,
      b ∉ (getTrees (update qOps c2wEnv ⟨1500, 0, 0⟩
        (runOps qOps (initTM c9wModels) [Op.upd ⟨0, 0, 0⟩ c2wEnv]))).2) ∧
    (∀ r ∈ c2wChunk.runways,
      r ∉ getRunways (update qOps c2wEnv ⟨1500, 0, 0⟩
        (runOps qOps (initTM c9wModels) [Op.upd ⟨0, 0, 0⟩ c2wEnv])) ∧
      r ∉ (update qOps c2wEnv ⟨1500, 0, 0⟩
        (runOps qOps (initTM c9wModels) [Op.upd ⟨0, 0, 0⟩ c2wEnv])).globalRunways) ∧
    (∀ m ∈ c2wChunk.mountain.toList,
      m ∉ getMountains (update qOps c2wEnv ⟨1500, 0, 0⟩
        (runOps qOps (initTM c9wModels) [Op.upd ⟨0, 0, 0⟩ c2wEnv])) ∧
      m ∉ (update qOps c2wEnv ⟨1500, 0, 0⟩
        (runOps qOps (initTM c9wModels) [Op.upd ⟨0, 0, 0⟩ c2wEnv])).globalMountains) ∧
    (∀ b ∈ c2wChunk.buildings,
      b ∉ getBuildings (update qOps c2wEnv ⟨1500, 0, 0⟩
        (runOps qOps (initTM c9wModels) [Op.upd ⟨0, 0, 0⟩ c2wEnv])))) := by
  have hco : coordOf ((initTM c9wModels : TM ℚ)).chunkSize ⟨0, 0, 0⟩
      = ((0 : ℤ), (0 : ℤ)) := by
    show (chunkCoord (1000 : ℚ) 0, chunkCoord (1000 : ℚ) 0) = (0, 0)
    rw [chunkCoord_origin]
  have hA : runOps qOps (initTM c9wModels) [Op.upd ⟨0, 0, 0⟩ c2wEnv]
      = rebuildActive (unloadChunks (windowKeys ((0 : ℤ), (0 : ℤ)))
          (loadChunksGo qOps c2wEnv (windowKeys ((0 : ℤ), (0 : ℤ)))
            { initTM c9wModels with currentChunk := some ((0 : ℤ), (0 : ℤ)) })) := by
    show update qOps c2wEnv ⟨0, 0, 0⟩ (initTM c9wModels) = _
    rw [update, hco]
    rw [if_neg (by rw [initTM]; exact fun h => Option.noConfusion h)]
    rw [updateChunks, loadChunks]
  have hwk : windowKeys ((0 : ℤ), (0 : ℤ)) = ((-1, -1) : ℤ × ℤ) ::
      [(-1, 0), (-1, 1), (0, -1), (0, 0), (0, 1), (1, -1), (1, 0), (1, 1)] := by
    decide
  have hlook : lookupChunk ({ initTM c9wModels with
      currentChunk := some ((0 : ℤ), (0 : ℤ)) } : TM ℚ).chunks ((-1 : ℤ), (-1 : ℤ))
      = none := rfl
  have h1 : (((-1 : ℤ), (-1 : ℤ)), c2wChunk) ∈
      (loadChunksGo qOps c2wEnv (windowKeys ((0 : ℤ), (0 : ℤ)))
        { initTM c9wModels with currentChunk := some ((0 : ℤ), (0 : ℤ)) }).chunks := by
    rw [hwk, loadChunksGo, hlook]
    refine loadChunksGo_mem_entry qOps c2wEnv _ _ _ ?_
    simp only [mkChunk_snd_chunks]
    have he : (mkChunk qOps (c2wEnv ({ initTM c9wModels with
        currentChunk := some ((0 : ℤ), (0 : ℤ)) } : TM ℚ).nextId) (-1) (-1)
        { initTM c9wModels with currentChunk := some ((0 : ℤ), (0 : ℤ)) }).1
        = c2wChunk := c2w_chunk_eval
    rw [he]
    simp [initTM]
  have h1' : (((-1 : ℤ), (-1 : ℤ)), c2wChunk) ∈
      (runOps qOps (initTM c9wModels) [Op.upd ⟨0, 0, 0⟩ c2wEnv]).chunks := by
    rw [hA, rebuildActive_chunks, unloadChunks_chunks]
    refine List.mem_filter.mpr ⟨h1, ?_⟩
    decide
  have hcs : (runOps qOps (initTM c9wModels) [Op.upd ⟨0, 0, 0⟩ c2wEnv]).chunkSize
      = 1000 := by
    show (update qOps c2wEnv ⟨0, 0, 0⟩ (initTM c9wModels)).chunkSize = 1000
    rw [update_chunkSize]
    rfl
  have h2 : ((-1 : ℤ), (-1 : ℤ)) ∉ windowKeys (coordOf
      (runOps qOps (initTM c9wModels) [Op.upd ⟨0, 0, 0⟩ c2wEnv]).chunkSize
      ⟨1500, 0, 0⟩) := by
    rw [hcs]
    have e1 : chunkCoord (1000 : ℚ) 1500 = 2 := by
      rw [chunkCoord]
      norm_num
    have hco2 : coordOf (1000 : ℚ) ⟨1500, 0, 0⟩ = ((2 : ℤ), (0 : ℤ)) := by
      show (chunkCoord (1000 : ℚ) 1500, chunkCoord (1000 : ℚ) 0) = (2, 0)
      rw [chunkCoord_origin, e1]
    rw [hco2]
    decide
  exact ⟨h1', h2, c2_disposal_completeness qOps c9wModels [Op.upd ⟨0, 0, 0⟩ c2wEnv]
    ⟨1500, 0, 0⟩ c2wEnv ((-1 : ℤ), (-1 : ℤ)) c2wChunk h1' h2⟩

/-- C10: chunk generation unconditionally builds a mountain and registers it
(appending exactly it to `globalMountains`), whatever the optional model
handles; hence after any `update` on a manager driven by any sequence of
`update` calls, the loaded-chunk count is 9, `getMountains()` returns
exactly one mountain per loaded chunk, and `globalMountains` is exactly the
mountains of the loaded chunks. -/
theorem c10_mountain_per_chunk {R : Type} [LinearOrderedField R] [FloorRing R]
    (ops : RealOps R) (mo : Models R) (l : List (Pos3 R × (ℕ → ChunkRand R)))
    (p : Pos3 R) (env : ℕ → ChunkRand R) (rand : ChunkRand R) (cx cz : ℤ)
    (tmx : TM R) :
    ((mkChunk ops rand cx cz tmx).1.mountain.isSome = true ∧
     (mkChunk ops rand cx cz tmx).2.globalMountains
       = tmx.globalMountains ++ (mkChunk ops rand cx cz tmx).1.mountain.toList) ∧
    (update ops env p (runUpdates ops (initTM mo) l)).chunks.length = 9 ∧
    (getMountains (update ops env p (runUpdates ops (initTM mo) l))).length = 9 ∧
    (update ops env p (runUpdates ops (initTM mo) l)).globalMountains
      = getMountains (update ops env p (runUpdates ops (initTM mo) l)) := by
  set tm := runUpdates ops (initTM mo) l with htm
  have hCore : CoreInv tm := runUpdates_coreInv ops (initTM mo) l (coreInv_initTM mo)
  have hM : MtnInv tm :=
    runUpdates_mtnInv ops (initTM mo) l (coreInv_initTM mo) (mtnInv_initTM mo)
  have hWin : windowInv tm := runUpdates_windowInv ops (initTM mo) l (initTM_windowInv mo)
  have hCoreF : CoreInv (update ops env p tm) := update_coreInv ops env p tm hCore
  have hMF : MtnInv (update ops env p tm) := update_mtnInv ops env p tm hCore hM
  have hWinF : windowInv (update ops env p tm) := update_windowInv ops env p tm hWin
  have hcc : (update ops env p tm).currentChunk = some (coordOf tm.chunkSize p) :=
    update_currentChunk ops env p tm
  have hkeys := hWinF _ hcc
  have hlen : (update ops env p tm).chunks.length = 9 := by
    have h9 := length_eq_of_nodup_mem_iff _ _ hCoreF.keyNd
      (windowKeys_nodup (coordOf tm.chunkSize p)) hkeys
    rw [List.length_map] at h9
    rw [h9, windowKeys_length]
  refine ⟨⟨mkChunk_fst_mountain_isSome ops rand cx cz tmx,
    mkChunk_snd_globalMountains ops rand cx cz tmx⟩, hlen, ?_, ?_⟩
  · rw [getMountains]
    rw [filterMap_length_isSome _ _ fun e he => hCoreF.mtn e he, hlen]
  · rw [getMountains]
    exact hMF

/-- C7 (amended): for every chunk generated with a non-empty set of building
templates, if zero buildings were placed by the settlement cluster attempts
AND the fallback position is above the water threshold (height > -2), then
exactly one building is force-placed as a fallback.  (The original claim
omitted the water guard; `c7_building_fallback_counterexample` shows a
generated chunk with templates and zero buildings.) -/
theorem c7_building_fallback_guarded {R : Type} [LinearOrderedField R]
    [FloorRing R] (ops : RealOps R) (rand : ChunkRand R)
    (prefabs : List (Prefab R)) (cx cz : ℤ) (size : R) (mtn : Mountain R)
    (rws : List (Runway R)) (cid nid0 : ℕ)
    (hp : prefabs ≠ [])
    (hcity : (cityPhase ops rand prefabs cx cz size mtn rws cid nid0).1 = [])
    (habove : getHeight ops ((cx : R) * size + (rand.fbX - 0.5) * 200)
      ((cz : R) * size + (rand.fbZ - 0.5) * 200) > -2) :
    (buildingsStep ops rand prefabs cx cz size mtn rws cid nid0).1.length = 1 := by
  rw [buildingsStep]
  dsimp only
  rw [hcity]
  rw [if_pos (show ([] : List (Building R)).length = 0 from rfl), if_pos habove,
    placeBuilding]
  rw [if_neg (fun h => hp (List.length_eq_zero.mp h))]
  dsimp only
  rw [hcity]
  simp

theorem c7_building_fallback_guarded_witness :
    (([⟨10, 10, 10, 0⟩] : List (Prefab ℚ)) ≠ []) ∧
    (cityPhase qOps (constRand 0) [⟨10, 10, 10, 0⟩] 0 0 1000 c7wMtn [] 0 1).1 = [] ∧
    getHeight qOps (((0 : ℤ) : ℚ) * 1000 + ((constRand (0 : ℚ)).fbX - 0.5) * 200)
      (((0 : ℤ) : ℚ) * 1000 + ((constRand (0 : ℚ)).fbZ - 0.5) * 200) > -2 ∧
    (buildingsStep qOps (constRand 0) [⟨10, 10, 10, 0⟩] 0 0 1000
      c7wMtn [] 0 1).1.length = 1 := by
  have h1 : (([⟨10, 10, 10, 0⟩] : List (Prefab ℚ)) ≠ []) := by simp
  have h2 : (cityPhase qOps (constRand 0) [⟨10, 10, 10, 0⟩] 0 0 1000
      c7wMtn [] 0 1).1 = [] := by
    have hr2 : List.range 2 = [0, 1] := by decide
    have hr4 : List.range 4 = [0, 1, 2, 3] := by decide
    norm_num [cityPhase, hr2, hr4, hypot, mountainRadiusOf, c7wMtn, getHeight,
      placeBuilding]
  have h3 : getHeight qOps (((0 : ℤ) : ℚ) * 1000 + ((constRand (0 : ℚ)).fbX - 0.5) * 200)
      (((0 : ℤ) : ℚ) * 1000 + ((constRand (0 : ℚ)).fbZ - 0.5) * 200) > -2 := by
    rw [getHeight_qOps]
    norm_num
  exact ⟨h1, h2, h3, c7_building_fallback_guarded qOps (constRand 0)
    [⟨10, 10, 10, 0⟩] 0 0 1000 c7wMtn [] 0 1 h1 h2 h3⟩

/-- C7, counterexample to the unamended claim: a generated chunk with a
non-empty template list whose settlement attempts place nothing and whose
fallback position lies below the water threshold ends up owning no building
at all.  All random draws lie in [0,1). -/
theorem c7_fallback_underwater_aux (at2 : ℝ → ℝ → ℝ) :
    mC7.buildingModels ≠ [] ∧
    (mkChunk (realOpsAt at2) randC7 (-2) 0 (initTM mC7)).1.buildings = [] := by
  have hpi : ((1 : ℝ)/2) * Real.pi * 2 = Real.pi := by ring
  have hmc : genMC (realOpsAt at2) randC7 (-2) 0 (initTM mC7) = (-2300, 0) := by
    rw [genMC]
    norm_num [mountainCenter, findMountainPos, mountainTooClose, initTM, randC7,
      hpi, Real.cos_pi, Real.sin_pi]
  have hmaxr : genMaxR randC7 = 40 := by
    have h3 : List.range 3 = [0, 1, 2] := by decide
    norm_num [genMaxR, mountainMaxRadius, randC7, h3, List.foldl, max_def]
  have hid : (genBaobabs (realOpsAt at2) randC7 (-2) 0 (initTM mC7)).2 = 1 := by
    simp [genBaobabs, genTrees, initTM, mC7]
  have hmtn : genMtn (realOpsAt at2) randC7 (-2) 0 (initTM mC7)
      = ⟨1, -2300, getHeight (realOpsAt at2) (-2300) 0, 0, 56, 160⟩ := by
    rw [genMtn, hmc, hid, hmaxr]
    norm_num
  have hcity : (cityPhase (realOpsAt at2) randC7 [⟨10, 10, 10, 0⟩] (-2) 0 1000
      (⟨1, -2300, getHeight (realOpsAt at2) (-2300) 0, 0, 56, 160⟩ : Mountain ℝ)
      [] 0 2).1 = [] := by
    rw [cityPhase]
    refine congrArg Prod.fst (foldl_const _ _ (fun st c => ?_) _)
    dsimp only
    refine foldl_const _ _ (fun st2 b => ?_) _
    dsimp only
    norm_num [hypot, mountainRadiusOf, randC7, hpi, Real.cos_pi, Real.sin_pi]
    intro h96 _
    exfalso
    have h9 : Real.sqrt (9 : ℝ) = 3 := by
      rw [show (9 : ℝ) = 3 ^ 2 by norm_num]
      exact Real.sqrt_sq (by norm_num)
    have h4 : Real.sqrt (4 : ℝ) = 2 := by
      rw [show (4 : ℝ) = 2 ^ 2 by norm_num]
      exact Real.sqrt_sq (by norm_num)
    rw [h9, h4] at h96
    norm_num at h96
  have hgh : getHeight (realOpsAt at2) (-650 * Real.pi) 0 = -6 := by
    rw [getHeight]
    have h1 : (-650 : ℝ) * Real.pi * 0.05
        = -(Real.pi/2) + (-16 : ℤ) * (2 * Real.pi) := by
      push_cast
      ring
    have h2 : (-650 : ℝ) * Real.pi * 0.01
        = -(Real.pi/2) + (-3 : ℤ) * (2 * Real.pi) := by
      push_cast
      ring
    simp only [realOpsAt_sin, realOpsAt_cos, h1, h2, Real.sin_add_int_mul_two_pi]
    norm_num [Real.sin_neg, Real.sin_pi_div_two, Real.cos_zero]
  have hrwys : genRwys (realOpsAt at2) randC7 (-2) 0 (initTM mC7) = [] := by
    simp [genRwys, genRunway, initTM, mC7]
  have hnid4 : genNid4 (realOpsAt at2) randC7 (-2) 0 (initTM mC7) = 2 := by
    rw [genNid4]
    rw [if_neg (by simp [initTM, mC7])]
    rw [genRing]
    rw [ringTrees]
    rw [if_neg (by simp [initTM, mC7])]
    rw [hid]
  have hgb : genBlds (realOpsAt at2) randC7 (-2) 0 (initTM mC7)
      = buildingsStep (realOpsAt at2) randC7 [⟨10, 10, 10, 0⟩] (-2) 0 1000
        (⟨1, -2300, getHeight (realOpsAt at2) (-2300) 0, 0, 56, 160⟩ : Mountain ℝ)
        [] 0 2 := by
    rw [genBlds, hmtn, hrwys, hnid4]
    rfl
  have hbz : ((0 : ℤ) : ℝ) * 1000 + (randC7.fbZ - 0.5) * 200 = 0 := by
    rw [show randC7.fbZ = (1 : ℝ)/2 from rfl]
    push_cast
    ring
  have hbx : ((-2 : ℤ) : ℝ) * 1000 + (randC7.fbX - 0.5) * 200 = -650 * Real.pi := by
    rw [show randC7.fbX = (2100 - 650 * Real.pi) / 200 from rfl]
    push_cast
    ring
  have hbs : (buildingsStep (realOpsAt at2) randC7 [⟨10, 10, 10, 0⟩] (-2) 0 1000
      (⟨1, -2300, getHeight (realOpsAt at2) (-2300) 0, 0, 56, 160⟩ : Mountain ℝ)
      [] 0 2).1 = [] := by
    rw [buildingsStep]
    dsimp only
    rw [hcity]
    rw [if_pos (show ([] : List (Building ℝ)).length = 0 from rfl)]
    rw [hbx, hbz, hgh]
    rw [if_neg (by norm_num)]
    rw [hcity]
  refine ⟨by simp [mC7], ?_⟩
  show (genBlds (realOpsAt at2) randC7 (-2) 0 (initTM mC7)).1 = []
  rw [hgb, hbs]

/-- C7, the counterexample instance at a concrete input: with genuine real
sine, cosine and square root (and an `atan2` never reached on this path),
the generated chunk at column -2 has building templates but owns no
building. -/
theorem c7_building_fallback_counterexample :
    mC7.buildingModels ≠ [] ∧
    (mkChunk (realOpsAt fun _ _ => (0 : ℝ)) randC7 (-2) 0
      (initTM mC7)).1.buildings = [] :=
  c7_fallback_underwater_aux fun _ _ => 0

/-- Realism of the C7 counterexample draws: the fallback offset draw of
`randC7` lies in the JavaScript `Math.random()` range [0,1) (all other
draws are the constants 0, 1/2 or 99/100). -/
theorem randC7_fbX_in_range : 0 ≤ randC7.fbX ∧ randC7.fbX < 1 := by
  have hlo : 3.141592 < Real.pi := Real.pi_gt_d6
  have hhi : Real.pi < 3.141593 := Real.pi_lt_d6
  show (0 : ℝ) ≤ (2100 - 650 * Real.pi) / 200 ∧
    (2100 - 650 * Real.pi) / 200 < 1
  constructor <;> nlinarith

/-- Realism of the C3 scenario draws: on every chunk column used by the run,
the `treeX` and `mDist` draws of `randC3` lie in the JavaScript
`Math.random()` range [0,1) (all other draws are the constants 0 or 1/2). -/
theorem randC3_draws_in_range (cx : ℤ)
    (hcx : cx = -1 ∨ cx = 0 ∨ cx = 1 ∨ cx = 2) :
    (0 ≤ t3 cx ∧ t3 cx < 1) ∧ 0 ≤ d3 cx ∧ d3 cx < 1 := by
  have hlo : 3.141592 < Real.pi := Real.pi_gt_d6
  have hhi : Real.pi < 3.141593 := Real.pi_lt_d6
  rcases hcx with rfl | rfl | rfl | rfl <;>
    refine ⟨⟨?_, ?_⟩, ?_, ?_⟩ <;>
    · norm_num [t3, d3, b3] <;> nlinarith

/-- C3: the registry/chunk-consistency property FAILS for mountain ring
trees (terrain.js lines 1241-1273 never set `userData.chunk` on them).  In a
genuine real-number run (all random draws in [0,1)): after the first update
the ring tree `tC3` of chunk (0,0) is in `getTrees()`; `unregisterTree`
removes it from the aggregate list, but its former owning chunk, still
loaded, still lists it; and after the observer moves one chunk east (the
owning chunk stays loaded), the rebuilt aggregate list contains the
unregistered tree again.  This refutes the claim's clause for ring trees and
its persistence clause; the claim holds for entities whose `userData.chunk`
is set, which ring trees lack. -/
theorem c3_ring_tree_unregister_bug (at2 : ℝ → ℝ → ℝ) :
    tC3 ∈ (getTrees (update (realOpsAt at2) envC3 ⟨0, 0, 0⟩ (initTM c3Models))).1 ∧
    tC3 ∉ (getTrees (unregisterTree
      (update (realOpsAt at2) envC3 ⟨0, 0, 0⟩ (initTM c3Models)) tC3)).1 ∧
    (∃ e ∈ (unregisterTree
        (update (realOpsAt at2) envC3 ⟨0, 0, 0⟩ (initTM c3Models)) tC3).chunks,
      e.1 = ((0 : ℤ), (0 : ℤ)) ∧ tC3 ∈ e.2.trees) ∧
    tC3 ∈ (getTrees (update (realOpsAt at2) envC3 ⟨1000, 0, 0⟩ (unregisterTree
      (update (realOpsAt at2) envC3 ⟨0, 0, 0⟩ (initTM c3Models)) tC3))).1 := by
  have hco : coordOf ((initTM c3Models : TM ℝ)).chunkSize ⟨0, 0, 0⟩
      = ((0 : ℤ), (0 : ℤ)) := by
    show (chunkCoord (1000 : ℝ) 0, chunkCoord (1000 : ℝ) 0) = (0, 0)
    rw [chunkCoord_origin]
  have hA : update (realOpsAt at2) envC3 ⟨0, 0, 0⟩ (initTM c3Models)
      = rebuildActive (unloadChunks (windowKeys ((0 : ℤ), (0 : ℤ)))
          (loadChunksGo (realOpsAt at2) envC3 (windowKeys ((0 : ℤ), (0 : ℤ)))
            { initTM c3Models with currentChunk := some ((0 : ℤ), (0 : ℤ)) })) := by
    rw [update, hco]
    rw [if_neg (by rw [initTM]; exact fun h => Option.noConfusion h)]
    rw [updateChunks, loadChunks]
  have htree : tC3 ∈ (c3Chunk 0 0 48).trees := by
    rw [c3Chunk]
    exact List.mem_map.mpr ⟨0, by decide, rfl⟩
  have hmemA : (((0 : ℤ), (0 : ℤ)), c3Chunk 0 0 48) ∈
      (update (realOpsAt at2) envC3 ⟨0, 0, 0⟩ (initTM c3Models)).chunks := by
    rw [hA, rebuildActive_chunks, unloadChunks_chunks]
    exact List.mem_filter.mpr ⟨c3_walk at2, by decide⟩
  have h1 : tC3 ∈ (getTrees (update (realOpsAt at2) envC3 ⟨0, 0, 0⟩
      (initTM c3Models))).1 := by
    rw [getTrees]
    rw [hA, rebuildActive_activeTrees, unloadChunks_chunks]
    refine List.mem_flatMap.mpr ⟨(((0 : ℤ), (0 : ℤ)), c3Chunk 0 0 48), ?_, htree⟩
    exact List.mem_filter.mpr ⟨c3_walk at2, by decide⟩
  have hB : unregisterTree (update (realOpsAt at2) envC3 ⟨0, 0, 0⟩
      (initTM c3Models)) tC3
      = { update (realOpsAt at2) envC3 ⟨0, 0, 0⟩ (initTM c3Models) with
          activeTrees := (update (realOpsAt at2) envC3 ⟨0, 0, 0⟩
            (initTM c3Models)).activeTrees.filter
              fun x => decide (x.id ≠ tC3.id) } := by
    rw [unregisterTree, show tC3.chunkRef = none from rfl]
  have h2 : tC3 ∉ (getTrees (unregisterTree
      (update (realOpsAt at2) envC3 ⟨0, 0, 0⟩ (initTM c3Models)) tC3)).1 := by
    rw [getTrees, hB]
    intro hmem
    have := (List.mem_filter.mp hmem).2
    simp at this
  have h3 : ∃ e ∈ (unregisterTree
      (update (realOpsAt at2) envC3 ⟨0, 0, 0⟩ (initTM c3Models)) tC3).chunks,
      e.1 = ((0 : ℤ), (0 : ℤ)) ∧ tC3 ∈ e.2.trees := by
    refine ⟨(((0 : ℤ), (0 : ℤ)), c3Chunk 0 0 48), ?_, rfl, htree⟩
    rw [hB]
    exact hmemA
  have hcur : (unregisterTree (update (realOpsAt at2) envC3 ⟨0, 0, 0⟩
      (initTM c3Models)) tC3).currentChunk = some ((0 : ℤ), (0 : ℤ)) := by
    rw [hB]
    show (update (realOpsAt at2) envC3 ⟨0, 0, 0⟩ (initTM c3Models)).currentChunk
      = some ((0 : ℤ), (0 : ℤ))
    rw [update_currentChunk, hco]
  have hsize : (unregisterTree (update (realOpsAt at2) envC3 ⟨0, 0, 0⟩
      (initTM c3Models)) tC3).chunkSize = 1000 := by
    rw [hB]
    show (update (realOpsAt at2) envC3 ⟨0, 0, 0⟩ (initTM c3Models)).chunkSize
      = 1000
    rw [update_chunkSize]
    rfl
  have hco2 : coordOf (unregisterTree (update (realOpsAt at2) envC3 ⟨0, 0, 0⟩
      (initTM c3Models)) tC3).chunkSize ⟨1000, 0, 0⟩ = ((1 : ℤ), (0 : ℤ)) := by
    rw [hsize]
    show (chunkCoord (1000 : ℝ) 1000, chunkCoord (1000 : ℝ) 0) = (1, 0)
    rw [chunkCoord_origin]
    rw [show chunkCoord (1000 : ℝ) 1000 = 1 from by
      rw [chunkCoord]
      norm_num]
  have h4 : tC3 ∈ (getTrees (update (realOpsAt at2) envC3 ⟨1000, 0, 0⟩
      (unregisterTree (update (realOpsAt at2) envC3 ⟨0, 0, 0⟩
        (initTM c3Models)) tC3))).1 := by
    rw [getTrees, update, hco2]
    rw [if_neg (by rw [hcur]; decide)]
    rw [updateChunks, loadChunks]
    rw [rebuildActive_activeTrees, unloadChunks_chunks]
    refine List.mem_flatMap.mpr ⟨(((0 : ℤ), (0 : ℤ)), c3Chunk 0 0 48), ?_, htree⟩
    refine List.mem_filter.mpr ⟨?_, by decide⟩
    refine loadChunksGo_mem_entry (realOpsAt at2) envC3 _ _ _ ?_
    show (((0 : ℤ), (0 : ℤ)), c3Chunk 0 0 48) ∈ (unregisterTree
      (update (realOpsAt at2) envC3 ⟨0, 0, 0⟩ (initTM c3Models)) tC3).chunks
    rw [hB]
    exact hmemA
  exact ⟨h1, h2, h3, h4⟩

end Games
